import Mathlib

/-! # State synchronisation of the CSC-481 engine

Wire text, server, client network adapter and reconciliation.

A shallow embedding of

* `server/Server.cpp` (`reply_handler`, `pub_handler`, `objects_thread_func`),
* `src/Client.cpp` (`Client::sendCommand`, `Client::pollUpdate`),
* `game/main.cpp` (`networkReceiveThread`, the snapshot block and the send of the update lambda),
* `game/Player.cpp`, `src/Entity.cpp`, `src/Physics.cpp`, `src/Collision.cpp` (the simulation
  step of a player object),

and the properties of the specification that concern them.

Conventions of the embedding.

* A message is the list of its characters (`Text`).  The formatted extraction `iss >> v` and
  insertion `oss << v` of the C++ streams are modelled character by character: an extraction
  skips the leading white space, consumes the longest prefix that can belong to the field and
  leaves the rest of the stream where it is; once an extraction has failed, the chain has failed.
* `int` is `Int`; a value read from text must lie in the 32-bit range.  `uint32_t` is `Nat`; a
  value read from text must fit 32 bits.  Overflow of the arithmetic on counters is not modelled.
* `float` is modelled by the rationals `ℚ`: arithmetic is exact, there is no rounding to
  binary32, no infinity and no NaN.  The insertion of a `float` prints six significant digits
  (the default precision of a stream, the `%g` conversion); the extraction of a `float` reads a
  decimal literal exactly.  `std::sqrt` is exact on the squares of rationals, which is all that
  the statements use.
* `std::unordered_map` is an association list with unique keys; its iteration order, which the
  C++ standard leaves open, is the order of the list.
* Each thread body is a function from the state it reads to the state it leaves; the interleaving
  of the threads is not modelled.
-/

namespace CSC481

/-- A message payload or a stream buffer: the characters, front first. -/
abbrev Text := List Char

/-! ## Formatted extraction (`std::istringstream`) -/

/-- White space in the classic locale: space, tab, line feed, vertical tab, form feed, return. -/
def isSpace (c : Char) : Bool :=
  c == ' ' || c == '\t' || c == '\n' || c == '\r' || c == Char.ofNat 11 || c == Char.ofNat 12

/-- A decimal digit. -/
def isDigit (c : Char) : Bool := 48 ≤ c.toNat && c.toNat ≤ 57

/-- Value of a decimal digit character. -/
def digitVal (c : Char) : Nat := c.toNat - 48

/-- Skips the leading white space, as every formatted extraction does first. -/
def skipWs : Text → Text
  | [] => []
  | c :: cs => if isSpace c then skipWs cs else c :: cs

/-- Splits off the longest prefix of decimal digits. -/
def spanDigits : Text → Text × Text
  | [] => ([], [])
  | c :: cs => if isDigit c then ((c :: (spanDigits cs).1), (spanDigits cs).2) else ([], c :: cs)

/-- Splits off the longest prefix free of white space. -/
def spanWord : Text → Text × Text
  | [] => ([], [])
  | c :: cs => if isSpace c then ([], c :: cs) else ((c :: (spanWord cs).1), (spanWord cs).2)

/-- Value of a run of decimal digits, most significant first. -/
def digitsVal (ds : Text) : Nat := ds.foldl (fun acc c => acc * 10 + digitVal c) 0

/-- An optional sign in front of a number: whether it is a minus, and the rest. -/
def readSign : Text → Bool × Text
  | [] => (false, [])
  | c :: cs => if c == '-' then (true, cs) else if c == '+' then (false, cs) else (false, c :: cs)

/-- The extraction `iss >> word` into a `std::string`: the characters up to the next white space;
fails when the stream is exhausted. -/
def readWord (s : Text) : Option (Text × Text) :=
  match spanWord (skipWs s) with
  | ([], _) => none
  | (w, r) => some (w, r)

/-- Smallest `int`. -/
def INT_MIN : Int := -2147483648

/-- Largest `int`. -/
def INT_MAX : Int := 2147483647

/-- The extraction `iss >> n` into an `int`: an optional sign and at least one digit; a value
outside the 32-bit range sets the fail bit. -/
def readInt (s : Text) : Option (Int × Text) :=
  match readSign (skipWs s) with
  | (neg, s1) =>
    match spanDigits s1 with
    | ([], _) => none
    | (ds, r) =>
      if (if neg then -(digitsVal ds : Int) else (digitsVal ds : Int)) < INT_MIN then none
      else if INT_MAX < (if neg then -(digitsVal ds : Int) else (digitsVal ds : Int)) then none
      else some ((if neg then -(digitsVal ds : Int) else (digitsVal ds : Int)), r)

/-- The extraction `iss >> n` into a `uint32_t`: an optional sign and at least one digit; the
magnitude must fit 32 bits, and a minus sign negates modulo `2 ^ 32`. -/
def readUInt32 (s : Text) : Option (Nat × Text) :=
  match readSign (skipWs s) with
  | (neg, s1) =>
    match spanDigits s1 with
    | ([], _) => none
    | (ds, r) =>
      if 4294967295 < digitsVal ds then none
      else some ((if neg then (4294967296 - digitsVal ds) % 4294967296 else digitsVal ds), r)

/-- The exponent part of a floating literal: nothing, or `e`/`E`, an optional sign and at least
one digit.  An `e` that no digit follows makes the whole field unreadable. -/
def readExponent : Text → Option (Int × Text)
  | [] => some (0, [])
  | c :: cs =>
    if c == 'e' || c == 'E' then
      match readSign cs with
      | (neg, s1) =>
        match spanDigits s1 with
        | ([], _) => none
        | (ds, r) => some ((if neg then -(digitsVal ds : Int) else (digitsVal ds : Int)), r)
    else some (0, c :: cs)

/-- Ten to an integer power, as a rational. -/
def pow10 (e : Int) : ℚ :=
  if 0 ≤ e then (10 : ℚ) ^ e.toNat else 1 / (10 : ℚ) ^ (-e).toNat

/-- Magnitude from which a decimal literal no longer rounds to a finite `float`:
`FLT_MAX` plus half a unit in the last place. -/
def FLT_OVERFLOW : ℚ := 2 ^ 128 - 2 ^ 103

/-- The fraction of a floating literal: nothing, or a decimal point and the digits after it. -/
def readFraction : Text → Text × Text
  | [] => ([], [])
  | c :: cs => if c == '.' then spanDigits cs else ([], c :: cs)

/-- What follows the optional sign of a floating literal: digits with an optional decimal point
(at least one digit in all) and an optional exponent; `neg` tells whether the sign was a minus.
A magnitude too large for a `float` sets the fail bit. -/
def readFloatBody (neg : Bool) (s1 : Text) : Option (ℚ × Text) :=
  match spanDigits s1 with
  | (ip, s2) =>
    match readFraction s2 with
    | (fp, s3) =>
      if ip = [] ∧ fp = [] then none
      else
        match readExponent s3 with
        | none => none
        | some (e, r) =>
          if FLT_OVERFLOW ≤ (digitsVal (ip ++ fp) : ℚ) * pow10 (e - fp.length) then none
          else some ((if neg then -((digitsVal (ip ++ fp) : ℚ) * pow10 (e - fp.length))
                      else (digitsVal (ip ++ fp) : ℚ) * pow10 (e - fp.length)), r)

/-- The extraction `iss >> x` into a `float`. -/
def readFloat (s : Text) : Option (ℚ × Text) :=
  match readSign (skipWs s) with
  | (neg, s1) => readFloatBody neg s1

/-! ## Formatted insertion (`std::ostringstream`) -/

/-- The character of a decimal digit. -/
def digitChar (d : Nat) : Char := Char.ofNat (48 + d)

/-- Decimal digits of `n` in front of `acc`; `fuel` bounds the number of digits. -/
def natDigits : Nat → Nat → Text → Text
  | 0, _, acc => acc
  | fuel + 1, n, acc =>
    if n < 10 then digitChar n :: acc else natDigits fuel (n / 10) (digitChar (n % 10) :: acc)

/-- The insertion `oss << n` of an unsigned integer (also a `size_t`). -/
def showNat (n : Nat) : Text := natDigits (n + 1) n []

/-- The insertion `oss << n` of an `int`. -/
def showInt (i : Int) : Text :=
  if i < 0 then '-' :: showNat i.natAbs else showNat i.natAbs

/-- Drops the zeros at the end of a run of digits. -/
def stripZeros (ds : Text) : Text := (ds.reverse.dropWhile (fun c => c == '0')).reverse

/-- Position of the leading decimal digit of `n / d` for `n ≥ d > 0`: number of digits of the
integer part, minus one. -/
def log10Floor : Nat → Nat → Nat
  | 0, _ => 0
  | fuel + 1, n => if n < 10 then 0 else log10Floor fuel (n / 10) + 1

/-- For `0 < n < d`: the least `k ≥ 1` with `d ≤ n * 10 ^ k`, searched upwards from `k`. -/
def negExponent : Nat → Nat → Nat → Nat → Nat
  | 0, _, _, k => k
  | fuel + 1, n, d, k => if d ≤ n * 10 ^ k then k else negExponent fuel n d (k + 1)

/-- Decimal exponent of the leading digit of the positive rational `n / d`. -/
def decExponent (n d : Nat) : Int :=
  if d ≤ n then (log10Floor (n / d + 1) (n / d) : Int) else -(negExponent d n d 1 : Int)

/-- Quotient `n / d` rounded to the nearest integer, ties to even. -/
def roundHalfEven (n d : Nat) : Nat :=
  if 2 * (n % d) < d then n / d
  else if d < 2 * (n % d) then n / d + 1
  else if (n / d) % 2 = 0 then n / d else n / d + 1

/-- The positive rational `n / d` scaled by `10 ^ (5 - x)` and rounded to an integer: its six
significant digits when `x` is its decimal exponent. -/
def scaledMantissa (n d : Nat) (x : Int) : Nat :=
  if x ≤ 5 then roundHalfEven (n * 10 ^ (5 - x).toNat) d
  else roundHalfEven n (d * 10 ^ (x - 5).toNat)

/-- Exactly `k` decimal digits of `m`, zero padded on the left. -/
def fixedDigits : Nat → Nat → Text
  | 0, _ => []
  | k + 1, m => fixedDigits k (m / 10) ++ [digitChar (m % 10)]

/-- The fraction of a printed number: a point and the digits `f`, or nothing when no digit is
left. -/
def fraction : Text → Text
  | [] => []
  | c :: f => '.' :: c :: f

/-- The `%g` text of a six-digit mantissa `100000 ≤ m < 1000000` with decimal exponent `x`:
fixed notation for `-4 ≤ x < 6`, scientific notation otherwise; zeros at the end of the
fraction, and a point that nothing follows, are left out. -/
def formatG (m : Nat) (x : Int) : Text :=
  if 0 ≤ x ∧ x < 6 then
    (fixedDigits 6 m).take (x.toNat + 1) ++
      fraction (stripZeros ((fixedDigits 6 m).drop (x.toNat + 1)))
  else if -4 ≤ x ∧ x < 0 then
    '0' :: '.' :: (List.replicate ((-x).toNat - 1) '0' ++ stripZeros (fixedDigits 6 m))
  else
    (fixedDigits 6 m).take 1 ++ (fraction (stripZeros ((fixedDigits 6 m).drop 1)) ++
      ('e' :: (if x < 0 then '-' else '+') ::
        (if x.natAbs < 10 then '0' :: showNat x.natAbs else showNat x.natAbs)))

/-- The `%g` text of the positive rational `n / d`. -/
def showPos (n d : Nat) : Text :=
  if scaledMantissa n d (decExponent n d) = 1000000 then formatG 100000 (decExponent n d + 1)
  else formatG (scaledMantissa n d (decExponent n d)) (decExponent n d)

/-- The insertion `oss << x` of a `float` at the default precision of six significant digits. -/
def showFloat (v : ℚ) : Text :=
  if v.num = 0 then ['0']
  else if v.num < 0 then '-' :: showPos v.num.natAbs v.den
  else showPos v.num.natAbs v.den

/-! ## Wire types (`engine/NetworkTypes.h`, `engine/Types.h`) -/

/-- Modelled from the spec: `OrderedPair` is declared in `engine/Types.h`, which is not among the
sources; the spec gives a position and a velocity as a pair `{x, y}`, and the code reads and
writes the two members `x` and `y`. -/
structure OrderedPair where
  x : ℚ
  y : ℚ
deriving DecidableEq

/-- Modelled from the spec: `Velocity` is declared in `engine/Types.h`, which is not among the
sources; the code uses it as a direction and a magnitude. -/
structure Velocity where
  direction : OrderedPair
  magnitude : ℚ
deriving DecidableEq

/-- Client info sent to the server (`ClientCommand`). -/
structure ClientCommand where
  clientId : Int
  actions : Nat
  tick : Int
  x : ℚ
  y : ℚ
deriving DecidableEq

/-- One synced object of a snapshot (`SyncedObjectData`). -/
structure SyncedObjectData where
  id : Int
  type : Int
  position : OrderedPair
deriving DecidableEq

/-- World snapshot sent from the server to the clients (`WorldSnapshot`). -/
structure WorldSnapshot where
  tick : Int
  playerIds : List Int
  playerPositions : List OrderedPair
  syncedObjects : List SyncedObjectData
deriving DecidableEq

/-- What crosses a socket, in program order. -/
inductive NetEvent where
  | received (payload : Text)
  | sent (payload : Text)
  | sendFailed (payload : Text)
deriving DecidableEq

/-! ## `std::unordered_map` -/

/-- The assignment `m[k] = v`: overwrites the entry of `k`, or adds one. -/
def mapSet {β : Type} : List (Int × β) → Int → β → List (Int × β)
  | [], k, v => [(k, v)]
  | (k0, v0) :: rest, k, v => if k0 = k then (k, v) :: rest else (k0, v0) :: mapSet rest k v

/-- The lookup `m.find(k)`. -/
def mapFind {β : Type} : List (Int × β) → Int → Option β
  | [], _ => none
  | (k0, v0) :: rest, k => if k0 = k then some v0 else mapFind rest k

/-! ## The server (`server/Server.cpp`) -/

/-- A synchronised object of the server (`SyncedObject`). -/
structure SyncedObject where
  position : OrderedPair
  velocity : OrderedPair
  type : Int
  id : Int
deriving DecidableEq

/-- The two global maps of the server: `players` (player positions tracked by id) and
`syncedObjects`. -/
structure ServerState where
  players : List (Int × ℚ × ℚ)
  syncedObjects : List (Int × SyncedObject)
deriving DecidableEq

/-- The registry filled by `initializeSyncedObjects`: the platform under id 0 and the orb under
id 1. -/
def initializeSyncedObjects (objs : List (Int × SyncedObject)) : List (Int × SyncedObject) :=
  mapSet
    (mapSet objs 0
      { position := { x := 1100, y := 700 }, velocity := { x := 150, y := 0 }, type := 0, id := 0 })
    1
    { position := { x := 1920 - 128, y := 0 }, velocity := { x := -400, y := 180 }, type := 1,
      id := 1 }

/-- The fields that `iss >> cmd >> id >> tick >> actions >> x >> y` extracts from a request, when
every extraction succeeds. -/
def extractCommand (req : Text) : Option (Text × Int × Int × Nat × ℚ × ℚ) :=
  match readWord req with
  | none => none
  | some (cmd, s1) =>
    match readInt s1 with
    | none => none
    | some (id, s2) =>
      match readInt s2 with
      | none => none
      | some (tick, s3) =>
        match readUInt32 s3 with
        | none => none
        | some (actions, s4) =>
          match readFloat s4 with
          | none => none
          | some (x, s5) =>
            match readFloat s5 with
            | none => none
            | some (y, _) => some (cmd, id, tick, actions, x, y)

/-- The fixed reply of `reply_handler`. -/
def ack : Text := "Acknowledged".toList

/-- What `reply_handler` does to the `players` map with one received request. -/
def ingest (players : List (Int × ℚ × ℚ)) (req : Text) : List (Int × ℚ × ℚ) :=
  match extractCommand req with
  | some (cmd, id, _, _, x, y) => if cmd = "CMD".toList then mapSet players id (x, y) else players
  | none => players

/-- The loop of `reply_handler` over the successive outcomes of its blocking receive (`none`: the
receive returned nothing and the loop continues): the final `players` map and the socket
traffic.  The slot index `clientID` of the handler selects the port it binds and has no other
use in the loop, so it is not a parameter here. -/
def reply_handler : List (Int × ℚ × ℚ) → List (Option Text) → List (Int × ℚ × ℚ) × List NetEvent
  | players, [] => (players, [])
  | players, none :: more => reply_handler players more
  | players, some req :: more =>
    ((reply_handler (ingest players req) more).1,
      NetEvent.received req :: NetEvent.sent ack :: (reply_handler (ingest players req) more).2)

/-- The per-object update at the top of a `pub_handler` cycle (time step `0.033f`). -/
def pubObjectStep (obj : SyncedObject) : SyncedObject :=
  if obj.type = 0 then
    if obj.position.x + obj.velocity.x * (33 / 1000) ≤ 1000 then
      { obj with position := { x := 1000, y := obj.position.y },
                 velocity := { x := 150, y := obj.velocity.y } }
    else if 1500 ≤ obj.position.x + obj.velocity.x * (33 / 1000) + 200 then
      { obj with position := { x := 1500 - 200, y := obj.position.y },
                 velocity := { x := -150, y := obj.velocity.y } }
    else
      { obj with position := { x := obj.position.x + obj.velocity.x * (33 / 1000),
                               y := obj.position.y } }
  else if obj.type = 1 then
    if obj.position.x + obj.velocity.x * (33 / 1000) + 128 < 0
        ∨ 1080 < obj.position.y + obj.velocity.y * (33 / 1000) then
      { obj with position := { x := 1920 - 128, y := 0 } }
    else
      { obj with position := { x := obj.position.x + obj.velocity.x * (33 / 1000),
                               y := obj.position.y + obj.velocity.y * (33 / 1000) } }
  else obj

/-- The per-object update of `objects_thread_func` with the measured time step `delta`. -/
def tickerObjectStep (delta : ℚ) (obj : SyncedObject) : SyncedObject :=
  if obj.type = 0 then
    if obj.position.x + obj.velocity.x * delta ≤ 1000 then
      { obj with position := { x := 1000, y := obj.position.y },
                 velocity := { x := 150, y := obj.velocity.y } }
    else if 1500 ≤ obj.position.x + obj.velocity.x * delta + 200 then
      { obj with position := { x := 1500 - 200, y := obj.position.y },
                 velocity := { x := -150, y := obj.velocity.y } }
    else
      { obj with position := { x := obj.position.x + obj.velocity.x * delta,
                               y := obj.position.y } }
  else obj

/-- One pass of the loop of `objects_thread_func`. -/
def objects_thread_func (delta : ℚ) (objs : List (Int × SyncedObject)) :
    List (Int × SyncedObject) :=
  objs.map (fun kv => (kv.1, tickerObjectStep delta kv.2))

/-- The text of one player record, with the space that follows it. -/
def playerRecord (p : Int × ℚ × ℚ) : Text :=
  showInt p.1 ++ ' ' :: (showFloat p.2.1 ++ ' ' :: (showFloat p.2.2 ++ [' ']))

/-- The text of one synced-object record, with the space that follows it. -/
def objectRecord (o : SyncedObject) : Text :=
  showInt o.id ++ ' ' :: (showInt o.type ++ ' ' ::
    (showFloat o.position.x ++ ' ' :: (showFloat o.position.y ++ [' '])))

/-- The snapshot text that `pub_handler` builds from the tick, the sorted copy of the players and
the synced objects in their iteration order. -/
def snapshotText (tick : Int) (playersCopy : List (Int × ℚ × ℚ))
    (objs : List (Int × SyncedObject)) : Text :=
  "SNAP ".toList ++ (showInt tick ++ ' ' ::
    (showNat playersCopy.length ++ ' ' :: (showNat objs.length ++ ' ' ::
      ((playersCopy.map playerRecord).flatten ++
        (objs.map (fun kv => objectRecord kv.2)).flatten))))

/-- The copy of the players sorted by id (`std::sort` on the first component). -/
def sortPlayers (players : List (Int × ℚ × ℚ)) : List (Int × ℚ × ℚ) :=
  players.insertionSort (fun a b => a.1 ≤ b.1)

/-- One cycle of the loop of `pub_handler`: the tick is incremented, the synced objects are
updated, the snapshot is built and published.  Returns the new tick, the new server state and the
published text. -/
def pub_handler (tick : Int) (st : ServerState) : Int × ServerState × Text :=
  (tick + 1,
   { st with syncedObjects := st.syncedObjects.map (fun kv => (kv.1, pubObjectStep kv.2)) },
   snapshotText (tick + 1) (sortPlayers st.players)
     (st.syncedObjects.map (fun kv => (kv.1, pubObjectStep kv.2))))

/-! ## The client network adapter (`src/Client.cpp`) -/

/-- The text that `Client::sendCommand` builds from a command. -/
def commandText (cmd : ClientCommand) : Text :=
  "CMD ".toList ++ (showInt cmd.clientId ++ ' ' :: (showInt cmd.tick ++ ' ' ::
    (showNat cmd.actions ++ ' ' :: (showFloat cmd.x ++ ' ' :: showFloat cmd.y))))

/-- The tail of `Client::sendCommand` (building the text, the send, setting the flag): the flag
on exit and the traffic of the send. -/
def sendNow (sendOk : Bool) (cmd : ClientCommand) : Bool × List NetEvent :=
  (true, [if sendOk then NetEvent.sent (commandText cmd)
          else NetEvent.sendFailed (commandText cmd)])

/-- One call of `Client::sendCommand`.  `awaitingReply` is the flag on entry; `pending` is what
the non-blocking receive of this call returns if it is made (`none`: nothing to receive);
`sendOk` tells whether the transport send succeeds.  Returns the flag on exit and the socket
traffic of the call. -/
def sendCommand (awaitingReply : Bool) (pending : Option Text) (sendOk : Bool)
    (cmd : ClientCommand) : Bool × List NetEvent :=
  if awaitingReply then
    match pending with
    | some reply => ((sendNow sendOk cmd).1, NetEvent.received reply :: (sendNow sendOk cmd).2)
    | none => (awaitingReply, [])
  else sendNow sendOk cmd

/-- A sequence of calls of `Client::sendCommand`, each with the outcome of its receive and of its
send: the flag at the end and the whole socket traffic. -/
def sendCommands : Bool → List (Option Text × Bool × ClientCommand) → Bool × List NetEvent
  | flag, [] => (flag, [])
  | flag, (pending, sendOk, cmd) :: more =>
    ((sendCommands (sendCommand flag pending sendOk cmd).1 more).1,
      (sendCommand flag pending sendOk cmd).2 ++
        (sendCommands (sendCommand flag pending sendOk cmd).1 more).2)

/-- The resizing `v.resize(n)` of a vector: truncates, or pads with value-initialised elements. -/
def resize {α : Type} (v : List α) (n : Nat) (dflt : α) : List α :=
  v.take n ++ List.replicate (n - v.length) dflt

/-- How a call of `Client::pollUpdate` ends: it returns `true` or `false`, or a `resize` to a
negative count (converted to a huge `size_t`) throws `std::length_error`.  In each case `out` is
the caller's snapshot object as the call leaves it.  A `resize` to a count that is not negative
is taken to succeed: memory is not bounded in the embedding. -/
inductive PollResult where
  | returned (ok : Bool) (out : WorldSnapshot)
  | threw (out : WorldSnapshot)
deriving DecidableEq

/-- The three extractions `iss >> id >> x >> y` of a player record. -/
def extractPlayer (s : Text) : Option (Int × ℚ × ℚ × Text) :=
  match readInt s with
  | none => none
  | some (id, s1) =>
    match readFloat s1 with
    | none => none
    | some (x, s2) =>
      match readFloat s2 with
      | none => none
      | some (y, s3) => some (id, x, y, s3)

/-- The four extractions `iss >> id >> type >> x >> y` of a synced-object record. -/
def extractObject (s : Text) : Option (Int × Int × ℚ × ℚ × Text) :=
  match readInt s with
  | none => none
  | some (id, s1) =>
    match readInt s1 with
    | none => none
    | some (type, s2) =>
      match readFloat s2 with
      | none => none
      | some (x, s3) =>
        match readFloat s3 with
        | none => none
        | some (y, s4) => some (id, type, x, y, s4)

/-- The player loop of `pollUpdate` from index `i` with `n` records still to read: whether every
read succeeded, the rest of the stream and `out`. -/
def pollPlayers : Nat → Nat → Text → WorldSnapshot → Bool × Text × WorldSnapshot
  | 0, _, s, out => (true, s, out)
  | n + 1, i, s, out =>
    match extractPlayer s with
    | none => (false, s, out)
    | some (id, x, y, r) =>
      pollPlayers n (i + 1) r
        { out with playerIds := out.playerIds.set i id,
                   playerPositions := out.playerPositions.set i { x := x, y := y } }

/-- The synced-object loop of `pollUpdate` from index `j` with `n` records still to read. -/
def pollObjects : Nat → Nat → Text → WorldSnapshot → Bool × Text × WorldSnapshot
  | 0, _, s, out => (true, s, out)
  | n + 1, j, s, out =>
    match extractObject s with
    | none => (false, s, out)
    | some (id, type, x, y, r) =>
      pollObjects n (j + 1) r
        { out with syncedObjects :=
            out.syncedObjects.set j { id := id, type := type, position := { x := x, y := y } } }

/-- One call of `Client::pollUpdate`.  `msg` is what the non-blocking receive on the subscriber
returns (`none`: no data); `out` is the caller's snapshot object on entry. -/
def pollUpdate (msg : Option Text) (out : WorldSnapshot) : PollResult :=
  match msg with
  | none => PollResult.returned false out
  | some data =>
    match readWord data with
    | none => PollResult.returned false out
    | some (tag, s1) =>
      if tag ≠ "SNAP".toList then PollResult.returned false out
      else
        match readInt s1 with
        | none => PollResult.returned false out
        | some (tick, s2) =>
          match readInt s2 with
          | none => PollResult.returned false out
          | some (playerCount, s3) =>
            match readInt s3 with
            | none => PollResult.returned false out
            | some (objectCount, s4) =>
              if playerCount < 0 then PollResult.threw { out with tick := tick }
              else if objectCount < 0 then
                PollResult.threw
                  { out with tick := tick,
                             playerIds := resize out.playerIds playerCount.toNat 0,
                             playerPositions :=
                               resize out.playerPositions playerCount.toNat { x := 0, y := 0 } }
              else
                match pollPlayers playerCount.toNat 0 s4
                    { tick := tick,
                      playerIds := resize out.playerIds playerCount.toNat 0,
                      playerPositions :=
                        resize out.playerPositions playerCount.toNat { x := 0, y := 0 },
                      syncedObjects :=
                        resize out.syncedObjects objectCount.toNat
                          { id := 0, type := 0, position := { x := 0, y := 0 } } } with
                | (false, _, out1) => PollResult.returned false out1
                | (true, s5, out1) =>
                  match pollObjects objectCount.toNat 0 s5 out1 with
                  | (ok, _, out2) => PollResult.returned ok out2

/-! ## The game client (`game/main.cpp`) -/

/-- The snapshot storage shared by the receive thread and the update lambda (`ServerSnapshot`). -/
structure ServerSnapshot where
  otherPlayersPositions : List (Int × OrderedPair)
  syncedObjects : List SyncedObjectData
  valid : Bool
deriving DecidableEq

/-- The initial value of the global `latestSnapshot`. -/
def latestSnapshot0 : ServerSnapshot :=
  { otherPlayersPositions := [], syncedObjects := [], valid := false }

/-- The filter loop of `networkReceiveThread`: every player id other than `playerID` is entered
into the map with the position of the same index. -/
def filterPlayers (playerID : Int) (snapshot : WorldSnapshot) : List (Int × OrderedPair) :=
  (List.range snapshot.playerIds.length).foldl
    (fun m i =>
      if snapshot.playerIds.getD i 0 ≠ playerID then
        mapSet m (snapshot.playerIds.getD i 0) (snapshot.playerPositions.getD i { x := 0, y := 0 })
      else m)
    []

/-- What `networkReceiveThread` stores in `latestSnapshot` once `pollUpdate` has returned `true`
with `snapshot`. -/
def storeSnapshot (playerID : Int) (snapshot : WorldSnapshot) : ServerSnapshot :=
  { syncedObjects := snapshot.syncedObjects,
    otherPlayersPositions := filterPlayers playerID snapshot,
    valid := true }

/-- A fresh local `WorldSnapshot snapshot;` of the receive loop: empty sequences (the tick is
indeterminate and is never read before it is written; it is taken as 0). -/
def freshSnapshot : WorldSnapshot :=
  { tick := 0, playerIds := [], playerPositions := [], syncedObjects := [] }

/-- One iteration of the loop of `networkReceiveThread` on what the subscriber delivers: the new
value of `latestSnapshot`, or `none` when `pollUpdate` threw (nothing catches the exception). -/
def networkReceiveThread (playerID : Int) (latest : ServerSnapshot) (msg : Option Text) :
    Option ServerSnapshot :=
  match pollUpdate msg freshSnapshot with
  | PollResult.returned false _ => some latest
  | PollResult.returned true snapshot => some (storeSnapshot playerID snapshot)
  | PollResult.threw _ => none

/-- The class of an entity object. -/
inductive EntityKind where
  | static
  | player
  | auto
deriving DecidableEq

/-- An entity object of the engine: the members of `Entity` that the simulation uses, and the
members of its subclasses `Player` and `Auto`. -/
structure Entity where
  kind : EntityKind
  position : OrderedPair
  dimensions : OrderedPair
  velocity : Velocity := { direction := { x := 0, y := 0 }, magnitude := 0 }
  applyGravity : Bool
  collidable : Bool
  pendingActions : Nat := 0
  pendingTick : Int := 0
  isOnGround : Bool := false
  dodgeActive : Bool := false
  dodgeTimer : ℚ := 0
  paused : Bool := false
  serverControlled : Bool := true
deriving DecidableEq

/-- The object built by `new Static(x, y, w, h, texture)`. -/
def newStatic (x y w h : ℚ) : Entity :=
  { kind := EntityKind.static, position := { x := x, y := y }, dimensions := { x := w, y := h },
    applyGravity := false, collidable := true }

/-- The object built by `new Player(x, y, w, h, texture)`. -/
def newPlayer (x y w h : ℚ) : Entity :=
  { kind := EntityKind.player, position := { x := x, y := y }, dimensions := { x := w, y := h },
    applyGravity := true, collidable := true }

/-- The object built by `new Auto(x, y, w, h, texture)`. -/
def newAuto (x y w h : ℚ) : Entity :=
  { kind := EntityKind.auto, position := { x := x, y := y }, dimensions := { x := w, y := h },
    applyGravity := false, collidable := true }

/-- The call `Auto::setServerControlled(true)`: the flag is set and the velocity cleared. -/
def setServerControlledTrue (e : Entity) : Entity :=
  { e with serverControlled := true,
           velocity := { direction := { x := 0, y := 0 }, magnitude := 0 } }

/-- The call `Entity::setPosition`. -/
def setPosition (e : Entity) (p : OrderedPair) : Entity := { e with position := p }

/-- The entity side of the game client.  An entity pointer is the index of the object in the
engine's list `s_entities` (every object the game creates is added to the list at once). -/
structure GameClient where
  entities : List Entity
  localPlayer : Nat
  otherPlayers : List (Int × Nat)
  orb : Option Nat
deriving DecidableEq

/-- The entities of `main` before the loop starts: the static platform and the local player. -/
def initialGame : GameClient :=
  { entities := [newStatic 300 800 96 32, newPlayer 300 500 64 64],
    localPlayer := 1, otherPlayers := [], orb := none }

/-- The call `p->setPosition(pos)` through the entity pointer `p`. -/
def setPositionAt (entities : List Entity) (p : Nat) (pos : OrderedPair) : List Entity :=
  match entities[p]? with
  | some e => entities.set p (setPosition e pos)
  | none => entities

/-- The body of the synced-object loop of the update lambda for one snapshot entry. -/
def applyObject (g : GameClient) (obj : SyncedObjectData) : GameClient :=
  if obj.id = 1 ∧ obj.type = 1 then
    match g.orb with
    | none =>
      { g with orb := some g.entities.length,
               entities := g.entities ++
                 [setServerControlledTrue (newAuto obj.position.x obj.position.y 128 128)] }
    | some p => { g with entities := setPositionAt g.entities p obj.position }
  else g

/-- The body of the other-players loop of the update lambda for one map entry. -/
def applyPlayer (g : GameClient) (entry : Int × OrderedPair) : GameClient :=
  match mapFind g.otherPlayers entry.1 with
  | none =>
    { g with otherPlayers := mapSet g.otherPlayers entry.1 g.entities.length,
             entities := g.entities ++ [newPlayer entry.2.x entry.2.y 64 64] }
  | some p => { g with entities := setPositionAt g.entities p entry.2 }

/-- The snapshot block of the update lambda: applies `latestSnapshot` to the orb and to the
other players when it is valid. -/
def applySnapshot (latest : ServerSnapshot) (g : GameClient) : GameClient :=
  if latest.valid then
    latest.otherPlayersPositions.foldl applyPlayer (latest.syncedObjects.foldl applyObject g)
  else g

/-! ## The simulation step of an entity (`Physics.cpp`, `Collision.cpp`, `Entity.cpp`,
`Player.cpp`) -/

/-- Largest `k` with `k * k ≤ n`, searched upwards from `k`; `fuel` bounds the search. -/
def sqrtSearch : Nat → Nat → Nat → Nat
  | 0, _, k => k
  | fuel + 1, n, k => if (k + 1) * (k + 1) ≤ n then sqrtSearch fuel n (k + 1) else k

/-- The call `std::sqrt(q)` on the rationals: the exact root when `q` is the square of a
rational.  For any other argument the root is not rational; the embedding then rounds the roots
of the numerator and of the denominator down, and no statement relies on that value. -/
def sqrtQ (q : ℚ) : ℚ :=
  (sqrtSearch q.num.toNat q.num.toNat 0 : ℚ) / (sqrtSearch q.den q.den 0 : ℚ)

/-- The call `Physics::apply(entity, deltaTime)` with the global `gravityWeight`: gravity is added
to the vertical component of the velocity, which is then split again into a unit direction and a
magnitude. -/
def physicsApply (gravityWeight deltaTime : ℚ) (e : Entity) : Entity :=
  if e.applyGravity then
    if 1 / 10000 <
        sqrtQ (e.velocity.direction.x * e.velocity.magnitude
                * (e.velocity.direction.x * e.velocity.magnitude)
              + (e.velocity.direction.y * e.velocity.magnitude + gravityWeight * deltaTime)
                * (e.velocity.direction.y * e.velocity.magnitude + gravityWeight * deltaTime))
    then
      { e with velocity :=
          { direction :=
              { x := e.velocity.direction.x * e.velocity.magnitude /
                  sqrtQ (e.velocity.direction.x * e.velocity.magnitude
                          * (e.velocity.direction.x * e.velocity.magnitude)
                        + (e.velocity.direction.y * e.velocity.magnitude
                            + gravityWeight * deltaTime)
                          * (e.velocity.direction.y * e.velocity.magnitude
                            + gravityWeight * deltaTime)),
                y := (e.velocity.direction.y * e.velocity.magnitude
                        + gravityWeight * deltaTime) /
                  sqrtQ (e.velocity.direction.x * e.velocity.magnitude
                          * (e.velocity.direction.x * e.velocity.magnitude)
                        + (e.velocity.direction.y * e.velocity.magnitude
                            + gravityWeight * deltaTime)
                          * (e.velocity.direction.y * e.velocity.magnitude
                            + gravityWeight * deltaTime)) },
            magnitude :=
              sqrtQ (e.velocity.direction.x * e.velocity.magnitude
                      * (e.velocity.direction.x * e.velocity.magnitude)
                    + (e.velocity.direction.y * e.velocity.magnitude
                        + gravityWeight * deltaTime)
                      * (e.velocity.direction.y * e.velocity.magnitude
                        + gravityWeight * deltaTime)) } }
    else
      { e with velocity := { direction := { x := 0, y := 0 }, magnitude := 0 } }
  else e

/-- The base step `Entity::update(deltaTime)`: gravity when the entity is subject to it, then the
velocity is applied to the position. -/
def entityUpdate (gravityWeight deltaTime : ℚ) (e : Entity) : Entity :=
  { (if e.applyGravity then physicsApply gravityWeight deltaTime e else e) with
    position :=
      { x := (if e.applyGravity then physicsApply gravityWeight deltaTime e else e).position.x
          + (if e.applyGravity then physicsApply gravityWeight deltaTime e
             else e).velocity.direction.x
            * (if e.applyGravity then physicsApply gravityWeight deltaTime e
               else e).velocity.magnitude * deltaTime,
        y := (if e.applyGravity then physicsApply gravityWeight deltaTime e else e).position.y
          + (if e.applyGravity then physicsApply gravityWeight deltaTime e
             else e).velocity.direction.y
            * (if e.applyGravity then physicsApply gravityWeight deltaTime e
               else e).velocity.magnitude * deltaTime } }

/-- The test `Collision::checkCollision(a, b)`: the bounding boxes overlap on both axes. -/
def checkCollision (a b : Entity) : Bool :=
  (decide (a.position.x < b.position.x + b.dimensions.x)
    && decide (b.position.x < a.position.x + a.dimensions.x))
  && (decide (a.position.y < b.position.y + b.dimensions.y)
    && decide (b.position.y < a.position.y + a.dimensions.y))

/-- One iteration of the first loop of `Player::update` (platform collisions) for the entity
`other` found at index `i` of the engine's list; `self` is the index of the player itself. -/
def landOn (self : Nat) (e : Entity) (i : Nat) (other : Entity) : Entity :=
  if i = self ∨ other.collidable = false then e
  else if other.kind = EntityKind.static then
    if other.position.y ≤ e.position.y + e.dimensions.y ∧ checkCollision e other = true then
      { e with position := { x := e.position.x, y := other.position.y - e.dimensions.y },
               velocity := { direction := { x := 0, y := 0 }, magnitude := 0 },
               isOnGround := true }
    else e
  else e

/-- One iteration of the second loop of `Player::update` (orb collisions): a hit while not
dodging resets the position to `(300, 500)` and the velocity to zero (`handleCollision`). -/
def hitBy (self : Nat) (e : Entity) (i : Nat) (other : Entity) : Entity :=
  if i = self ∨ other.collidable = false then e
  else if other.kind = EntityKind.auto then
    if checkCollision e other = true ∧ e.dodgeActive = false then
      { e with position := { x := 300, y := 500 },
               velocity := { direction := { x := 0, y := 0 }, magnitude := 0 } }
    else e
  else e

/-- A loop `for (Entity* other : ents)` with its index, threading the state of the player. -/
def forEntities (f : Entity → Nat → Entity → Entity) : Entity → Nat → List Entity → Entity
  | e, _, [] => e
  | e, i, other :: more => forEntities f (f e i other) (i + 1) more

/-- The dodge timer at the top of `Player::update`. -/
def dodgeTick (deltaTime : ℚ) (e : Entity) : Entity :=
  if e.dodgeActive then
    if e.dodgeTimer - deltaTime ≤ 0 then
      { e with dodgeTimer := e.dodgeTimer - deltaTime, dodgeActive := false }
    else { e with dodgeTimer := e.dodgeTimer - deltaTime }
  else e

/-- The actions of `Player::update`: `startDodge` on the dodge bit when no dodge is active,
`jump` on the jump bit when the player stands on the ground; then the pending actions are
cleared.  The two masks `ACTION_DODGE` and `ACTION_JUMP` are declared in `Actions.h`, which is not
among the sources, and are parameters. -/
def handleActions (ACTION_DODGE ACTION_JUMP : Nat) (e : Entity) : Entity :=
  { (if e.isOnGround = true ∧ e.pendingActions &&& ACTION_JUMP ≠ 0 then
      { (if e.pendingActions &&& ACTION_DODGE ≠ 0 ∧ e.dodgeActive = false then
          { e with dodgeActive := true, dodgeTimer := 3 }
        else e) with
        velocity := { direction := { x := 0, y := -1 }, magnitude := 500 } }
    else
      (if e.pendingActions &&& ACTION_DODGE ≠ 0 ∧ e.dodgeActive = false then
        { e with dodgeActive := true, dodgeTimer := 3 }
      else e)) with
    pendingActions := 0 }

/-- The simulation step `Player::update(deltaTime)` of the player object at index `self` of the
engine's list `ents`, whose state is `e`. -/
def playerUpdate (gravityWeight : ℚ) (ACTION_DODGE ACTION_JUMP : Nat) (ents : List Entity)
    (self : Nat) (deltaTime : ℚ) (e : Entity) : Entity :=
  if e.paused then e
  else
    forEntities (hitBy self)
      (handleActions ACTION_DODGE ACTION_JUMP
        (forEntities (landOn self)
          { entityUpdate gravityWeight deltaTime (dodgeTick deltaTime e) with isOnGround := false }
          0 ents))
      0 ents

/-- The command that the update lambda of `main` builds in a step in which it sends:
`ClientCommand cmd{ playerID, currentTick, actionMask, x, y }` initialises the members of the
struct in the order of their declaration, which is `clientId, actions, tick, x, y`; the `int`
`currentTick` is converted to `uint32_t` and the `uint32_t` `actionMask` to `int`. -/
def buildCommand (playerID currentTick : Int) (actionMask : Nat) (position : OrderedPair) :
    ClientCommand :=
  ClientCommand.mk playerID (currentTick % 4294967296).toNat
    (if actionMask < 2147483648 then (actionMask : Int) else (actionMask : Int) - 4294967296)
    position.x position.y

/-- The loop of `pub_handler` over its cycles, from the value `tick` of its counter and the
server state `st`.  Between two cycles the other threads run: `others` gives, for each cycle,
what they did to the state since the previous one.  Returns the published texts in order. -/
def pub_loop : Int → ServerState → List (ServerState → ServerState) → List Text
  | _, _, [] => []
  | tick, st, during :: more =>
    (pub_handler tick (during st)).2.2 ::
      pub_loop (pub_handler tick (during st)).1 (pub_handler tick (during st)).2.1 more

/-- The whole of the thread `pub_handler`: the registry is initialised, the counter starts at 0,
and the cycles follow. -/
def pub_thread (st : ServerState) (others : List (ServerState → ServerState)) : List Text :=
  pub_loop 0 { st with syncedObjects := initializeSyncedObjects st.syncedObjects } others

/-- The thread `reply_handler(context, clientID)` of the client slot `clientID`: it binds the
port `5556 + clientID` and runs its loop on what arrives there.  Returns the port, the final
`players` map and the socket traffic. -/
def reply_slot (clientID : Int) (players : List (Int × ℚ × ℚ)) (received : List (Option Text)) :
    Int × List (Int × ℚ × ℚ) × List NetEvent :=
  (5556 + clientID, reply_handler players received)

/-! ## Predicates used in the statements -/

/-- What may follow a number in a stream for the number to end there: the end of the stream or a
space. -/
def Ends (rest : Text) : Prop := rest = [] ∨ ∃ r, rest = ' ' :: r

/-- A `float` value that the stream reads back from its own six-digit text, up to the end of the
stream or the next space. -/
def ReadsBack (v : ℚ) : Prop :=
  ∀ rest, Ends rest → readFloat (showFloat v ++ rest) = some (v, rest)

/-- An `int` value. -/
def IsInt32 (i : Int) : Prop := INT_MIN ≤ i ∧ i ≤ INT_MAX

/-- The keys of a map. -/
def keys {β : Type} (m : List (Int × β)) : List Int := m.map Prod.fst

/-- The pointers of the game are sound: each points into the engine's list, the mirrors are
objects of their own, distinct from one another and from the local player. -/
def GameClient.WF (g : GameClient) : Prop :=
  g.localPlayer < g.entities.length ∧
  (∀ kp ∈ g.otherPlayers, kp.2 < g.entities.length ∧ kp.2 ≠ g.localPlayer) ∧
  (∀ p, g.orb = some p →
    p < g.entities.length ∧ p ≠ g.localPlayer ∧ ∀ kp ∈ g.otherPlayers, kp.2 ≠ p) ∧
  (g.otherPlayers.map Prod.snd).Nodup

/-- Number of white-space separated tokens of a payload; the flag tells whether the previous
character belonged to a token. -/
def countTokens : Bool → Text → Nat
  | _, [] => 0
  | inToken, c :: cs =>
    if isSpace c then countTokens false cs
    else if inToken then countTokens true cs else countTokens true cs + 1

/-- The header that `pollUpdate` reads before it writes to `out`: the tag, which must be `SNAP`,
then the tick and the two counts. -/
def extractHeader (data : Text) : Option (Int × Int × Int × Text) :=
  match readWord data with
  | none => none
  | some (tag, s1) =>
    if tag ≠ "SNAP".toList then none
    else
      match readInt s1 with
      | none => none
      | some (tick, s2) =>
        match readInt s2 with
        | none => none
        | some (playerCount, s3) =>
          match readInt s3 with
          | none => none
          | some (objectCount, s4) => some (tick, playerCount, objectCount, s4)

/-- The entries of a snapshot that the update lambda takes for the orb: id 1 and type 1. -/
def orbEntries (objs : List SyncedObjectData) : List SyncedObjectData :=
  objs.filter (fun o => decide (o.id = 1 ∧ o.type = 1))

/-- A `float` value with at most six significant decimal digits: zero, or plus or minus a
six-digit integer `100000 ≤ m ≤ 999999` times a power of ten, of a magnitude that fits a
`float`. -/
def SixDigits (v : ℚ) : Prop :=
  (v = 0 ∨ ∃ (m : Nat) (x : Int), 100000 ≤ m ∧ m < 1000000 ∧ |v| = (m : ℚ) * pow10 (x - 5)) ∧
  |v| < FLT_OVERFLOW

/-! ## Lemmas on the formatted text -/



theorem isDigit_digitChar : ∀ d, d < 10 → isDigit (digitChar d) = true := by decide

theorem digitVal_digitChar : ∀ d, d < 10 → digitVal (digitChar d) = d := by decide

theorem isSpace_of_isDigit (c : Char) (h : isDigit c = true) : isSpace c = false := by
  have h1 : 48 ≤ c.toNat := by
    simp only [isDigit, Bool.and_eq_true, decide_eq_true_eq] at h
    exact h.1
  have hne : ∀ k : Nat, k < 48 → c ≠ Char.ofNat k := by
    intro k hk hc
    have : c.toNat = (Char.ofNat k).toNat := by rw [hc]
    have h2 : (Char.ofNat k).toNat = k := by
      interval_cases k <;> rfl
    omega
  simp only [isSpace, Bool.or_eq_false_iff, beq_eq_false_iff_ne, ne_eq]
  refine ⟨⟨⟨⟨⟨?_, ?_⟩, ?_⟩, ?_⟩, ?_⟩, ?_⟩
  · exact hne 32 (by omega)
  · exact hne 9 (by omega)
  · exact hne 10 (by omega)
  · exact hne 13 (by omega)
  · exact hne 11 (by omega)
  · exact hne 12 (by omega)

theorem natDigits_fuel (f1 : Nat) : ∀ (f2 n : Nat) (acc : Text), n < f1 → n < f2 →
    natDigits f1 n acc = natDigits f2 n acc := by
  induction f1 with
  | zero => intro f2 n acc h; omega
  | succ f1 ih =>
    intro f2 n acc h1 h2
    cases f2 with
    | zero => omega
    | succ f2 =>
      simp only [natDigits]
      split
      · rfl
      · exact ih f2 (n / 10) _ (by omega) (by omega)

theorem natDigits_acc (f : Nat) : ∀ (n : Nat) (acc : Text),
    natDigits f n acc = natDigits f n [] ++ acc := by
  induction f with
  | zero => intro n acc; simp [natDigits]
  | succ f ih =>
    intro n acc
    simp only [natDigits]
    split
    · simp
    · rw [ih (n / 10) (digitChar (n % 10) :: acc), ih (n / 10) [digitChar (n % 10)]]
      simp

theorem showNat_lt {n : Nat} (h : n < 10) : showNat n = [digitChar n] := by
  simp [showNat, natDigits, h]

theorem showNat_ge {n : Nat} (h : 10 ≤ n) :
    showNat n = showNat (n / 10) ++ [digitChar (n % 10)] := by
  have h1 : ¬ n < 10 := by omega
  rw [showNat, natDigits, if_neg h1, natDigits_acc, showNat]
  rw [natDigits_fuel n (n / 10 + 1) (n / 10) [] (by omega) (by omega)]

/-- The printed form of a natural number is a non-empty run of digits. -/
theorem showNat_digits (n : Nat) : showNat n ≠ [] ∧ ∀ c ∈ showNat n, isDigit c = true := by
  induction n using Nat.strong_induction_on with
  | _ n ih =>
    by_cases h : n < 10
    · rw [showNat_lt h]
      refine ⟨by simp, ?_⟩
      intro c hc
      simp only [List.mem_singleton] at hc
      rw [hc]
      exact isDigit_digitChar n h
    · rw [showNat_ge (by omega)]
      refine ⟨by simp, ?_⟩
      intro c hc
      rw [List.mem_append, List.mem_singleton] at hc
      rcases hc with hc | hc
      · exact (ih (n / 10) (by omega)).2 c hc
      · rw [hc]
        exact isDigit_digitChar _ (Nat.mod_lt _ (by omega))

theorem digitsVal_append_singleton (ds : Text) (c : Char) :
    digitsVal (ds ++ [c]) = digitsVal ds * 10 + digitVal c := by
  simp [digitsVal, List.foldl_append]

/-- Reading the printed digits gives the number back. -/
theorem digitsVal_showNat (n : Nat) : digitsVal (showNat n) = n := by
  induction n using Nat.strong_induction_on with
  | _ n ih =>
    by_cases h : n < 10
    · rw [showNat_lt h]
      simp [digitsVal, digitVal_digitChar n h]
    · rw [showNat_ge (by omega), digitsVal_append_singleton, ih (n / 10) (by omega),
        digitVal_digitChar _ (Nat.mod_lt _ (by omega))]
      omega

theorem spanDigits_ends (rest : Text) (h : Ends rest) : spanDigits rest = ([], rest) := by
  rcases h with rfl | ⟨r, rfl⟩
  · rfl
  · simp [spanDigits, isDigit]

theorem spanDigits_append (ds rest : Text) (hds : ∀ c ∈ ds, isDigit c = true)
    (h : spanDigits rest = ([], rest)) : spanDigits (ds ++ rest) = (ds, rest) := by
  induction ds with
  | nil => simpa using h
  | cons c ds ih =>
    have hc : isDigit c = true := hds c (List.mem_cons_self _ _)
    have ih1 := ih (fun d hd => hds d (List.mem_cons_of_mem _ hd))
    simp [spanDigits, hc, ih1]

theorem skipWs_space (s : Text) : skipWs (' ' :: s) = skipWs s := by
  simp [skipWs, isSpace]

theorem skipWs_of_not_space (c : Char) (s : Text) (h : isSpace c = false) :
    skipWs (c :: s) = c :: s := by
  simp [skipWs, h]

theorem showNat_head (n : Nat) : ∃ c cs, showNat n = c :: cs ∧ isDigit c = true := by
  obtain ⟨hne, hd⟩ := showNat_digits n
  cases hs : showNat n with
  | nil => exact absurd hs hne
  | cons c cs => exact ⟨c, cs, rfl, hd c (by rw [hs]; exact List.mem_cons_self _ _)⟩

theorem readSign_of_isDigit (c : Char) (s : Text) (h : isDigit c = true) :
    readSign (c :: s) = (false, c :: s) := by
  have h1 : c ≠ '-' := by
    intro hc
    rw [hc] at h
    exact absurd h (by decide)
  have h2 : c ≠ '+' := by
    intro hc
    rw [hc] at h
    exact absurd h (by decide)
  simp [readSign, h1, h2]

theorem readInt_space (s : Text) : readInt (' ' :: s) = readInt s := by
  simp [readInt, skipWs_space]

theorem readUInt32_space (s : Text) : readUInt32 (' ' :: s) = readUInt32 s := by
  simp [readUInt32, skipWs_space]

theorem readFloat_space (s : Text) : readFloat (' ' :: s) = readFloat s := by
  simp [readFloat, skipWs_space]

/-- An `int` written by `oss << i` is read back by `iss >> i`, up to the end or the next space. -/
theorem readInt_showInt (i : Int) (rest : Text) (hlo : INT_MIN ≤ i) (hhi : i ≤ INT_MAX)
    (hrest : Ends rest) : readInt (showInt i ++ rest) = some (i, rest) := by
  obtain ⟨c, cs, hcs, hc⟩ := showNat_head i.natAbs
  have hsp := spanDigits_append (showNat i.natAbs) rest (showNat_digits _).2
    (spanDigits_ends rest hrest)
  have hval := digitsVal_showNat i.natAbs
  by_cases hneg : i < 0
  · have hshow : showInt i = '-' :: showNat i.natAbs := by simp [showInt, hneg]
    have habs : ((i.natAbs : Nat) : Int) = -i := by omega
    rw [hshow, readInt, List.cons_append, skipWs_of_not_space _ _ (by decide)]
    simp only [readSign, beq_self_eq_true, if_true]
    rw [hsp]
    rw [hcs] at hval ⊢
    simp only [hval, if_true, habs, neg_neg]
    rw [if_neg (by omega), if_neg (by omega)]
  · have hshow : showInt i = showNat i.natAbs := by simp [showInt, hneg]
    have habs : ((i.natAbs : Nat) : Int) = i := by omega
    rw [hshow, readInt]
    have hsk : skipWs (showNat i.natAbs ++ rest) = showNat i.natAbs ++ rest := by
      rw [hcs, List.cons_append]
      exact skipWs_of_not_space _ _ (isSpace_of_isDigit c hc)
    rw [hsk]
    have hsg : readSign (showNat i.natAbs ++ rest) = (false, showNat i.natAbs ++ rest) := by
      rw [hcs, List.cons_append]
      exact readSign_of_isDigit _ _ hc
    rw [hsg]
    simp only
    rw [hsp]
    rw [hcs] at hval ⊢
    simp only [hval, Bool.false_eq_true, if_false, habs]
    rw [if_neg (by omega), if_neg (by omega)]

/-- A `uint32_t` written by `oss << n` is read back by `iss >> n`. -/
theorem readUInt32_showNat (n : Nat) (rest : Text) (hn : n < 4294967296) (hrest : Ends rest) :
    readUInt32 (showNat n ++ rest) = some (n, rest) := by
  obtain ⟨c, cs, hcs, hc⟩ := showNat_head n
  have hsp := spanDigits_append (showNat n) rest (showNat_digits _).2
    (spanDigits_ends rest hrest)
  have hval := digitsVal_showNat n
  rw [readUInt32]
  have hsk : skipWs (showNat n ++ rest) = showNat n ++ rest := by
    rw [hcs, List.cons_append]
    exact skipWs_of_not_space _ _ (isSpace_of_isDigit c hc)
  rw [hsk]
  have hsg : readSign (showNat n ++ rest) = (false, showNat n ++ rest) := by
    rw [hcs, List.cons_append]
    exact readSign_of_isDigit _ _ hc
  rw [hsg]
  simp only
  rw [hsp]
  rw [hcs] at hval ⊢
  simp only [hval, Bool.false_eq_true, if_false]
  rw [if_neg (by omega)]


theorem ends_space (r : Text) : Ends (' ' :: r) := Or.inr ⟨r, rfl⟩

theorem showInt_natCast (n : Nat) : showInt (n : Int) = showNat n := by
  have h : ¬ ((n : Int) < 0) := by omega
  simp [showInt, h]

theorem length_resize {α : Type} (v : List α) (n : Nat) (d : α) : (resize v n d).length = n := by
  simp only [resize, List.length_append, List.length_take, List.length_replicate]
  omega

theorem extractPlayer_record (p : Int × ℚ × ℚ) (tail : Text) (hid : IsInt32 p.1)
    (hx : ReadsBack p.2.1) (hy : ReadsBack p.2.2) :
    extractPlayer (' ' :: (playerRecord p ++ tail)) = some (p.1, p.2.1, p.2.2, ' ' :: tail) := by
  simp only [extractPlayer, playerRecord, readInt_space, List.append_assoc, List.cons_append,
    List.nil_append]
  rw [readInt_showInt _ _ hid.1 hid.2 (ends_space _)]
  simp only [readFloat_space]
  rw [hx _ (ends_space _)]
  simp only [readFloat_space]
  rw [hy _ (ends_space _)]

theorem extractObject_record (o : SyncedObject) (tail : Text) (hid : IsInt32 o.id)
    (hty : IsInt32 o.type) (hx : ReadsBack o.position.x) (hy : ReadsBack o.position.y) :
    extractObject (' ' :: (objectRecord o ++ tail))
      = some (o.id, o.type, o.position.x, o.position.y, ' ' :: tail) := by
  simp only [extractObject, objectRecord, readInt_space, List.append_assoc, List.cons_append,
    List.nil_append]
  rw [readInt_showInt _ _ hid.1 hid.2 (ends_space _)]
  simp only [readInt_space]
  rw [readInt_showInt _ _ hty.1 hty.2 (ends_space _)]
  simp only [readFloat_space]
  rw [hx _ (ends_space _)]
  simp only [readFloat_space]
  rw [hy _ (ends_space _)]

theorem set_append_junk {α : Type} (pre : List α) (j : α) (junk : List α) (a : α) :
    (pre ++ j :: junk).set pre.length a = (pre ++ [a]) ++ junk := by
  induction pre with
  | nil => simp
  | cons b pre ih => simp [ih]

theorem pollPlayers_records (ps : List (Int × ℚ × ℚ)) :
    ∀ (tail : Text) (out : WorldSnapshot) (pre1 junk1 : List Int) (pre2 junk2 : List OrderedPair),
      (∀ p ∈ ps, IsInt32 p.1 ∧ ReadsBack p.2.1 ∧ ReadsBack p.2.2) →
      out.playerIds = pre1 ++ junk1 → junk1.length = ps.length →
      out.playerPositions = pre2 ++ junk2 → junk2.length = ps.length →
      pre2.length = pre1.length →
      pollPlayers ps.length pre1.length (' ' :: ((ps.map playerRecord).flatten ++ tail)) out
        = (true, ' ' :: tail,
            { out with playerIds := pre1 ++ ps.map (fun p => p.1),
                       playerPositions :=
                         pre2 ++ ps.map
                           (fun p => ({ x := p.2.1, y := p.2.2 } : OrderedPair)) }) := by
  induction ps with
  | nil =>
    intro tail out pre1 junk1 pre2 junk2 _ h1 hj1 h2 hj2 _
    have e1 : junk1 = [] := List.length_eq_zero.mp hj1
    have e2 : junk2 = [] := List.length_eq_zero.mp hj2
    subst e1 e2
    simp only [List.append_nil] at h1 h2
    simp [pollPlayers, ← h1, ← h2]
  | cons p ps ih =>
    intro tail out pre1 junk1 pre2 junk2 hgood h1 hj1 h2 hj2 hlen
    obtain ⟨hid, hx, hy⟩ := hgood p (List.mem_cons_self _ _)
    cases junk1 with
    | nil => simp at hj1
    | cons j1 junk1 =>
      cases junk2 with
      | nil => simp at hj2
      | cons j2 junk2 =>
        simp only [List.length_cons, List.map_cons, List.flatten_cons, List.append_assoc]
        rw [pollPlayers, extractPlayer_record p _ hid hx hy]
        simp only
        have ih1 := ih tail
          { out with playerIds := out.playerIds.set pre1.length p.1,
                     playerPositions :=
                       out.playerPositions.set pre1.length { x := p.2.1, y := p.2.2 } }
          (pre1 ++ [p.1]) junk1 (pre2 ++ [{ x := p.2.1, y := p.2.2 }]) junk2
          (fun q hq => hgood q (List.mem_cons_of_mem _ hq))
          (by simp only [h1]; exact set_append_junk pre1 j1 junk1 p.1)
          (by simpa using hj1)
          (by simp only [h2, ← hlen]; exact set_append_junk pre2 j2 junk2 _)
          (by simpa using hj2)
          (by simp [hlen])
        simp only [List.length_append, List.length_singleton] at ih1
        rw [ih1]
        simp

theorem pollObjects_records (os : List (Int × SyncedObject)) :
    ∀ (tail : Text) (out : WorldSnapshot) (pre junk : List SyncedObjectData),
      (∀ o ∈ os, IsInt32 o.2.id ∧ IsInt32 o.2.type ∧ ReadsBack o.2.position.x
        ∧ ReadsBack o.2.position.y) →
      out.syncedObjects = pre ++ junk → junk.length = os.length →
      pollObjects os.length pre.length
          (' ' :: ((os.map (fun kv => objectRecord kv.2)).flatten ++ tail)) out
        = (true, ' ' :: tail,
            { out with syncedObjects :=
                pre ++ os.map (fun kv =>
                  ({ id := kv.2.id, type := kv.2.type, position := kv.2.position }
                    : SyncedObjectData)) }) := by
  induction os with
  | nil =>
    intro tail out pre junk _ h1 hj1
    have e1 : junk = [] := List.length_eq_zero.mp hj1
    subst e1
    simp only [List.append_nil] at h1
    simp [pollObjects, ← h1]
  | cons o os ih =>
    intro tail out pre junk hgood h1 hj1
    obtain ⟨hid, hty, hx, hy⟩ := hgood o (List.mem_cons_self _ _)
    cases junk with
    | nil => simp at hj1
    | cons j1 junk =>
      simp only [List.length_cons, List.map_cons, List.flatten_cons, List.append_assoc]
      rw [pollObjects, extractObject_record o.2 _ hid hty hx hy]
      simp only
      have ih1 := ih tail
        { out with
            syncedObjects := out.syncedObjects.set pre.length (SyncedObjectData.mk o.2.id o.2.type
              (OrderedPair.mk o.2.position.x o.2.position.y)) }
        (pre ++ [{ id := o.2.id, type := o.2.type,
                   position := { x := o.2.position.x, y := o.2.position.y } }]) junk
        (fun q hq => hgood q (List.mem_cons_of_mem _ hq))
        (by simp only [h1]; exact set_append_junk pre j1 junk _)
        (by simpa using hj1)
      simp only [List.length_append, List.length_singleton] at ih1
      rw [ih1]
      simp

theorem readWord_snap (rest : Text) :
    readWord ("SNAP ".toList ++ rest) = some ("SNAP".toList, ' ' :: rest) := by
  have h : "SNAP ".toList = ['S', 'N', 'A', 'P', ' '] := rfl
  have h2 : "SNAP".toList = ['S', 'N', 'A', 'P'] := rfl
  rw [h, h2]
  simp [readWord, skipWs, spanWord, isSpace]


/-! ## Lemmas on the maps and on the reconciliation loops -/

theorem mapFind_none_iff {β : Type} (m : List (Int × β)) (k : Int) :
    mapFind m k = none ↔ k ∉ keys m := by
  induction m with
  | nil => simp [mapFind, keys]
  | cons kv m ih =>
    obtain ⟨k0, v0⟩ := kv
    by_cases h : k0 = k
    · simp [mapFind, keys, h]
    · have h2 : ¬ k = k0 := fun e => h e.symm
      simp only [keys] at ih
      simp [mapFind, keys, h, h2, ih]

theorem mapFind_some_mem {β : Type} (m : List (Int × β)) (k : Int) (v : β)
    (h : mapFind m k = some v) : (k, v) ∈ m := by
  induction m with
  | nil => simp [mapFind] at h
  | cons kv m ih =>
    obtain ⟨k0, v0⟩ := kv
    by_cases hk : k0 = k
    · simp only [mapFind, hk, if_true, Option.some.injEq] at h
      simp [hk, h]
    · simp only [mapFind, hk, if_false] at h
      exact List.mem_cons_of_mem _ (ih h)

theorem mapSet_of_not_mem {β : Type} (m : List (Int × β)) (k : Int) (v : β)
    (h : k ∉ keys m) : mapSet m k v = m ++ [(k, v)] := by
  induction m with
  | nil => simp [mapSet]
  | cons kv m ih =>
    obtain ⟨k0, v0⟩ := kv
    simp only [keys, List.map_cons, List.mem_cons, not_or] at h
    have hk : ¬ k0 = k := fun e => h.1 e.symm
    simp only [mapSet, hk, if_false, List.cons_append, List.cons.injEq, true_and]
    exact ih h.2

theorem keys_mapSet {β : Type} (m : List (Int × β)) (k : Int) (v : β) :
    ∀ j, j ∈ keys (mapSet m k v) ↔ j = k ∨ j ∈ keys m := by
  induction m with
  | nil => intro j; simp [mapSet, keys]
  | cons kv m ih =>
    obtain ⟨k0, v0⟩ := kv
    intro j
    by_cases hk : k0 = k
    · simp only [mapSet, hk, if_true, keys, List.map_cons, List.mem_cons]
      tauto
    · simp only [keys] at ih
      simp only [mapSet, hk, if_false, keys, List.map_cons, List.mem_cons, ih j]
      tauto

theorem mapFind_mapSet_self {β : Type} (m : List (Int × β)) (k : Int) (v : β) :
    mapFind (mapSet m k v) k = some v := by
  induction m with
  | nil => simp [mapSet, mapFind]
  | cons kv m ih =>
    obtain ⟨k0, v0⟩ := kv
    by_cases hk : k0 = k
    · simp [mapSet, mapFind, hk]
    · simp [mapSet, mapFind, hk, ih]

theorem length_setPositionAt (es : List Entity) (p : Nat) (pos : OrderedPair) :
    (setPositionAt es p pos).length = es.length := by
  unfold setPositionAt
  split <;> simp

theorem getElem?_setPositionAt_ne (es : List Entity) (p q : Nat) (pos : OrderedPair)
    (h : p ≠ q) : (setPositionAt es p pos)[q]? = es[q]? := by
  unfold setPositionAt
  split
  · exact List.getElem?_set_ne h
  · rfl

theorem getElem?_setPositionAt_self (es : List Entity) (p : Nat) (pos : OrderedPair)
    (h : p < es.length) :
    (setPositionAt es p pos)[p]? = some (setPosition (es.get ⟨p, h⟩) pos) := by
  unfold setPositionAt
  have h1 : es[p]? = some (es.get ⟨p, h⟩) := by
    simp [List.getElem?_eq_getElem h]
  rw [h1]
  simp [List.getElem?_set_self, h]


theorem applyObject_other (g : GameClient) (obj : SyncedObjectData)
    (h : ¬ (obj.id = 1 ∧ obj.type = 1)) : applyObject g obj = g := by
  simp [applyObject, h]

theorem applyObject_wf (g : GameClient) (obj : SyncedObjectData) (hg : g.WF) :
    (applyObject g obj).WF := by
  obtain ⟨h1, h2, h3, h4⟩ := hg
  unfold applyObject
  split
  · cases ho : g.orb with
    | none =>
      simp only
      refine ⟨?_, ?_, ?_, h4⟩
      · simp only [List.length_append, List.length_singleton]; omega
      · intro kp hkp
        simp only [List.length_append, List.length_singleton]
        exact ⟨by have := (h2 kp hkp).1; omega, (h2 kp hkp).2⟩
      · intro p hp
        simp only [Option.some.injEq] at hp
        subst hp
        simp only [List.length_append, List.length_singleton]
        refine ⟨by omega, by omega, ?_⟩
        intro kp hkp
        have := (h2 kp hkp).1
        omega
    | some p =>
      simp only
      refine ⟨?_, ?_, ?_, h4⟩
      · rw [length_setPositionAt]; exact h1
      · intro kp hkp
        rw [length_setPositionAt]
        exact h2 kp hkp
      · intro q hq
        rw [length_setPositionAt]
        exact h3 q (by rw [ho]; exact hq)
  · exact ⟨h1, h2, h3, h4⟩

theorem applyObject_frame (g : GameClient) (obj : SyncedObjectData) (hg : g.WF) :
    (applyObject g obj).localPlayer = g.localPlayer ∧
    (applyObject g obj).otherPlayers = g.otherPlayers ∧
    (applyObject g obj).entities[g.localPlayer]? = g.entities[g.localPlayer]? := by
  obtain ⟨h1, _, h3, _⟩ := hg
  unfold applyObject
  split
  · cases ho : g.orb with
    | none =>
      refine ⟨by simp, by simp, ?_⟩
      show (g.entities ++ _)[g.localPlayer]? = _
      rw [List.getElem?_append_left h1]
    | some p =>
      refine ⟨by simp, by simp, ?_⟩
      exact getElem?_setPositionAt_ne _ _ _ _ (h3 p ho).2.1
  · exact ⟨rfl, rfl, rfl⟩

theorem applyObject_orb (g : GameClient) (obj : SyncedObjectData) (hg : g.WF)
    (hid : obj.id = 1) (hty : obj.type = 1) :
    ∃ p e, (applyObject g obj).orb = some p ∧ (applyObject g obj).entities[p]? = some e ∧
      e.position = obj.position := by
  obtain ⟨_, _, h3, _⟩ := hg
  unfold applyObject
  rw [if_pos ⟨hid, hty⟩]
  cases ho : g.orb with
  | none =>
    refine ⟨g.entities.length,
      setServerControlledTrue (newAuto obj.position.x obj.position.y 128 128), by simp, ?_, ?_⟩
    · show (g.entities ++ _)[g.entities.length]? = _
      rw [List.getElem?_append_right (le_refl _)]
      simp
    · simp [setServerControlledTrue, newAuto]
  | some p =>
    have hp := (h3 p ho).1
    exact ⟨p, setPosition (g.entities.get ⟨p, hp⟩) obj.position, by simp,
      getElem?_setPositionAt_self _ _ _ hp, rfl⟩

theorem applyPlayer_wf (g : GameClient) (entry : Int × OrderedPair) (hg : g.WF) :
    (applyPlayer g entry).WF := by
  obtain ⟨h1, h2, h3, h4⟩ := hg
  unfold applyPlayer
  cases hf : mapFind g.otherPlayers entry.1 with
  | none =>
    have hk := (mapFind_none_iff _ _).mp hf
    show GameClient.WF { g with otherPlayers := mapSet g.otherPlayers entry.1 g.entities.length,
                                entities := g.entities ++ [newPlayer entry.2.x entry.2.y 64 64] }
    rw [mapSet_of_not_mem _ _ _ hk]
    refine ⟨?_, ?_, ?_, ?_⟩
    · simp only [List.length_append, List.length_singleton]; omega
    · intro kp hkp
      simp only [List.length_append, List.length_singleton]
      rw [List.mem_append, List.mem_singleton] at hkp
      rcases hkp with hkp | hkp
      · exact ⟨by have := (h2 kp hkp).1; omega, (h2 kp hkp).2⟩
      · subst hkp
        exact ⟨by simp, by simp; omega⟩
    · intro p hp
      simp only [List.length_append, List.length_singleton]
      obtain ⟨a, b, c⟩ := h3 p hp
      refine ⟨by omega, b, ?_⟩
      intro kp hkp
      rw [List.mem_append, List.mem_singleton] at hkp
      rcases hkp with hkp | hkp
      · exact c kp hkp
      · subst hkp
        simp only
        omega
    · rw [List.map_append, List.nodup_append]
      refine ⟨h4, by simp, ?_⟩
      intro a ha hb
      simp only [List.map_cons, List.map_nil, List.mem_singleton] at hb
      rw [List.mem_map] at ha
      obtain ⟨kp, hkp, rfl⟩ := ha
      have := (h2 kp hkp).1
      omega
  | some p =>
    show GameClient.WF { g with entities := setPositionAt g.entities p entry.2 }
    refine ⟨?_, ?_, ?_, h4⟩
    · show g.localPlayer < (setPositionAt g.entities p entry.2).length
      rw [length_setPositionAt]; exact h1
    · intro kp hkp
      show kp.2 < (setPositionAt g.entities p entry.2).length ∧ _
      rw [length_setPositionAt]
      exact h2 kp hkp
    · intro q hq
      show q < (setPositionAt g.entities p entry.2).length ∧ _
      rw [length_setPositionAt]
      exact h3 q hq

theorem applyPlayer_frame (g : GameClient) (entry : Int × OrderedPair) (hg : g.WF) :
    (applyPlayer g entry).localPlayer = g.localPlayer ∧
    (applyPlayer g entry).orb = g.orb ∧
    (applyPlayer g entry).entities[g.localPlayer]? = g.entities[g.localPlayer]? ∧
    (∀ p, g.orb = some p → (applyPlayer g entry).entities[p]? = g.entities[p]?) ∧
    (∀ j, j ∈ keys (applyPlayer g entry).otherPlayers ↔ j = entry.1 ∨ j ∈ keys g.otherPlayers)
    := by
  obtain ⟨h1, h2, h3, _⟩ := hg
  unfold applyPlayer
  cases hf : mapFind g.otherPlayers entry.1 with
  | none =>
    refine ⟨rfl, rfl, ?_, ?_, ?_⟩
    · show (g.entities ++ _)[g.localPlayer]? = _
      rw [List.getElem?_append_left h1]
    · intro p hp
      show (g.entities ++ _)[p]? = _
      rw [List.getElem?_append_left (h3 p hp).1]
    · intro j
      exact keys_mapSet _ _ _ j
  | some p =>
    have hmem := mapFind_some_mem _ _ _ hf
    refine ⟨rfl, rfl, ?_, ?_, ?_⟩
    · exact getElem?_setPositionAt_ne _ _ _ _ (h2 _ hmem).2
    · intro q hq
      exact getElem?_setPositionAt_ne _ _ _ _ ((h3 q hq).2.2 _ hmem)
    · intro j
      constructor
      · intro hj; exact Or.inr hj
      · intro hj
        rcases hj with hj | hj
        · rw [hj]
          exact List.mem_map.mpr ⟨_, hmem, rfl⟩
        · exact hj

theorem foldl_applyObject (objs : List SyncedObjectData) :
    ∀ g : GameClient, g.WF →
      (objs.foldl applyObject g).WF ∧
      (objs.foldl applyObject g).localPlayer = g.localPlayer ∧
      (objs.foldl applyObject g).otherPlayers = g.otherPlayers ∧
      (objs.foldl applyObject g).entities[g.localPlayer]? = g.entities[g.localPlayer]? := by
  induction objs with
  | nil => intro g hg; exact ⟨hg, rfl, rfl, rfl⟩
  | cons o objs ih =>
    intro g hg
    obtain ⟨a, b, c, d⟩ := ih (applyObject g o) (applyObject_wf g o hg)
    obtain ⟨e, f, k⟩ := applyObject_frame g o hg
    simp only [List.foldl_cons]
    refine ⟨a, by rw [b, e], by rw [c, f], ?_⟩
    rw [e] at d
    rw [d, k]

theorem foldl_applyPlayer (entries : List (Int × OrderedPair)) :
    ∀ g : GameClient, g.WF →
      (entries.foldl applyPlayer g).WF ∧
      (entries.foldl applyPlayer g).localPlayer = g.localPlayer ∧
      (entries.foldl applyPlayer g).orb = g.orb ∧
      (entries.foldl applyPlayer g).entities[g.localPlayer]? = g.entities[g.localPlayer]? ∧
      (∀ p, g.orb = some p → (entries.foldl applyPlayer g).entities[p]? = g.entities[p]?) ∧
      (∀ j, j ∈ keys (entries.foldl applyPlayer g).otherPlayers ↔
        j ∈ keys entries ∨ j ∈ keys g.otherPlayers) := by
  induction entries with
  | nil => intro g hg; exact ⟨hg, rfl, rfl, rfl, fun _ _ => rfl, by simp [keys]⟩
  | cons en entries ih =>
    intro g hg
    obtain ⟨a, b, c, d, e, f⟩ := ih (applyPlayer g en) (applyPlayer_wf g en hg)
    obtain ⟨b1, c1, d1, e1, f1⟩ := applyPlayer_frame g en hg
    simp only [List.foldl_cons]
    refine ⟨a, by rw [b, b1], by rw [c, c1], ?_, ?_, ?_⟩
    · rw [b1] at d
      rw [d, d1]
    · intro p hp
      rw [e p (by rw [c1]; exact hp), e1 p hp]
    · intro j
      rw [f j, f1 j]
      simp only [keys, List.map_cons, List.mem_cons]
      tauto

theorem keys_foldl_filter (playerID : Int) (ids : List Int) (pos : List OrderedPair)
    (idx : List Nat) : ∀ m : List (Int × OrderedPair), playerID ∉ keys m →
      playerID ∉ keys (idx.foldl
        (fun m i =>
          if ids.getD i 0 ≠ playerID then
            mapSet m (ids.getD i 0) (pos.getD i { x := 0, y := 0 })
          else m) m) := by
  induction idx with
  | nil => intro m hm; exact hm
  | cons i idx ih =>
    intro m hm
    simp only [List.foldl_cons]
    apply ih
    split
    · rename_i hne
      rw [keys_mapSet]
      intro h
      rcases h with h | h
      · exact hne h.symm
      · exact hm h
    · exact hm

/-- The filter of `networkReceiveThread` never enters the local id into the map. -/
theorem not_mem_keys_filterPlayers (playerID : Int) (snapshot : WorldSnapshot) :
    playerID ∉ keys (filterPlayers playerID snapshot) := by
  unfold filterPlayers
  exact keys_foldl_filter playerID _ _ _ [] (by simp [keys])

theorem initialGame_wf : initialGame.WF := by
  refine ⟨by decide, ?_, ?_, ?_⟩
  · intro kp hkp; simp [initialGame] at hkp
  · intro p hp; simp [initialGame] at hp
  · simp [initialGame]


theorem foldl_applyObject_no_orb (objs : List SyncedObjectData) (g : GameClient)
    (h : orbEntries objs = []) : objs.foldl applyObject g = g := by
  induction objs with
  | nil => rfl
  | cons o objs ih =>
    by_cases ho : o.id = 1 ∧ o.type = 1
    · simp [orbEntries, List.filter, ho] at h
    · have h1 : orbEntries objs = [] := by
        simpa [orbEntries, List.filter, ho] using h
      simp only [List.foldl_cons, applyObject_other g o ho]
      exact ih h1

theorem foldl_applyObject_orb (objs : List SyncedObjectData) :
    ∀ (g : GameClient) (o : SyncedObjectData), g.WF → (orbEntries objs).getLast? = some o →
      ∃ p e, (objs.foldl applyObject g).orb = some p ∧
        (objs.foldl applyObject g).entities[p]? = some e ∧ e.position = o.position := by
  induction objs with
  | nil => intro g o _ h; simp [orbEntries] at h
  | cons o1 objs ih =>
    intro g o hg h
    by_cases ho : o1.id = 1 ∧ o1.type = 1
    · have hcons : orbEntries (o1 :: objs) = o1 :: orbEntries objs := by
        simp [orbEntries, List.filter, ho]
      rw [hcons] at h
      cases hrest : orbEntries objs with
      | nil =>
        rw [hrest] at h
        simp only [List.getLast?_singleton, Option.some.injEq] at h
        subst h
        simp only [List.foldl_cons]
        rw [foldl_applyObject_no_orb objs _ hrest]
        exact applyObject_orb g o1 hg ho.1 ho.2
      | cons o2 rest =>
        rw [hrest, List.getLast?_cons_cons] at h
        simp only [List.foldl_cons]
        exact ih (applyObject g o1) o (applyObject_wf g o1 hg) (by rw [hrest]; exact h)
    · have hcons : orbEntries (o1 :: objs) = orbEntries objs := by
        simp [orbEntries, List.filter, ho]
      rw [hcons] at h
      simp only [List.foldl_cons, applyObject_other g o1 ho]
      exact ih g o hg h

theorem readWord_cmd (rest : Text) :
    readWord ("CMD ".toList ++ rest) = some ("CMD".toList, ' ' :: rest) := by
  have h : "CMD ".toList = ['C', 'M', 'D', ' '] := rfl
  have h2 : "CMD".toList = ['C', 'M', 'D'] := rfl
  rw [h, h2]
  simp [readWord, skipWs, spanWord, isSpace]

/-- The server extracts from the text of `Client::sendCommand` the fields of the command. -/
theorem extractCommand_commandText (cmd : ClientCommand) (hid : IsInt32 cmd.clientId)
    (htick : IsInt32 cmd.tick) (hact : cmd.actions < 4294967296) (hx : ReadsBack cmd.x)
    (hy : ReadsBack cmd.y) :
    extractCommand (commandText cmd)
      = some ("CMD".toList, cmd.clientId, cmd.tick, cmd.actions, cmd.x, cmd.y) := by
  simp only [extractCommand, commandText]
  rw [readWord_cmd]
  simp only [readInt_space]
  rw [readInt_showInt _ _ hid.1 hid.2 (ends_space _)]
  simp only [readInt_space]
  rw [readInt_showInt _ _ htick.1 htick.2 (ends_space _)]
  simp only [readUInt32_space]
  rw [readUInt32_showNat _ _ hact (ends_space _)]
  simp only [readFloat_space]
  rw [hx _ (ends_space _)]
  simp only [readFloat_space]
  have hy0 := hy [] (Or.inl rfl)
  rw [List.append_nil] at hy0
  rw [hy0]

theorem reply_handler_traffic (msgs : List (Option Text)) :
    ∀ players : List (Int × ℚ × ℚ),
      (reply_handler players msgs).2
        = ((msgs.filterMap id).map
            (fun req => [NetEvent.received req, NetEvent.sent ack])).flatten := by
  induction msgs with
  | nil => intro players; rfl
  | cons m msgs ih =>
    intro players
    cases m with
    | none => simpa [reply_handler] using ih players
    | some req => simp [reply_handler, ih (ingest players req)]

theorem readsBack_intro (v : ℚ) (ds : Text) (hs : showFloat v = ds)
    (h0 : readFloat ds = some (v, []))
    (h1 : ∀ r, readFloat (ds ++ ' ' :: r) = some (v, ' ' :: r)) : ReadsBack v := by
  intro rest h
  rw [hs]
  rcases h with rfl | ⟨r, rfl⟩
  · rw [List.append_nil]; exact h0
  · exact h1 r

theorem readsBack_0 : ReadsBack 0 :=
  readsBack_intro 0 ['0'] (by decide!) (by decide!) (by
    intro r
    simp [readFloat, readFloatBody, readFraction, skipWs, isSpace, readSign, spanDigits, isDigit,
      readExponent, digitsVal, digitVal, pow10, FLT_OVERFLOW]
    norm_num)

theorem objectRecord_congr (a b : SyncedObject) (h1 : a.id = b.id) (h2 : a.type = b.type)
    (h3 : a.position = b.position) : objectRecord a = objectRecord b := by
  simp [objectRecord, h1, h2, h3]

/-! ## The six-digit text of a float is read back -/

theorem pow10_eq (e : Int) : pow10 e = (10 : ℚ) ^ e := by
  unfold pow10
  split
  · rename_i h
    rw [← zpow_natCast, Int.toNat_of_nonneg h]
  · rename_i h
    have h1 : 0 ≤ -e := by omega
    rw [one_div, ← zpow_natCast, Int.toNat_of_nonneg h1, zpow_neg, inv_inv]

theorem scale_pow10 (dv m k : Nat) (a b : Int) (h : dv * 10 ^ k = m) (hab : a = b + k) :
    (dv : ℚ) * pow10 a = (m : ℚ) * pow10 b := by
  have h10 : (10 : ℚ) ≠ 0 := by norm_num
  rw [pow10_eq, pow10_eq, ← h, hab, zpow_add₀ h10, zpow_natCast]
  push_cast
  ring

theorem digitsVal_append (b : Text) : ∀ a : Text,
    digitsVal (a ++ b) = digitsVal a * 10 ^ b.length + digitsVal b := by
  induction b with
  | nil => intro a; simp [digitsVal]
  | cons c b ih =>
    intro a
    have e : a ++ c :: b = (a ++ [c]) ++ b := by simp
    rw [e, ih (a ++ [c]), digitsVal_append_singleton]
    have e2 : c :: b = [c] ++ b := rfl
    rw [e2, ih [c]]
    have e3 : digitsVal [c] = digitVal c := by simp [digitsVal]
    rw [e3, List.length_append, List.length_singleton, pow_add]
    ring

theorem digitsVal_zeros (k : Nat) : digitsVal (List.replicate k '0') = 0 := by
  induction k with
  | zero => rfl
  | succ k ih =>
    rw [List.replicate_succ']
    rw [digitsVal_append_singleton, ih]
    rfl

theorem isDigit_zeros (k : Nat) : ∀ c ∈ List.replicate k '0', isDigit c = true := by
  intro c hc
  rw [List.mem_replicate] at hc
  rw [hc.2]
  rfl

theorem stripZeros_spec (ds : Text) : ∃ k, ds = stripZeros ds ++ List.replicate k '0' := by
  have h := List.takeWhile_append_dropWhile (fun c => c == '0') ds.reverse
  have hall : ∀ c ∈ List.takeWhile (fun c => c == '0') ds.reverse, c = '0' := by
    intro c hc
    have := List.mem_takeWhile_imp hc
    simpa using this
  refine ⟨(List.takeWhile (fun c => c == '0') ds.reverse).length, ?_⟩
  have hrep : List.takeWhile (fun c => c == '0') ds.reverse
      = List.replicate (List.takeWhile (fun c => c == '0') ds.reverse).length '0' :=
    List.eq_replicate_of_mem hall
  have h2 := congrArg List.reverse h
  rw [List.reverse_append, List.reverse_reverse] at h2
  have hrev : (List.takeWhile (fun c => c == '0') ds.reverse).reverse
      = List.replicate (List.takeWhile (fun c => c == '0') ds.reverse).length '0' := by
    conv_lhs => rw [hrep]
    rw [List.reverse_replicate]
  show ds = (List.dropWhile (fun c => c == '0') ds.reverse).reverse ++ _
  rw [← hrev]
  exact h2.symm

theorem fixedDigits_spec (k : Nat) : ∀ m : Nat,
    (fixedDigits k m).length = k ∧ (∀ c ∈ fixedDigits k m, isDigit c = true) ∧
      digitsVal (fixedDigits k m) = m % 10 ^ k := by
  induction k with
  | zero => intro m; simp [fixedDigits, digitsVal, Nat.mod_one]
  | succ k ih =>
    intro m
    obtain ⟨h1, h2, h3⟩ := ih (m / 10)
    refine ⟨by simp [fixedDigits, h1], ?_, ?_⟩
    · intro c hc
      simp only [fixedDigits, List.mem_append, List.mem_singleton] at hc
      rcases hc with hc | hc
      · exact h2 c hc
      · rw [hc]; exact isDigit_digitChar _ (Nat.mod_lt _ (by omega))
    · simp only [fixedDigits]
      rw [digitsVal_append_singleton, h3, digitVal_digitChar _ (Nat.mod_lt _ (by omega))]
      rw [pow_succ, Nat.mul_comm (10 ^ k) 10, Nat.mod_mul]
      omega

theorem spanDigits_stop (c : Char) (s : Text) (h : isDigit c = false) :
    spanDigits (c :: s) = ([], c :: s) := by
  simp [spanDigits, h]

theorem readFraction_fraction (fp tail : Text) (hfp : ∀ c ∈ fp, isDigit c = true)
    (hstop : spanDigits tail = ([], tail)) (hdot : readFraction tail = ([], tail)) :
    readFraction (fraction fp ++ tail) = (fp, tail) := by
  cases fp with
  | nil => simpa [fraction] using hdot
  | cons c fp =>
    have := spanDigits_append (c :: fp) tail hfp hstop
    simpa [fraction, readFraction] using this

theorem spanDigits_fraction (fp tail : Text) (hstop : spanDigits tail = ([], tail)) :
    spanDigits (fraction fp ++ tail) = ([], fraction fp ++ tail) := by
  cases fp with
  | nil => simpa [fraction] using hstop
  | cons c fp =>
    simp only [fraction, List.cons_append]
    exact spanDigits_stop _ _ (by decide)

/-- Reading a mantissa `ip.fp` followed by an exponent part. -/
theorem readFloatBody_decimal (neg : Bool) (ip fp tail rest : Text) (e : Int)
    (hip : ∀ c ∈ ip, isDigit c = true) (hne : ip ≠ []) (hfp : ∀ c ∈ fp, isDigit c = true)
    (hstop : spanDigits tail = ([], tail)) (hdot : readFraction tail = ([], tail))
    (hexp : readExponent tail = some (e, rest))
    (hval : (digitsVal (ip ++ fp) : ℚ) * pow10 (e - fp.length) < FLT_OVERFLOW) :
    readFloatBody neg (ip ++ (fraction fp ++ tail))
      = some ((if neg then -((digitsVal (ip ++ fp) : ℚ) * pow10 (e - fp.length))
               else (digitsVal (ip ++ fp) : ℚ) * pow10 (e - fp.length)), rest) := by
  unfold readFloatBody
  rw [spanDigits_append ip _ hip (spanDigits_fraction fp tail hstop)]
  simp only
  rw [readFraction_fraction fp tail hfp hstop hdot]
  simp only
  rw [if_neg (fun h => hne h.1), hexp]
  simp only
  rw [if_neg (not_le.mpr hval)]

theorem ends_stop (rest : Text) (h : Ends rest) :
    spanDigits rest = ([], rest) ∧ readFraction rest = ([], rest) ∧
      readExponent rest = some (0, rest) := by
  rcases h with rfl | ⟨r, rfl⟩
  · exact ⟨rfl, rfl, rfl⟩
  · refine ⟨by simp [spanDigits, isDigit], by simp [readFraction], by simp [readExponent]⟩

theorem fraction_of_ne_nil (l : Text) (h : l ≠ []) : fraction l = '.' :: l := by
  cases l with
  | nil => exact absurd rfl h
  | cons c l => rfl

theorem digitsVal_leading_zeros (z : Nat) (l : Text) :
    digitsVal (List.replicate z '0' ++ l) = digitsVal l := by
  rw [digitsVal_append, digitsVal_zeros]
  omega

/-- The exponent part `e±dd` that `formatG` writes is read back as the exponent. -/
theorem readExponent_written (x : Int) (rest : Text) (hrest : Ends rest) :
    readExponent ('e' :: (if x < 0 then '-' else '+') ::
        ((if x.natAbs < 10 then '0' :: showNat x.natAbs else showNat x.natAbs) ++ rest))
      = some (x, rest) := by
  have hdig : ∀ c ∈ (if x.natAbs < 10 then '0' :: showNat x.natAbs else showNat x.natAbs),
      isDigit c = true := by
    intro c hc
    split at hc
    · rw [List.mem_cons] at hc
      rcases hc with hc | hc
      · rw [hc]; rfl
      · exact (showNat_digits _).2 c hc
    · exact (showNat_digits _).2 c hc
  have hval : digitsVal (if x.natAbs < 10 then '0' :: showNat x.natAbs else showNat x.natAbs)
      = x.natAbs := by
    split
    · have := digitsVal_leading_zeros 1 (showNat x.natAbs)
      simp only [List.replicate_one, List.singleton_append] at this
      rw [this, digitsVal_showNat]
    · exact digitsVal_showNat _
  have hsp := spanDigits_append _ rest hdig (spanDigits_ends rest hrest)
  obtain ⟨c, cs, hcs, _⟩ := showNat_head x.natAbs
  have hne : ∃ d ds, (if x.natAbs < 10 then '0' :: showNat x.natAbs else showNat x.natAbs)
      = d :: ds := by
    split
    · exact ⟨_, _, rfl⟩
    · exact ⟨c, cs, hcs⟩
  obtain ⟨d, ds, hd⟩ := hne
  rw [hd] at hsp hval
  rw [hd]
  by_cases hx : x < 0
  · have hxa : -((x.natAbs : Nat) : Int) = x := by omega
    simp only [readExponent, hx, if_true, readSign, beq_self_eq_true, Bool.or_false]
    rw [hsp]
    simp only [hval, if_true, hxa, Bool.true_or]
  · have hxa : ((x.natAbs : Nat) : Int) = x := by omega
    have hpm : (('+' : Char) == '-') = false := by decide
    simp only [readExponent, hx, if_false, readSign, beq_self_eq_true, Bool.or_false, hpm,
      Bool.false_eq_true, if_true]
    rw [hsp]
    simp only [hval, Bool.false_eq_true, if_false, hxa, Bool.true_or, if_true]

/-- The `%g` text of a six-digit mantissa is read back as the number it denotes. -/
theorem readFloatBody_formatG (neg : Bool) (m : Nat) (x : Int) (rest : Text)
    (hm : 100000 ≤ m) (hm1 : m < 1000000) (hrest : Ends rest)
    (hval : (m : ℚ) * pow10 (x - 5) < FLT_OVERFLOW) :
    readFloatBody neg (formatG m x ++ rest)
      = some ((if neg then -((m : ℚ) * pow10 (x - 5)) else (m : ℚ) * pow10 (x - 5)), rest) := by
  obtain ⟨hlen, hdig, hdv⟩ := fixedDigits_spec 6 m
  rw [Nat.mod_eq_of_lt (by omega)] at hdv
  obtain ⟨e1, e2, e3⟩ := ends_stop rest hrest
  unfold formatG
  by_cases h1 : 0 ≤ x ∧ x < 6
  · rw [if_pos h1]
    obtain ⟨k, hk⟩ := stripZeros_spec ((fixedDigits 6 m).drop (x.toNat + 1))
    have hcat : (fixedDigits 6 m).take (x.toNat + 1)
        ++ (stripZeros ((fixedDigits 6 m).drop (x.toNat + 1)) ++ List.replicate k '0')
        = fixedDigits 6 m := by
      rw [← hk, List.take_append_drop]
    have hlenF : (stripZeros ((fixedDigits 6 m).drop (x.toNat + 1))).length + k
        = 6 - (x.toNat + 1) := by
      have := congrArg List.length hk
      simp only [List.length_drop, hlen, List.length_append, List.length_replicate] at this
      omega
    have hnat : digitsVal ((fixedDigits 6 m).take (x.toNat + 1)
        ++ stripZeros ((fixedDigits 6 m).drop (x.toNat + 1))) * 10 ^ k = m := by
      have h0 : digitsVal (fixedDigits 6 m)
          = digitsVal ((fixedDigits 6 m).take (x.toNat + 1)
              ++ stripZeros ((fixedDigits 6 m).drop (x.toNat + 1))) * 10 ^ k := by
        conv_lhs => rw [← hcat, ← List.append_assoc, digitsVal_append, digitsVal_zeros]
        simp
      rw [← h0]
      exact hdv
    have hq := scale_pow10 _ m k
      (0 - ((stripZeros ((fixedDigits 6 m).drop (x.toNat + 1))).length : Int)) (x - 5) hnat
      (by omega)
    have key := readFloatBody_decimal neg ((fixedDigits 6 m).take (x.toNat + 1))
      (stripZeros ((fixedDigits 6 m).drop (x.toNat + 1))) rest rest 0
      (fun c hc => hdig c (List.mem_of_mem_take hc))
      (by
        intro h
        have := congrArg List.length h
        simp only [List.length_take, hlen, List.length_nil] at this
        omega)
      (fun c hc => hdig c (List.mem_of_mem_drop (by
        rw [hk]; exact List.mem_append_left _ hc)))
      e1 e2 e3 (by rw [hq]; exact hval)
    rw [hq] at key
    rw [List.append_assoc]
    exact key
  · rw [if_neg h1]
    by_cases h2 : -4 ≤ x ∧ x < 0
    · rw [if_pos h2]
      obtain ⟨k, hk⟩ := stripZeros_spec (fixedDigits 6 m)
      have hlenD : (stripZeros (fixedDigits 6 m)).length + k = 6 := by
        have := congrArg List.length hk
        simp only [hlen, List.length_append, List.length_replicate] at this
        omega
      have hnat : digitsVal (stripZeros (fixedDigits 6 m)) * 10 ^ k = m := by
        have h0 : digitsVal (fixedDigits 6 m)
            = digitsVal (stripZeros (fixedDigits 6 m)) * 10 ^ k := by
          conv_lhs => rw [hk, digitsVal_append, digitsVal_zeros]
          simp
        rw [← h0]
        exact hdv
      have hne : stripZeros (fixedDigits 6 m) ≠ [] := by
        intro h
        rw [h] at hnat
        simp [digitsVal] at hnat
        omega
      have hfpne : List.replicate ((-x).toNat - 1) '0' ++ stripZeros (fixedDigits 6 m) ≠ [] := by
        intro h
        exact hne (List.append_eq_nil.mp h).2
      have hdv2 : digitsVal (['0'] ++ (List.replicate ((-x).toNat - 1) '0'
          ++ stripZeros (fixedDigits 6 m))) = digitsVal (stripZeros (fixedDigits 6 m)) := by
        have := digitsVal_leading_zeros 1
          (List.replicate ((-x).toNat - 1) '0' ++ stripZeros (fixedDigits 6 m))
        simp only [List.replicate_one] at this
        rw [this, digitsVal_leading_zeros]
      have hq := scale_pow10 (digitsVal (stripZeros (fixedDigits 6 m))) m k
        (0 - ((List.replicate ((-x).toNat - 1) '0'
          ++ stripZeros (fixedDigits 6 m)).length : Int)) (x - 5) hnat
        (by
          simp only [List.length_append, List.length_replicate]
          push_cast
          omega)
      have key := readFloatBody_decimal neg ['0']
        (List.replicate ((-x).toNat - 1) '0' ++ stripZeros (fixedDigits 6 m)) rest rest 0
        (by intro c hc; rw [List.mem_singleton] at hc; rw [hc]; rfl)
        (by simp)
        (by
          intro c hc
          rw [List.mem_append] at hc
          rcases hc with hc | hc
          · exact isDigit_zeros _ c hc
          · exact hdig c (by rw [hk]; exact List.mem_append_left _ hc))
        e1 e2 e3 (by rw [hdv2, hq]; exact hval)
      rw [hdv2, hq, fraction_of_ne_nil _ hfpne] at key
      simpa using key
    · rw [if_neg h2]
      obtain ⟨k, hk⟩ := stripZeros_spec ((fixedDigits 6 m).drop 1)
      have hcat : (fixedDigits 6 m).take 1
          ++ (stripZeros ((fixedDigits 6 m).drop 1) ++ List.replicate k '0')
          = fixedDigits 6 m := by
        rw [← hk, List.take_append_drop]
      have hlenF : (stripZeros ((fixedDigits 6 m).drop 1)).length + k = 5 := by
        have := congrArg List.length hk
        simp only [List.length_drop, hlen, List.length_append, List.length_replicate] at this
        omega
      have hnat : digitsVal ((fixedDigits 6 m).take 1
          ++ stripZeros ((fixedDigits 6 m).drop 1)) * 10 ^ k = m := by
        have h0 : digitsVal (fixedDigits 6 m)
            = digitsVal ((fixedDigits 6 m).take 1
                ++ stripZeros ((fixedDigits 6 m).drop 1)) * 10 ^ k := by
          conv_lhs => rw [← hcat, ← List.append_assoc, digitsVal_append, digitsVal_zeros]
          simp
        rw [← h0]
        exact hdv
      have hq := scale_pow10 _ m k
        (x - ((stripZeros ((fixedDigits 6 m).drop 1)).length : Int)) (x - 5) hnat (by omega)
      have key := readFloatBody_decimal neg ((fixedDigits 6 m).take 1)
        (stripZeros ((fixedDigits 6 m).drop 1))
        ('e' :: (if x < 0 then '-' else '+') ::
          ((if x.natAbs < 10 then '0' :: showNat x.natAbs else showNat x.natAbs) ++ rest))
        rest x
        (fun c hc => hdig c (List.mem_of_mem_take hc))
        (by
          intro h
          have := congrArg List.length h
          simp only [List.length_take, hlen, List.length_nil] at this
          omega)
        (fun c hc => hdig c (List.mem_of_mem_drop (by
          rw [hk]; exact List.mem_append_left _ hc)))
        (spanDigits_stop _ _ (by decide))
        (by simp [readFraction])
        (readExponent_written x rest hrest)
        (by rw [hq]; exact hval)
      rw [hq] at key
      simpa [List.append_assoc] using key

theorem roundHalfEven_mul (m d : Nat) (hd : 0 < d) : roundHalfEven (m * d) d = m := by
  unfold roundHalfEven
  rw [Nat.mul_mod_left, Nat.mul_div_cancel m hd]
  simp [hd]

theorem log10Floor_spec (fuel : Nat) : ∀ q : Nat, 1 ≤ q → q < fuel →
    10 ^ log10Floor fuel q ≤ q ∧ q < 10 ^ (log10Floor fuel q + 1) := by
  induction fuel with
  | zero => intro q _ h; omega
  | succ fuel ih =>
    intro q h1 h2
    unfold log10Floor
    by_cases h : q < 10
    · rw [if_pos h]
      exact ⟨by simpa using h1, by simpa using h⟩
    · rw [if_neg h]
      obtain ⟨a, b⟩ := ih (q / 10) (by omega) (by omega)
      constructor
      · rw [pow_succ]
        have := (Nat.le_div_iff_mul_le (by norm_num : 0 < 10)).mp a
        exact this
      · rw [pow_succ]
        exact (Nat.div_lt_iff_lt_mul (by norm_num : 0 < 10)).mp b

theorem pow10_unique (a b q : Nat) (ha : 10 ^ a ≤ q) (ha1 : q < 10 ^ (a + 1))
    (hb : 10 ^ b ≤ q) (hb1 : q < 10 ^ (b + 1)) : a = b := by
  rcases Nat.lt_trichotomy a b with h | h | h
  · have : 10 ^ (a + 1) ≤ 10 ^ b := Nat.pow_le_pow_right (by norm_num) h
    omega
  · exact h
  · have : 10 ^ (b + 1) ≤ 10 ^ a := Nat.pow_le_pow_right (by norm_num) h
    omega

theorem negExponent_spec (n d K : Nat) (hK : d ≤ n * 10 ^ K) (fuel : Nat) : ∀ k : Nat,
    k ≤ K → K - k < fuel → (∀ j, k ≤ j → j < K → ¬ d ≤ n * 10 ^ j) →
    negExponent fuel n d k = K := by
  induction fuel with
  | zero => intro k _ h; omega
  | succ fuel ih =>
    intro k hk hf hlow
    unfold negExponent
    by_cases h : d ≤ n * 10 ^ k
    · rw [if_pos h]
      by_contra hne
      exact hlow k (le_refl _) (by omega) h
    · rw [if_neg h]
      have hkK : k ≠ K := by
        intro e
        rw [e] at h
        exact h hK
      exact ih (k + 1) (by omega) (by omega) (fun j hj hjK => hlow j (by omega) hjK)

/-- The decimal exponent and the mantissa that `showPos` computes for a number with six
significant digits: for `x ≥ 5`. -/
theorem showPos_large (n d m X : Nat) (hd : 0 < d) (hm : 100000 ≤ m) (hm1 : m < 1000000)
    (hX : 5 ≤ X) (hE : n = m * 10 ^ (X - 5) * d) : showPos n d = formatG m (X : Int) := by
  have hq : n / d = m * 10 ^ (X - 5) := by
    rw [hE]; exact Nat.mul_div_cancel _ hd
  have hpos : 0 < 10 ^ (X - 5) := Nat.pos_of_ne_zero (by positivity)
  have hdn : d ≤ n := by
    rw [hE]
    have : 1 ≤ m * 10 ^ (X - 5) := Nat.one_le_iff_ne_zero.mpr (by positivity)
    calc d = 1 * d := (Nat.one_mul d).symm
      _ ≤ m * 10 ^ (X - 5) * d := Nat.mul_le_mul_right d this
  have hsplit : 10 ^ X = 100000 * 10 ^ (X - 5) := by
    have : X = 5 + (X - 5) := by omega
    conv_lhs => rw [this, pow_add]
    norm_num
  have hlo : 10 ^ X ≤ n / d := by
    rw [hq, hsplit]
    exact Nat.mul_le_mul_right _ hm
  have hhi : n / d < 10 ^ (X + 1) := by
    rw [hq, pow_succ, hsplit]
    have : m * 10 ^ (X - 5) < 1000000 * 10 ^ (X - 5) := Nat.mul_lt_mul_of_pos_right hm1 hpos
    omega
  have hexp : decExponent n d = (X : Int) := by
    unfold decExponent
    rw [if_pos hdn]
    obtain ⟨a, b⟩ := log10Floor_spec (n / d + 1) (n / d)
      (le_trans (Nat.one_le_pow _ _ (by norm_num)) hlo) (by omega)
    rw [pow10_unique _ X (n / d) a b hlo hhi]
  have hmant : scaledMantissa n d (X : Int) = m := by
    unfold scaledMantissa
    by_cases h5 : (X : Int) ≤ 5
    · have hX5 : X = 5 := by omega
      subst hX5
      rw [if_pos h5]
      have ht : ((5 : Int) - ((5 : Nat) : Int)).toNat = 0 := by decide
      simp only [Nat.sub_self, pow_zero, Nat.mul_one] at hE
      rw [ht, pow_zero, Nat.mul_one, hE]
      exact roundHalfEven_mul m d hd
    · rw [if_neg h5]
      have ht : ((X : Int) - 5).toNat = X - 5 := by omega
      rw [ht, hE, Nat.mul_assoc, Nat.mul_comm (10 ^ (X - 5)) d]
      exact roundHalfEven_mul m _ (Nat.mul_pos hd hpos)
  unfold showPos
  rw [hexp, hmant, if_neg (by omega)]

/-- The same for `0 ≤ x < 5`. -/
theorem showPos_mid (n d m X : Nat) (hd : 0 < d) (hm : 100000 ≤ m) (hm1 : m < 1000000)
    (hX : X < 5) (hE : n * 10 ^ (5 - X) = m * d) : showPos n d = formatG m (X : Int) := by
  have hpos : 0 < 10 ^ (5 - X) := Nat.pos_of_ne_zero (by positivity)
  have hsplit : 10 ^ X * 10 ^ (5 - X) = 100000 := by
    rw [← pow_add]
    have : X + (5 - X) = 5 := by omega
    rw [this]
    norm_num
  have hlo0 : 10 ^ X * d ≤ n := by
    apply Nat.le_of_mul_le_mul_right _ hpos
    calc 10 ^ X * d * 10 ^ (5 - X) = 10 ^ X * 10 ^ (5 - X) * d := by ring
      _ = 100000 * d := by rw [hsplit]
      _ ≤ m * d := Nat.mul_le_mul_right d hm
      _ = n * 10 ^ (5 - X) := hE.symm
  have hhi0 : n < 10 ^ (X + 1) * d := by
    apply Nat.lt_of_mul_lt_mul_right (a := 10 ^ (5 - X))
    calc n * 10 ^ (5 - X) = m * d := hE
      _ < 1000000 * d := Nat.mul_lt_mul_of_pos_right hm1 hd
      _ = 10 * (10 ^ X * 10 ^ (5 - X)) * d := by rw [hsplit]
      _ = 10 ^ (X + 1) * d * 10 ^ (5 - X) := by rw [pow_succ]; ring
  have hdn : d ≤ n := by
    have : 1 * d ≤ 10 ^ X * d := Nat.mul_le_mul_right d (Nat.one_le_pow _ _ (by norm_num))
    omega
  have hlo : 10 ^ X ≤ n / d := (Nat.le_div_iff_mul_le hd).mpr hlo0
  have hhi : n / d < 10 ^ (X + 1) := (Nat.div_lt_iff_lt_mul hd).mpr hhi0
  have hexp : decExponent n d = (X : Int) := by
    unfold decExponent
    rw [if_pos hdn]
    obtain ⟨a, b⟩ := log10Floor_spec (n / d + 1) (n / d)
      (le_trans (Nat.one_le_pow _ _ (by norm_num)) hlo) (by omega)
    rw [pow10_unique _ X (n / d) a b hlo hhi]
  have hmant : scaledMantissa n d (X : Int) = m := by
    unfold scaledMantissa
    rw [if_pos (by omega)]
    have ht : ((5 : Int) - (X : Int)).toNat = 5 - X := by omega
    rw [ht, hE]
    exact roundHalfEven_mul m d hd
  unfold showPos
  rw [hexp, hmant, if_neg (by omega)]

/-- The same for `x < 0`. -/
theorem showPos_small (n d m K : Nat) (hd : 0 < d) (hm : 100000 ≤ m) (hm1 : m < 1000000)
    (hK : 1 ≤ K) (hE : n * 10 ^ (5 + K) = m * d) : showPos n d = formatG m (-(K : Int)) := by
  have hn : 1 ≤ n := by
    rcases Nat.eq_zero_or_pos n with h | h
    · rw [h, Nat.zero_mul] at hE
      have : 0 < m * d := Nat.mul_pos (by omega) hd
      omega
    · exact h
  have hlow : ∀ j, j < K → n * 10 ^ j < d := by
    intro j hj
    have hp : 0 < 10 ^ (5 + K - j) := Nat.pos_of_ne_zero (by positivity)
    apply Nat.lt_of_mul_lt_mul_right (a := 10 ^ (5 + K - j))
    have e1 : n * 10 ^ j * 10 ^ (5 + K - j) = n * 10 ^ (5 + K) := by
      rw [Nat.mul_assoc, ← pow_add]
      have : j + (5 + K - j) = 5 + K := by omega
      rw [this]
    have e2 : 1000000 ≤ 10 ^ (5 + K - j) := by
      have : 6 ≤ 5 + K - j := by omega
      calc 1000000 = 10 ^ 6 := by norm_num
        _ ≤ 10 ^ (5 + K - j) := Nat.pow_le_pow_right (by norm_num) this
    calc n * 10 ^ j * 10 ^ (5 + K - j) = m * d := by rw [e1, hE]
      _ < 1000000 * d := Nat.mul_lt_mul_of_pos_right hm1 hd
      _ ≤ 10 ^ (5 + K - j) * d := Nat.mul_le_mul_right d e2
      _ = d * 10 ^ (5 + K - j) := Nat.mul_comm _ _
  have hK0 : d ≤ n * 10 ^ K := by
    apply Nat.le_of_mul_le_mul_right (c := 100000) _ (by norm_num)
    calc d * 100000 = 100000 * d := Nat.mul_comm _ _
      _ ≤ m * d := Nat.mul_le_mul_right d hm
      _ = n * 10 ^ (5 + K) := hE.symm
      _ = n * 10 ^ K * 100000 := by rw [pow_add]; ring
  have hnd : ¬ d ≤ n := by
    have := hlow 0 (by omega)
    simp only [pow_zero, Nat.mul_one] at this
    omega
  have hfuel : K - 1 < d := by
    have h1 := hlow (K - 1) (by omega)
    have h2 : K - 1 < 10 ^ (K - 1) := Nat.lt_pow_self (by norm_num) (K - 1)
    have h3 : 10 ^ (K - 1) ≤ n * 10 ^ (K - 1) := Nat.le_mul_of_pos_left _ hn
    omega
  have hexp : decExponent n d = -(K : Int) := by
    unfold decExponent
    rw [if_neg hnd]
    rw [negExponent_spec n d K hK0 d 1 hK hfuel
      (fun j _ hjK h => absurd (hlow j hjK) (by omega))]
  have hmant : scaledMantissa n d (-(K : Int)) = m := by
    unfold scaledMantissa
    rw [if_pos (by omega)]
    have ht : ((5 : Int) - (-(K : Int))).toNat = 5 + K := by omega
    rw [ht, hE]
    exact roundHalfEven_mul m d hd
  unfold showPos
  rw [hexp, hmant, if_neg (by omega)]

/-- A number with six significant digits is printed with these digits. -/
theorem showPos_sixDigits (n d m : Nat) (x : Int) (hd : 0 < d) (hm : 100000 ≤ m)
    (hm1 : m < 1000000) (hE : (n : ℚ) / d = (m : ℚ) * pow10 (x - 5)) :
    showPos n d = formatG m x := by
  have hdq : (d : ℚ) ≠ 0 := Nat.cast_ne_zero.mpr (by omega)
  by_cases h5 : 5 ≤ x
  · obtain ⟨X, rfl⟩ := Int.eq_ofNat_of_zero_le (by omega : 0 ≤ x)
    have hX : 5 ≤ X := by omega
    apply showPos_large n d m X hd hm hm1 hX
    have hp : pow10 ((X : Int) - 5) = (10 : ℚ) ^ (X - 5) := by
      unfold pow10
      rw [if_pos (by omega)]
      congr 1
      omega
    rw [hp, div_eq_iff hdq] at hE
    exact_mod_cast hE
  · by_cases h0 : 0 ≤ x
    · obtain ⟨X, rfl⟩ := Int.eq_ofNat_of_zero_le h0
      have hX : X < 5 := by omega
      apply showPos_mid n d m X hd hm hm1 hX
      have hp : pow10 ((X : Int) - 5) = 1 / (10 : ℚ) ^ (5 - X) := by
        unfold pow10
        rw [if_neg (by omega)]
        congr 2
        omega
      rw [hp] at hE
      have h10 : (10 : ℚ) ^ (5 - X) ≠ 0 := by positivity
      have : (n : ℚ) * 10 ^ (5 - X) = (m : ℚ) * d := by
        field_simp at hE
        linarith
      exact_mod_cast this
    · obtain ⟨K, rfl⟩ : ∃ K : Nat, x = -(K : Int) := ⟨(-x).toNat, by omega⟩
      have hK : 1 ≤ K := by omega
      apply showPos_small n d m K hd hm hm1 hK
      have hp : pow10 (-(K : Int) - 5) = 1 / (10 : ℚ) ^ (5 + K) := by
        unfold pow10
        rw [if_neg (by omega)]
        congr 2
        omega
      rw [hp] at hE
      have h10 : (10 : ℚ) ^ (5 + K) ≠ 0 := by positivity
      have : (n : ℚ) * 10 ^ (5 + K) = (m : ℚ) * d := by
        field_simp at hE
        linarith
      exact_mod_cast this

theorem formatG_head (m : Nat) (x : Int) :
    ∃ c cs, formatG m x = c :: cs ∧ isDigit c = true := by
  obtain ⟨hlen, hdig, _⟩ := fixedDigits_spec 6 m
  cases hD : fixedDigits 6 m with
  | nil => rw [hD] at hlen; simp at hlen
  | cons d0 D =>
    have hd0 : isDigit d0 = true := hdig d0 (by rw [hD]; exact List.mem_cons_self _ _)
    unfold formatG
    rw [hD]
    split
    · exact ⟨d0, List.take x.toNat D ++ fraction (stripZeros (List.drop x.toNat D)),
        by simp, hd0⟩
    · split
      · exact ⟨'0', _, rfl, rfl⟩
      · exact ⟨d0, _, by simp; rfl, hd0⟩

theorem pow10_pos (e : Int) : 0 < pow10 e := by
  rw [pow10_eq]
  positivity

theorem abs_eq_natAbs_div (v : ℚ) : ((v.num.natAbs : Nat) : ℚ) / (v.den : ℚ) = |v| := by
  have h := Rat.num_div_den v
  have hd : (0 : ℚ) < v.den := Nat.cast_pos.mpr v.den_pos
  by_cases hn : 0 ≤ v.num
  · have h1 : ((v.num.natAbs : Nat) : ℚ) = (v.num : ℚ) := by
      rw [Nat.cast_natAbs, abs_of_nonneg hn]
    have hv : 0 ≤ v := Rat.num_nonneg.mp hn
    rw [h1, h, abs_of_nonneg hv]
  · have h1 : ((v.num.natAbs : Nat) : ℚ) = -(v.num : ℚ) := by
      rw [Nat.cast_natAbs, abs_of_neg (not_le.mp hn), Int.cast_neg]
    have hv : v < 0 := by
      by_contra hc
      exact hn (Rat.num_nonneg.mpr (not_lt.mp hc))
    rw [h1, neg_div, h, abs_of_neg hv]

/-- Every value with at most six significant digits is read back from its printed form. -/
theorem readsBack_of_sixDigits (v : ℚ) (h : SixDigits v) : ReadsBack v := by
  obtain ⟨h0, hlt⟩ := h
  rcases h0 with rfl | ⟨m, x, hm, hm1, hE⟩
  · exact readsBack_0
  · intro rest hrest
    have hmpos : (0 : ℚ) < (m : ℚ) * pow10 (x - 5) :=
      mul_pos (Nat.cast_pos.mpr (by omega)) (pow10_pos _)
    have hv0 : v ≠ 0 := by
      intro e
      rw [e, abs_zero] at hE
      rw [← hE] at hmpos
      exact lt_irrefl _ hmpos
    have hnum : v.num ≠ 0 := fun e => hv0 (Rat.num_eq_zero.mp e)
    have hshow := showPos_sixDigits v.num.natAbs v.den m x v.den_pos hm hm1
      ((abs_eq_natAbs_div v).trans hE)
    obtain ⟨c, cs, hcs, hc⟩ := formatG_head m x
    have hbody := fun neg => readFloatBody_formatG neg m x rest hm hm1 hrest (hE ▸ hlt)
    unfold showFloat
    rw [if_neg hnum]
    by_cases hneg : v.num < 0
    · have hvneg : v < 0 := Rat.num_neg.mp hneg
      rw [if_pos hneg, hshow]
      unfold readFloat
      rw [List.cons_append, skipWs_of_not_space _ _ (by decide)]
      simp only [readSign, beq_self_eq_true, if_true]
      rw [hbody true]
      simp only [if_true]
      rw [← hE, abs_of_neg hvneg, neg_neg]
    · have hvpos : 0 ≤ v := Rat.num_nonneg.mp (not_lt.mp hneg)
      rw [if_neg hneg, hshow]
      unfold readFloat
      rw [hcs, List.cons_append, skipWs_of_not_space _ _ (isSpace_of_isDigit c hc),
        readSign_of_isDigit _ _ hc]
      simp only
      rw [← List.cons_append, ← hcs, hbody false]
      simp only [Bool.false_eq_true, if_false]
      rw [← hE, abs_of_nonneg hvpos]

theorem sixDigits_zero : SixDigits 0 :=
  ⟨Or.inl rfl, by norm_num [FLT_OVERFLOW]⟩

theorem sixDigits_of (v : ℚ) (m : Nat) (x : Int) (hm : 100000 ≤ m) (hm1 : m < 1000000)
    (hv : |v| = (m : ℚ) * pow10 (x - 5)) (hlt : |v| < FLT_OVERFLOW) : SixDigits v :=
  ⟨Or.inr ⟨m, x, hm, hm1, hv⟩, hlt⟩

theorem sixDigits_scenario :
    SixDigits 1 ∧ SixDigits 2 ∧ SixDigits 10 ∧ SixDigits 20 ∧ SixDigits 700 ∧ SixDigits 1000 ∧
      SixDigits 1792 := by
  refine ⟨sixDigits_of 1 100000 0 (by norm_num) (by norm_num) ?_ ?_,
    sixDigits_of 2 200000 0 (by norm_num) (by norm_num) ?_ ?_,
    sixDigits_of 10 100000 1 (by norm_num) (by norm_num) ?_ ?_,
    sixDigits_of 20 200000 1 (by norm_num) (by norm_num) ?_ ?_,
    sixDigits_of 700 700000 2 (by norm_num) (by norm_num) ?_ ?_,
    sixDigits_of 1000 100000 3 (by norm_num) (by norm_num) ?_ ?_,
    sixDigits_of 1792 179200 3 (by norm_num) (by norm_num) ?_ ?_⟩ <;>
  first
    | (rw [pow10_eq]; norm_num [abs_of_pos])
    | norm_num [FLT_OVERFLOW, abs_of_pos]

/-! ## Properties of the specification, settled on the embedding -/

/-- Counterexample to C1 as stated: a player at `x = 1 + 1/1024`, a value of type `float`, is
written as `1.00098`, and the decoded snapshot holds the position `1.00098`, not the position
that was encoded. -/
theorem snapshot_round_trip_loses_digits :
    pollUpdate (some (snapshotText 1 [(7, 1 + 1 / 1024, 0)] [])) freshSnapshot
      = PollResult.returned true
          { tick := 1, playerIds := [7], playerPositions := [⟨100098 / 100000, 0⟩],
            syncedObjects := [] } ∧
    pollUpdate (some (snapshotText 1 [(7, 1 + 1 / 1024, 0)] [])) freshSnapshot
      ≠ PollResult.returned true
          { tick := 1, playerIds := [7], playerPositions := [⟨1 + 1 / 1024, 0⟩],
            syncedObjects := [] } := by
  decide!

/-- C1, amended. Snapshot round trip: for every tick, every list of N player records and every
list of M synced-object records, where the tick, the ids, the types and the two counts fit an
`int` and every coordinate has at most six significant decimal digits (the digits that the
stream prints for a `float`), decoding with `Client::pollUpdate` the `SNAP` text that
`pub_handler` builds from them returns `true` and yields, whatever the snapshot object held
before, that tick, exactly N players and M objects, and the same ids, object types and
positions in the same order. -/
theorem snapshot_round_trip (tick : Int) (ps : List (Int × ℚ × ℚ))
    (os : List (Int × SyncedObject)) (out : WorldSnapshot)
    (htick : IsInt32 tick) (hN : (ps.length : Int) ≤ INT_MAX) (hM : (os.length : Int) ≤ INT_MAX)
    (hps6 : ∀ p ∈ ps, IsInt32 p.1 ∧ SixDigits p.2.1 ∧ SixDigits p.2.2)
    (hos6 : ∀ o ∈ os, IsInt32 o.2.id ∧ IsInt32 o.2.type ∧ SixDigits o.2.position.x
      ∧ SixDigits o.2.position.y) :
    pollUpdate (some (snapshotText tick ps os)) out
      = PollResult.returned true
          { tick := tick,
            playerIds := ps.map (fun p => p.1),
            playerPositions := ps.map (fun p => ({ x := p.2.1, y := p.2.2 } : OrderedPair)),
            syncedObjects := os.map (fun kv =>
              ({ id := kv.2.id, type := kv.2.type, position := kv.2.position }
                : SyncedObjectData)) } := by
  have hps : ∀ p ∈ ps, IsInt32 p.1 ∧ ReadsBack p.2.1 ∧ ReadsBack p.2.2 := fun p hp =>
    ⟨(hps6 p hp).1, readsBack_of_sixDigits _ (hps6 p hp).2.1,
      readsBack_of_sixDigits _ (hps6 p hp).2.2⟩
  have hos : ∀ o ∈ os, IsInt32 o.2.id ∧ IsInt32 o.2.type ∧ ReadsBack o.2.position.x
      ∧ ReadsBack o.2.position.y := fun o ho =>
    ⟨(hos6 o ho).1, (hos6 o ho).2.1, readsBack_of_sixDigits _ (hos6 o ho).2.2.1,
      readsBack_of_sixDigits _ (hos6 o ho).2.2.2⟩
  have hmin : INT_MIN ≤ 0 := by decide
  have hN0 : INT_MIN ≤ (ps.length : Int) := le_trans hmin (by omega)
  have hM0 : INT_MIN ≤ (os.length : Int) := le_trans hmin (by omega)
  simp only [pollUpdate, snapshotText]
  rw [readWord_snap]
  simp only [ne_eq, not_true_eq_false, if_false, readInt_space]
  rw [readInt_showInt _ _ htick.1 htick.2 (ends_space _)]
  simp only [readInt_space]
  rw [← showInt_natCast ps.length, readInt_showInt _ _ hN0 hN (ends_space _)]
  simp only [readInt_space]
  rw [← showInt_natCast os.length, readInt_showInt _ _ hM0 hM (ends_space _)]
  simp only
  rw [if_neg (by omega), if_neg (by omega)]
  simp only [Int.toNat_ofNat]
  have hp := pollPlayers_records ps ((os.map (fun kv => objectRecord kv.2)).flatten)
    { tick := tick,
      playerIds := resize out.playerIds ps.length 0,
      playerPositions := resize out.playerPositions ps.length { x := 0, y := 0 },
      syncedObjects := resize out.syncedObjects os.length
        { id := 0, type := 0, position := { x := 0, y := 0 } } }
    [] (resize out.playerIds ps.length 0) []
    (resize out.playerPositions ps.length { x := 0, y := 0 })
    hps rfl (length_resize _ _ _) rfl (length_resize _ _ _) rfl
  simp only [List.length_nil, List.nil_append] at hp
  rw [hp]
  simp only
  have ho := pollObjects_records os []
    { tick := tick,
      playerIds := ps.map (fun p => p.1),
      playerPositions := ps.map (fun p => ({ x := p.2.1, y := p.2.2 } : OrderedPair)),
      syncedObjects := resize out.syncedObjects os.length
        { id := 0, type := 0, position := { x := 0, y := 0 } } }
    [] (resize out.syncedObjects os.length
        { id := 0, type := 0, position := { x := 0, y := 0 } })
    hos rfl (length_resize _ _ _)
  simp only [List.length_nil, List.nil_append, List.append_nil] at ho
  rw [ho]

/-- Witness of C1, amended: the snapshot of two players and of the two objects of the registry,
decoded into a snapshot object that still holds an older snapshot. -/
theorem snapshot_round_trip_witness :
    pollUpdate
        (some (snapshotText 42 [(3, 1, 2), (7, 10, 20)]
          [(0, { position := ⟨1000, 700⟩, velocity := ⟨150, 0⟩, type := 0, id := 0 }),
           (1, { position := ⟨1792, 0⟩, velocity := ⟨-400, 180⟩, type := 1, id := 1 })]))
        { tick := 41, playerIds := [3], playerPositions := [⟨1, 2⟩], syncedObjects := [] }
      = PollResult.returned true
          { tick := 42,
            playerIds := [(3, 1, 2), (7, 10, 20)].map (fun p => p.1),
            playerPositions :=
              [((3 : Int), (1 : ℚ), (2 : ℚ)), (7, 10, 20)].map
                (fun p => ({ x := p.2.1, y := p.2.2 } : OrderedPair)),
            syncedObjects :=
              [((0 : Int),
                ({ position := ⟨1000, 700⟩, velocity := ⟨150, 0⟩, type := 0, id := 0 }
                  : SyncedObject)),
               (1, { position := ⟨1792, 0⟩, velocity := ⟨-400, 180⟩, type := 1, id := 1 })].map
                (fun kv =>
                  ({ id := kv.2.id, type := kv.2.type, position := kv.2.position }
                    : SyncedObjectData)) } :=
  snapshot_round_trip 42 _ _ _ ⟨by decide, by decide⟩ (by decide) (by decide)
    (by
      intro p hp
      simp only [List.mem_cons, List.mem_singleton, List.not_mem_nil, or_false] at hp
      rcases hp with rfl | rfl
      · exact ⟨⟨by decide, by decide⟩, sixDigits_scenario.1, sixDigits_scenario.2.1⟩
      · exact ⟨⟨by decide, by decide⟩, sixDigits_scenario.2.2.1, sixDigits_scenario.2.2.2.1⟩)
    (by
      intro o ho
      simp only [List.mem_cons, List.mem_singleton, List.not_mem_nil, or_false] at ho
      rcases ho with rfl | rfl
      · exact ⟨⟨by decide, by decide⟩, ⟨by decide, by decide⟩,
          sixDigits_scenario.2.2.2.2.2.1, sixDigits_scenario.2.2.2.2.1⟩
      · exact ⟨⟨by decide, by decide⟩, ⟨by decide, by decide⟩,
          sixDigits_scenario.2.2.2.2.2.2, sixDigits_zero⟩)

/-- C2. Alternation discipline of `Client::sendCommand`: a call puts a command on the wire (or
tries to) only when the flag was clear on entry or the receive of that same call returned an
acknowledgment; a call with the flag clear makes its send without any receive and leaves the
flag set; while the flag is set and no acknowledgment arrives, a sequence of calls sends nothing
and keeps the flag set; the first call whose receive drains an acknowledgment, however many
calls came before it, does make its send. -/
theorem sendCommand_alternation :
    (∀ (flag : Bool) (pending : Option Text) (sendOk : Bool) (cmd : ClientCommand) (t : Text),
      (NetEvent.sent t ∈ (sendCommand flag pending sendOk cmd).2
        ∨ NetEvent.sendFailed t ∈ (sendCommand flag pending sendOk cmd).2) →
      flag = false ∨ pending.isSome = true) ∧
    (∀ (pending : Option Text) (sendOk : Bool) (cmd : ClientCommand),
      sendCommand false pending sendOk cmd
        = (true, [if sendOk then NetEvent.sent (commandText cmd)
                  else NetEvent.sendFailed (commandText cmd)])) ∧
    (∀ calls : List (Option Text × Bool × ClientCommand),
      (∀ c ∈ calls, c.1 = none) → sendCommands true calls = (true, [])) ∧
    (∀ (before : List (Option Text × Bool × ClientCommand)) (reply : Text) (sendOk : Bool)
        (cmd : ClientCommand) (after : List (Option Text × Bool × ClientCommand)),
      (∀ c ∈ before, c.1 = none) →
      (sendCommands true (before ++ (some reply, sendOk, cmd) :: after)).2
        = NetEvent.received reply ::
            (if sendOk then NetEvent.sent (commandText cmd)
             else NetEvent.sendFailed (commandText cmd)) ::
            (sendCommands true after).2) := by
  have hquiet : ∀ calls : List (Option Text × Bool × ClientCommand),
      (∀ c ∈ calls, c.1 = none) → sendCommands true calls = (true, []) := by
    intro calls
    induction calls with
    | nil => intro _; rfl
    | cons c calls ih =>
      intro h
      obtain ⟨pending, sendOk, cmd⟩ := c
      have hp : pending = none := h (pending, sendOk, cmd) (List.mem_cons_self _ _)
      subst hp
      have ih1 := ih (fun d hd => h d (List.mem_cons_of_mem _ hd))
      simp [sendCommands, sendCommand, ih1]
  refine ⟨?_, fun pending sendOk cmd => rfl, hquiet, ?_⟩
  · intro flag pending sendOk cmd t h
    cases flag with
    | false => exact Or.inl rfl
    | true =>
      cases pending with
      | some r => exact Or.inr rfl
      | none => simp [sendCommand] at h
  · intro before reply sendOk cmd after
    induction before with
    | nil =>
      intro _
      simp [sendCommands, sendCommand, sendNow]
    | cons c before ih =>
      intro h
      obtain ⟨pending, ok, cmd1⟩ := c
      have hp : pending = none := h (pending, ok, cmd1) (List.mem_cons_self _ _)
      subst hp
      have ih1 := ih (fun d hd => h d (List.mem_cons_of_mem _ hd))
      simp only [List.cons_append, sendCommands, sendCommand, if_true, List.nil_append]
      exact ih1

/-- Witness of C2: after a first send, two calls without acknowledgment send nothing, and the
third call, whose receive returns the acknowledgment, sends its command. -/
theorem sendCommand_alternation_witness :
    sendCommands true
        [(none, true, ⟨7, 0, 2, 1, 2⟩), (none, true, ⟨7, 0, 3, 1, 2⟩)] = (true, []) ∧
    (sendCommands true
        ([(none, true, ⟨7, 0, 2, 1, 2⟩), (none, true, ⟨7, 0, 3, 1, 2⟩)]
          ++ (some ack, true, ⟨7, 0, 4, 1, 2⟩) :: [])).2
      = NetEvent.received ack ::
          (if true = true then NetEvent.sent (commandText ⟨7, 0, 4, 1, 2⟩)
           else NetEvent.sendFailed (commandText ⟨7, 0, 4, 1, 2⟩)) ::
          (sendCommands true []).2 :=
  ⟨sendCommand_alternation.2.2.1 _ (by decide),
   sendCommand_alternation.2.2.2 _ ack true ⟨7, 0, 4, 1, 2⟩ [] (by decide)⟩

/-- C3. The locally controlled player is never touched by reconciliation: for every decoded
snapshot and every local `playerID`, storing the snapshot as `networkReceiveThread` does and
applying it as the update lambda does creates no mirror keyed by `playerID` and leaves the local
player's entity object, hence its position, exactly as it was, also when the snapshot holds a
record for `playerID`; the pointers of the game stay sound, so this holds along every sequence
of snapshots. -/
theorem local_player_untouched (playerID : Int) (snapshot : WorldSnapshot) (g : GameClient)
    (hg : g.WF) (hkey : playerID ∉ keys g.otherPlayers) :
    playerID ∉ keys (applySnapshot (storeSnapshot playerID snapshot) g).otherPlayers ∧
    (applySnapshot (storeSnapshot playerID snapshot) g).localPlayer = g.localPlayer ∧
    (applySnapshot (storeSnapshot playerID snapshot) g).entities[g.localPlayer]?
      = g.entities[g.localPlayer]? ∧
    (applySnapshot (storeSnapshot playerID snapshot) g).WF := by
  obtain ⟨a1, a2, a3, a4⟩ := foldl_applyObject snapshot.syncedObjects g hg
  obtain ⟨b1, b2, _, b4, _, b6⟩ :=
    foldl_applyPlayer (filterPlayers playerID snapshot)
      (snapshot.syncedObjects.foldl applyObject g) a1
  have happ : applySnapshot (storeSnapshot playerID snapshot) g
      = (filterPlayers playerID snapshot).foldl applyPlayer
          (snapshot.syncedObjects.foldl applyObject g) := by
    simp [applySnapshot, storeSnapshot]
  rw [happ]
  refine ⟨?_, by rw [b2, a2], ?_, b1⟩
  · intro hmem
    rcases (b6 playerID).mp hmem with h | h
    · exact not_mem_keys_filterPlayers playerID snapshot h
    · rw [a3] at h
      exact hkey h
  · rw [a2] at b4
    rw [b4, a4]

/-- Witness of C3: the game as `main` sets it up, local player 7, and a snapshot that holds a
record for player 7 itself and one for player 3. -/
theorem local_player_untouched_witness :
    (7 : Int) ∉ keys (applySnapshot (storeSnapshot 7
        { tick := 1, playerIds := [7, 3], playerPositions := [⟨5, 5⟩, ⟨1, 2⟩],
          syncedObjects := [⟨1, 1, ⟨1792, 0⟩⟩] }) initialGame).otherPlayers ∧
    (applySnapshot (storeSnapshot 7
        { tick := 1, playerIds := [7, 3], playerPositions := [⟨5, 5⟩, ⟨1, 2⟩],
          syncedObjects := [⟨1, 1, ⟨1792, 0⟩⟩] }) initialGame).localPlayer
      = initialGame.localPlayer ∧
    (applySnapshot (storeSnapshot 7
        { tick := 1, playerIds := [7, 3], playerPositions := [⟨5, 5⟩, ⟨1, 2⟩],
          syncedObjects := [⟨1, 1, ⟨1792, 0⟩⟩] }) initialGame).entities[initialGame.localPlayer]?
      = initialGame.entities[initialGame.localPlayer]? ∧
    (applySnapshot (storeSnapshot 7
        { tick := 1, playerIds := [7, 3], playerPositions := [⟨5, 5⟩, ⟨1, 2⟩],
          syncedObjects := [⟨1, 1, ⟨1792, 0⟩⟩] }) initialGame).WF :=
  local_player_untouched 7 _ initialGame initialGame_wf (by simp [keys, initialGame])

/-- Counterexample to C4 as stated: after `CMD 7 1 3 10.0 20.0` the state stored for player 7 is
the position `(10, 20)` alone, and it is the same state as after `CMD 7 2 5 10.0 20.0`: no
reading of the stored state gives back the tick and the actions of the command. -/
theorem tick_actions_not_stored :
    ingest [] "CMD 7 1 3 10.0 20.0".toList = [(7, 10, 20)] ∧
    ¬ ∃ view : List (Int × ℚ × ℚ) → Int × Nat,
        view (ingest [] "CMD 7 1 3 10.0 20.0".toList) = (1, 3) ∧
        view (ingest [] "CMD 7 2 5 10.0 20.0".toList) = (2, 5) := by
  refine ⟨by decide!, ?_⟩
  rintro ⟨view, h1, h2⟩
  have e : ingest [] "CMD 7 2 5 10.0 20.0".toList = ingest [] "CMD 7 1 3 10.0 20.0".toList := by
    decide!
  rw [e, h1] at h2
  exact absurd h2 (by decide)

/-- C4, amended. Command ingest stores the position of the command: when a reply endpoint
receives `CMD 7 1 3 10.0 20.0`, the entry of player 7 becomes the position `(10, 20)` and the
reply sent is `Acknowledged`; in general, for every payload from which the extractions read
`CMD id tick actions x y`, the entry stored under `id` afterwards is `(x, y)`, and this is the
case of the text that `Client::sendCommand` builds from a command whose numbers fit their types
and whose coordinates have at most six significant decimal digits.  The tick and the actions are
read and not stored. -/
theorem command_ingest_stores_position (players : List (Int × ℚ × ℚ)) :
    (ingest players "CMD 7 1 3 10.0 20.0".toList = mapSet players 7 (10, 20) ∧
      (reply_handler players [some "CMD 7 1 3 10.0 20.0".toList]).2
        = [NetEvent.received "CMD 7 1 3 10.0 20.0".toList, NetEvent.sent "Acknowledged".toList]) ∧
    (∀ (req : Text) (id tick : Int) (actions : Nat) (x y : ℚ),
      extractCommand req = some ("CMD".toList, id, tick, actions, x, y) →
      mapFind (ingest players req) id = some (x, y)) ∧
    (∀ cmd : ClientCommand, IsInt32 cmd.clientId → IsInt32 cmd.tick →
      cmd.actions < 4294967296 → SixDigits cmd.x → SixDigits cmd.y →
      mapFind (ingest players (commandText cmd)) cmd.clientId = some (cmd.x, cmd.y) ∧
      (reply_handler players [some (commandText cmd)]).2
        = [NetEvent.received (commandText cmd), NetEvent.sent "Acknowledged".toList]) := by
  have hgen : ∀ (req : Text) (id tick : Int) (actions : Nat) (x y : ℚ),
      extractCommand req = some ("CMD".toList, id, tick, actions, x, y) →
      mapFind (ingest players req) id = some (x, y) := by
    intro req id tick actions x y h
    simp only [ingest, h, if_true]
    exact mapFind_mapSet_self players id (x, y)
  refine ⟨⟨?_, ?_⟩, hgen, ?_⟩
  · have h : extractCommand "CMD 7 1 3 10.0 20.0".toList
        = some ("CMD".toList, 7, 1, 3, 10, 20) := by decide!
    simp only [ingest, h, if_true]
  · rfl
  · intro cmd hid htick hact hx hy
    exact ⟨hgen _ _ _ _ _ _ (extractCommand_commandText cmd hid htick hact
      (readsBack_of_sixDigits _ hx) (readsBack_of_sixDigits _ hy)), rfl⟩

/-- Witness of C4, amended: the command of player 7 at tick 1 with actions 3 and position
`(10, 20)`, as `Client::sendCommand` writes it and as the scenario writes it, received by a
server that knows player 3. -/
theorem command_ingest_stores_position_witness :
    (mapFind (ingest [(3, 1, 2)] (commandText ⟨7, 3, 1, 10, 20⟩)) 7 = some (10, 20) ∧
      (reply_handler [(3, 1, 2)] [some (commandText ⟨7, 3, 1, 10, 20⟩)]).2
        = [NetEvent.received (commandText ⟨7, 3, 1, 10, 20⟩),
           NetEvent.sent "Acknowledged".toList]) ∧
    mapFind (ingest [(3, 1, 2)] "CMD 7 1 3 10.0 20.0".toList) 7 = some (10, 20) :=
  ⟨(command_ingest_stores_position [(3, 1, 2)]).2.2 ⟨7, 3, 1, 10, 20⟩ ⟨by decide, by decide⟩
      ⟨by decide, by decide⟩ (by decide) sixDigits_scenario.2.2.1 sixDigits_scenario.2.2.2.1,
   (command_ingest_stores_position [(3, 1, 2)]).2.1 "CMD 7 1 3 10.0 20.0".toList 7 1 3 10 20
      (by decide!)⟩

/-- Counterexample to C5 as stated: from the state of the scenario with the velocities of the
registry, the cycle first moves the objects and emits other coordinates; and from the state of
the scenario with the objects at rest the emitted text still differs from the text of the
scenario, by the space that follows every record. -/
theorem scenario_text_differs :
    (pub_handler 41
        { players := [(3, 1, 2), (7, 10, 20)],
          syncedObjects :=
            [(0, { position := ⟨1000, 700⟩, velocity := ⟨150, 0⟩, type := 0, id := 0 }),
             (1, { position := ⟨1792, 0⟩, velocity := ⟨-400, 180⟩, type := 1, id := 1 })] }).2.2
      = "SNAP 42 2 2 3 1 2 7 10 20 0 0 1004.95 700 1 1 1778.8 5.94 ".toList ∧
    (pub_handler 41
        { players := [(3, 1, 2), (7, 10, 20)],
          syncedObjects :=
            [(0, { position := ⟨1000, 700⟩, velocity := ⟨0, 0⟩, type := 0, id := 0 }),
             (1, { position := ⟨1792, 0⟩, velocity := ⟨0, 0⟩, type := 1, id := 1 })] }).2.2
      ≠ "SNAP 42 2 2 3 1 2 7 10 20 0 0 1000 700 1 1 1792 0".toList := by
  decide!

/-- C5, amended. Snapshot scenario: with players `{3:(1,2), 7:(10,20)}` in the map, in either
iteration order, and synced objects that the object update of the cycle leaves as
`{0: platform at (1000,700), 1: orb at (1792,0)}`, iterated in this order, the publish cycle
whose tick is 42 emits exactly the text `SNAP 42 2 2 3 1 2 7 10 20 0 0 1000 700 1 1 1792 0 `,
which ends with the space that follows the last record. -/
theorem scenario_text (players : List (Int × ℚ × ℚ)) (objs : List (Int × SyncedObject))
    (hp : players = [(3, 1, 2), (7, 10, 20)] ∨ players = [(7, 10, 20), (3, 1, 2)])
    (ho : objs.map (fun kv =>
            ((pubObjectStep kv.2).id, (pubObjectStep kv.2).type, (pubObjectStep kv.2).position))
          = [(0, 0, ⟨1000, 700⟩), (1, 1, ⟨1792, 0⟩)]) :
    (pub_handler 41 { players := players, syncedObjects := objs }).1 = 42 ∧
    (pub_handler 41 { players := players, syncedObjects := objs }).2.2
      = "SNAP 42 2 2 3 1 2 7 10 20 0 0 1000 700 1 1 1792 0 ".toList := by
  have hsort : sortPlayers players = [(3, 1, 2), (7, 10, 20)] := by
    rcases hp with rfl | rfl <;> decide!
  have hrec : (objs.map (fun kv => (kv.1, pubObjectStep kv.2))).map
        (fun kv => objectRecord kv.2)
      = [objectRecord { position := ⟨1000, 700⟩, velocity := ⟨0, 0⟩, type := 0, id := 0 },
         objectRecord { position := ⟨1792, 0⟩, velocity := ⟨0, 0⟩, type := 1, id := 1 }] := by
    rcases objs with _ | ⟨a, _ | ⟨b, _ | ⟨c, rest⟩⟩⟩
    · simp at ho
    · simp at ho
    · simp only [List.map_cons, List.map_nil, List.cons.injEq, Prod.mk.injEq, and_true] at ho
      obtain ⟨⟨a1, a2, a3⟩, b1, b2, b3⟩ := ho
      simp only [List.map_cons, List.map_nil]
      rw [objectRecord_congr (pubObjectStep a.2)
            { position := ⟨1000, 700⟩, velocity := ⟨0, 0⟩, type := 0, id := 0 } a1 a2 a3,
        objectRecord_congr (pubObjectStep b.2)
            { position := ⟨1792, 0⟩, velocity := ⟨0, 0⟩, type := 1, id := 1 } b1 b2 b3]
    · simp at ho
  have hlen : (objs.map (fun kv => (kv.1, pubObjectStep kv.2))).length = 2 := by
    have := congrArg List.length ho
    simpa using this
  refine ⟨by simp [pub_handler], ?_⟩
  simp only [pub_handler, snapshotText, hsort, hrec, hlen]
  decide!

/-- Witness of C5, amended: the platform on its low bound and moving left, the orb fully off the
left edge; the cycle clamps the one and brings the other back to its spawn anchor. -/
theorem scenario_text_witness :
    (pub_handler 41
        { players := [(7, 10, 20), (3, 1, 2)],
          syncedObjects :=
            [(0, { position := ⟨1000, 700⟩, velocity := ⟨-150, 0⟩, type := 0, id := 0 }),
             (1, { position := ⟨-130, 50⟩, velocity := ⟨-400, 180⟩, type := 1, id := 1 })] }).1
      = 42 ∧
    (pub_handler 41
        { players := [(7, 10, 20), (3, 1, 2)],
          syncedObjects :=
            [(0, { position := ⟨1000, 700⟩, velocity := ⟨-150, 0⟩, type := 0, id := 0 }),
             (1, { position := ⟨-130, 50⟩, velocity := ⟨-400, 180⟩, type := 1, id := 1 })] }).2.2
      = "SNAP 42 2 2 3 1 2 7 10 20 0 0 1000 700 1 1 1792 0 ".toList :=
  scenario_text _ _ (Or.inr rfl) (by decide!)

/-- Counterexample to C6 as stated: the payload `CMD 7 1 3-4 5` has five white-space separated
tokens, fewer than six, and yet the extractions read six fields from it (the sign ends the
`actions` field and starts `x`), so the players map does change. -/
theorem five_tokens_applied :
    countTokens false "CMD 7 1 3-4 5".toList = 5 ∧
    ingest [] "CMD 7 1 3-4 5".toList = [(7, -4, 5)] ∧
    ingest [] "CMD 7 1 3-4 5".toList ≠ [] := by
  decide!

/-- C6, amended. Malformed commands are dropped but still acknowledged: for every request
received by `reply_handler` exactly one reply `Acknowledged` is sent, before the next receive;
and when the extraction of the six fields fails (the stream runs out or a field cannot be read
as its numeric type), or the first token is not `CMD`, the players map is left exactly as it
was.  The boundaries of the tokens are not checked. -/
theorem malformed_dropped_but_acked :
    (∀ (players : List (Int × ℚ × ℚ)) (msgs : List (Option Text)),
      (reply_handler players msgs).2
        = ((msgs.filterMap id).map
            (fun req => [NetEvent.received req, NetEvent.sent ack])).flatten) ∧
    (∀ (players : List (Int × ℚ × ℚ)) (req : Text),
      extractCommand req = none → ingest players req = players) ∧
    (∀ (players : List (Int × ℚ × ℚ)) (req tag rest : Text),
      readWord req = some (tag, rest) → tag ≠ "CMD".toList → ingest players req = players) := by
  refine ⟨fun players msgs => reply_handler_traffic msgs players, ?_, ?_⟩
  · intro players req h
    simp [ingest, h]
  · intro players req tag rest hw htag
    unfold ingest
    cases he : extractCommand req with
    | none => rfl
    | some r =>
      obtain ⟨cmd, id, tick, actions, x, y⟩ := r
      have hcmd : cmd = tag := by
        unfold extractCommand at he
        rw [hw] at he
        simp only at he
        cases h1 : readInt rest with
        | none => rw [h1] at he; simp at he
        | some r1 =>
          rw [h1] at he
          simp only at he
          cases h2 : readInt r1.2 with
          | none => rw [h2] at he; simp at he
          | some r2 =>
            rw [h2] at he
            simp only at he
            cases h3 : readUInt32 r2.2 with
            | none => rw [h3] at he; simp at he
            | some r3 =>
              rw [h3] at he
              simp only at he
              cases h4 : readFloat r3.2 with
              | none => rw [h4] at he; simp at he
              | some r4 =>
                rw [h4] at he
                simp only at he
                cases h5 : readFloat r4.2 with
                | none => rw [h5] at he; simp at he
                | some r5 =>
                  rw [h5] at he
                  simp only [Option.some.injEq, Prod.mk.injEq] at he
                  exact he.1.symm
      simp only
      rw [hcmd, if_neg htag]

/-- Witness of C6, amended: a request cut after its tick and a request with the tag `MOVE` leave
a players map with one entry as it was. -/
theorem malformed_dropped_but_acked_witness :
    ingest [(3, 1, 2)] "CMD 7 1".toList = [(3, 1, 2)] ∧
    ingest [(3, 1, 2)] "MOVE 7 1 3 10.0 20.0".toList = [(3, 1, 2)] :=
  ⟨malformed_dropped_but_acked.2.1 _ _ (by decide!),
   malformed_dropped_but_acked.2.2 _ "MOVE 7 1 3 10.0 20.0".toList "MOVE".toList
     " 7 1 3 10.0 20.0".toList (by decide!) (by decide)⟩

/-- C7. Platform reflection at the bounds: a type-0 object at `x = 1000` with
`velocity.x = -150` stays at `x = 1000` and gets `velocity.x = +150`, and a type-0 object at
`x = 1300` with `velocity.x = +150` stays at `x = 1300` and gets `velocity.x = -150`; this holds
for the update of `objects_thread_func` with every time step `dt ≥ 0` and for the update of
`pub_handler` with its fixed step. -/
theorem platform_reflects (obj : SyncedObject) (htype : obj.type = 0) :
    (obj.position.x = 1000 → obj.velocity.x = -150 →
      (∀ dt : ℚ, 0 ≤ dt →
        (tickerObjectStep dt obj).position.x = 1000 ∧ (tickerObjectStep dt obj).velocity.x = 150)
      ∧ (pubObjectStep obj).position.x = 1000 ∧ (pubObjectStep obj).velocity.x = 150) ∧
    (obj.position.x = 1300 → obj.velocity.x = 150 →
      (∀ dt : ℚ, 0 ≤ dt →
        (tickerObjectStep dt obj).position.x = 1300
          ∧ (tickerObjectStep dt obj).velocity.x = -150)
      ∧ (pubObjectStep obj).position.x = 1300 ∧ (pubObjectStep obj).velocity.x = -150) := by
  constructor
  · intro hx hv
    have key : ∀ dt : ℚ, 0 ≤ dt → obj.position.x + obj.velocity.x * dt ≤ 1000 := by
      intro dt hdt
      rw [hx, hv]
      nlinarith
    refine ⟨?_, ?_⟩
    · intro dt hdt
      simp [tickerObjectStep, htype, key dt hdt]
    · simp [pubObjectStep, htype, key (33 / 1000) (by norm_num)]
  · intro hx hv
    have key1 : ∀ dt : ℚ, 0 ≤ dt → ¬ obj.position.x + obj.velocity.x * dt ≤ 1000 := by
      intro dt hdt
      rw [hx, hv]
      nlinarith
    have key2 : ∀ dt : ℚ, 0 ≤ dt → 1500 ≤ obj.position.x + obj.velocity.x * dt + 200 := by
      intro dt hdt
      rw [hx, hv]
      nlinarith
    refine ⟨?_, ?_⟩
    · intro dt hdt
      simp only [tickerObjectStep, htype, if_true, if_neg (key1 dt hdt), if_pos (key2 dt hdt)]
      norm_num
    · simp only [pubObjectStep, htype, if_true, if_neg (key1 (33 / 1000) (by norm_num)),
        if_pos (key2 (33 / 1000) (by norm_num))]
      norm_num

/-- Witness of C7: the platform of the registry on its low bound and moving left, with a step of
16 ms, and the same platform on its high bound and moving right, in a publish cycle. -/
theorem platform_reflects_witness :
    ((tickerObjectStep (16 / 1000)
        { position := { x := 1000, y := 700 }, velocity := { x := -150, y := 0 }, type := 0,
          id := 0 }).position.x = 1000 ∧
     (tickerObjectStep (16 / 1000)
        { position := { x := 1000, y := 700 }, velocity := { x := -150, y := 0 }, type := 0,
          id := 0 }).velocity.x = 150) ∧
    ((pubObjectStep
        { position := { x := 1300, y := 700 }, velocity := { x := 150, y := 0 }, type := 0,
          id := 0 }).position.x = 1300 ∧
     (pubObjectStep
        { position := { x := 1300, y := 700 }, velocity := { x := 150, y := 0 }, type := 0,
          id := 0 }).velocity.x = -150) :=
  ⟨((platform_reflects
      { position := { x := 1000, y := 700 }, velocity := { x := -150, y := 0 }, type := 0,
        id := 0 } rfl).1 rfl rfl).1 (16 / 1000) (by norm_num),
   ((platform_reflects
      { position := { x := 1300, y := 700 }, velocity := { x := 150, y := 0 }, type := 0,
        id := 0 } rfl).2 rfl rfl).2⟩

/-- C8. Orb rule of the per-cycle object step of `pub_handler` (`dt = 0.033`): a type-1 object
moves to `(x + vx*dt, y + vy*dt)`; if that point has `x + 128 < 0` or `y > 1080` the object is
placed at `(1792, 0)`, otherwise it stays at the integrated point; the velocity, the type and the
id are unchanged.  So a type-1 object at `x = -130` with non-positive `vx` is at `(1792, 0)`
after the step. -/
theorem orb_rule (obj : SyncedObject) (htype : obj.type = 1) :
    pubObjectStep obj =
      (if obj.position.x + obj.velocity.x * (33 / 1000) + 128 < 0
          ∨ 1080 < obj.position.y + obj.velocity.y * (33 / 1000) then
        { obj with position := { x := 1792, y := 0 } }
      else
        { obj with position := { x := obj.position.x + obj.velocity.x * (33 / 1000),
                                 y := obj.position.y + obj.velocity.y * (33 / 1000) } }) ∧
    (obj.position.x = -130 → obj.velocity.x ≤ 0 →
      (pubObjectStep obj).position = { x := 1792, y := 0 }
        ∧ (pubObjectStep obj).velocity = obj.velocity) := by
  have h10 : ¬ ((1 : Int) = 0) := by decide
  constructor
  · simp only [pubObjectStep, htype, h10, if_false, if_true]
    norm_num
  · intro hx hv
    have key : obj.position.x + obj.velocity.x * (33 / 1000) + 128 < 0 := by
      rw [hx]
      nlinarith
    simp only [pubObjectStep, htype, h10, if_false, if_true, if_pos (Or.inl key)]
    norm_num

/-- Witness of C8: the orb of the registry once it is at `x = -130`. -/
theorem orb_rule_witness :
    (pubObjectStep
        { position := { x := -130, y := 50 }, velocity := { x := -400, y := 180 }, type := 1,
          id := 1 }).position = { x := 1792, y := 0 } ∧
    (pubObjectStep
        { position := { x := -130, y := 50 }, velocity := { x := -400, y := 180 }, type := 1,
          id := 1 }).velocity = { x := -400, y := 180 } :=
  (orb_rule
      { position := { x := -130, y := 50 }, velocity := { x := -400, y := 180 }, type := 1,
        id := 1 } rfl).2 rfl (by norm_num)

/-- Counterexample to C9 as stated: `pollUpdate` returns `false` on a message that announces two
players and carries one record, and the caller's snapshot, which held tick 1 and one player, now
holds the tick of the rejected message, its first record, and sequences resized to two. -/
theorem pollUpdate_partial_write :
    pollUpdate (some "SNAP 9 2 0 4 8 8".toList)
        { tick := 1, playerIds := [3], playerPositions := [⟨1, 2⟩], syncedObjects := [] }
      = PollResult.returned false
          { tick := 9, playerIds := [4, 0], playerPositions := [⟨8, 8⟩, ⟨0, 0⟩],
            syncedObjects := [] } := by
  decide!

/-- C9, amended. Decode fails closed before the header is complete and for its caller: when
there is no data, or the first token is not `SNAP`, or a header field does not parse,
`pollUpdate` returns `false` and `out` is exactly as it was; and whenever `pollUpdate` returns
`false`, whatever it wrote to the local snapshot of `networkReceiveThread`, the stored
`latestSnapshot` is left as it was. -/
theorem pollUpdate_fails_closed :
    (∀ out : WorldSnapshot, pollUpdate none out = PollResult.returned false out) ∧
    (∀ (data : Text) (out : WorldSnapshot), extractHeader data = none →
      pollUpdate (some data) out = PollResult.returned false out) ∧
    (∀ (playerID : Int) (latest : ServerSnapshot) (msg : Option Text) (out : WorldSnapshot),
      pollUpdate msg freshSnapshot = PollResult.returned false out →
      networkReceiveThread playerID latest msg = some latest) := by
  refine ⟨fun out => rfl, ?_, ?_⟩
  · intro data out h
    unfold extractHeader at h
    unfold pollUpdate
    simp only
    cases hw : readWord data with
    | none => rfl
    | some w =>
      obtain ⟨tag, s1⟩ := w
      rw [hw] at h
      simp only at h ⊢
      by_cases htag : tag = "SNAP".toList
      · simp only [htag, ne_eq, not_true_eq_false, if_false] at h ⊢
        cases h1 : readInt s1 with
        | none => rfl
        | some r1 =>
          obtain ⟨tick, s2⟩ := r1
          rw [h1] at h
          simp only at h ⊢
          cases h2 : readInt s2 with
          | none => rfl
          | some r2 =>
            obtain ⟨pc, s3⟩ := r2
            rw [h2] at h
            simp only at h ⊢
            cases h3 : readInt s3 with
            | none => rfl
            | some r3 =>
              rw [h3] at h
              simp at h
      · simp only [ne_eq, htag, not_false_eq_true, if_true]
  · intro playerID latest msg out h
    simp [networkReceiveThread, h]

/-- Witness of C9, amended: a message with a wrong tag leaves `out` as it was, and the message
of the counterexample, rejected after a partial write, leaves `latestSnapshot` as it was. -/
theorem pollUpdate_fails_closed_witness :
    pollUpdate (some "SNAX 9 2 0 4 8 8".toList)
        { tick := 1, playerIds := [3], playerPositions := [⟨1, 2⟩], syncedObjects := [] }
      = PollResult.returned false
          { tick := 1, playerIds := [3], playerPositions := [⟨1, 2⟩], syncedObjects := [] } ∧
    networkReceiveThread 7 latestSnapshot0 (some "SNAP 9 2 0 4 8 8".toList)
      = some latestSnapshot0 :=
  ⟨pollUpdate_fails_closed.2.1 "SNAX 9 2 0 4 8 8".toList _ (by decide!),
   pollUpdate_fails_closed.2.2 7 latestSnapshot0 (some "SNAP 9 2 0 4 8 8".toList)
     { tick := 9, playerIds := [4, 0], playerPositions := [⟨8, 8⟩, ⟨0, 0⟩],
       syncedObjects := [] } (by decide!)⟩

/-- Counterexample to C10 as stated: a valid snapshot whose only synced object is the platform
(id 0, type 0) leaves the game as it was: no entity is created for it and no mirror exists. -/
theorem platform_not_mirrored :
    applySnapshot
        { otherPlayersPositions := [], syncedObjects := [⟨0, 0, ⟨1000, 700⟩⟩], valid := true }
        initialGame = initialGame ∧
    initialGame.orb = none ∧ initialGame.entities.length = 2 := by
  decide!

/-- C10, amended. Reconciliation mirrors the orb only.  One entry with id 1 and type 1 creates
the orb mirror at the entry's position when there is none, and sets the position of the existing
mirror otherwise; an entry with any other id or type changes nothing.  After a valid snapshot is
applied, the orb mirror exists and stands at the position of the last entry with id 1 and type 1
of the snapshot, if there is one. -/
theorem orb_mirrored (g : GameClient) (hg : g.WF) :
    (∀ obj : SyncedObjectData, ¬ (obj.id = 1 ∧ obj.type = 1) → applyObject g obj = g) ∧
    (∀ obj : SyncedObjectData, obj.id = 1 → obj.type = 1 → g.orb = none →
      (applyObject g obj).orb = some g.entities.length ∧
      (applyObject g obj).entities = g.entities ++
        [setServerControlledTrue (newAuto obj.position.x obj.position.y 128 128)]) ∧
    (∀ (obj : SyncedObjectData) (p : Nat), obj.id = 1 → obj.type = 1 → g.orb = some p →
      (applyObject g obj).orb = some p ∧
      (applyObject g obj).entities = setPositionAt g.entities p obj.position) ∧
    (∀ (latest : ServerSnapshot) (obj : SyncedObjectData), latest.valid = true →
      (orbEntries latest.syncedObjects).getLast? = some obj →
      ∃ p e, (applySnapshot latest g).orb = some p ∧
        (applySnapshot latest g).entities[p]? = some e ∧ e.position = obj.position) := by
  refine ⟨fun obj h => applyObject_other g obj h, ?_, ?_, ?_⟩
  · intro obj hid hty ho
    simp [applyObject, hid, hty, ho]
  · intro obj p hid hty ho
    simp [applyObject, hid, hty, ho]
  · intro latest obj hv hlast
    obtain ⟨a1, _, _, _⟩ := foldl_applyObject latest.syncedObjects g hg
    obtain ⟨p, e, hp, he, hpos⟩ := foldl_applyObject_orb latest.syncedObjects g obj hg hlast
    obtain ⟨_, _, b3, _, b5, _⟩ :=
      foldl_applyPlayer latest.otherPlayersPositions (latest.syncedObjects.foldl applyObject g) a1
    have happ : applySnapshot latest g
        = latest.otherPlayersPositions.foldl applyPlayer
            (latest.syncedObjects.foldl applyObject g) := by
      simp [applySnapshot, hv]
    rw [happ]
    exact ⟨p, e, by rw [b3, hp], by rw [b5 p hp, he], hpos⟩

/-- Witness of C10, amended: the first snapshot with the platform and the orb, applied to the
game as `main` sets it up, and the single steps on the orb entry (no mirror yet) and on the
platform entry. -/
theorem orb_mirrored_witness :
    (∃ p e,
      (applySnapshot
        { otherPlayersPositions := [(3, ⟨1, 2⟩)],
          syncedObjects := [⟨0, 0, ⟨1000, 700⟩⟩, ⟨1, 1, ⟨1792, 0⟩⟩], valid := true }
        initialGame).orb = some p ∧
      (applySnapshot
        { otherPlayersPositions := [(3, ⟨1, 2⟩)],
          syncedObjects := [⟨0, 0, ⟨1000, 700⟩⟩, ⟨1, 1, ⟨1792, 0⟩⟩], valid := true }
        initialGame).entities[p]? = some e ∧
      e.position = (⟨1, 1, ⟨1792, 0⟩⟩ : SyncedObjectData).position) ∧
    ((applyObject initialGame ⟨1, 1, ⟨1792, 0⟩⟩).orb = some initialGame.entities.length ∧
      (applyObject initialGame ⟨1, 1, ⟨1792, 0⟩⟩).entities = initialGame.entities ++
        [setServerControlledTrue
          (newAuto (⟨1, 1, ⟨1792, 0⟩⟩ : SyncedObjectData).position.x
            (⟨1, 1, ⟨1792, 0⟩⟩ : SyncedObjectData).position.y 128 128)]) ∧
    applyObject initialGame ⟨0, 0, ⟨1000, 700⟩⟩ = initialGame :=
  ⟨(orb_mirrored initialGame initialGame_wf).2.2.2
      { otherPlayersPositions := [(3, ⟨1, 2⟩)],
        syncedObjects := [⟨0, 0, ⟨1000, 700⟩⟩, ⟨1, 1, ⟨1792, 0⟩⟩], valid := true }
      ⟨1, 1, ⟨1792, 0⟩⟩ rfl (by decide),
   (orb_mirrored initialGame initialGame_wf).2.1 ⟨1, 1, ⟨1792, 0⟩⟩ rfl rfl rfl,
   (orb_mirrored initialGame initialGame_wf).1 ⟨0, 0, ⟨1000, 700⟩⟩ (by decide)⟩

/-! ## Lemmas on the reconciliation of remote players -/

theorem mapFind_mapSet_ne {β : Type} (m : List (Int × β)) (k j : Int) (v : β) (h : k ≠ j) :
    mapFind (mapSet m k v) j = mapFind m j := by
  induction m with
  | nil => simp [mapSet, mapFind, h]
  | cons kv rest ih =>
    obtain ⟨k0, v0⟩ := kv
    by_cases hk : k0 = k
    · subst hk
      simp [mapSet, mapFind, h]
    · by_cases hj : k0 = j
      · subst hj
        simp [mapSet, mapFind, hk]
      · simp [mapSet, mapFind, hk, hj, ih]

theorem nodup_keys_mapSet {β : Type} (m : List (Int × β)) (k : Int) (v : β)
    (h : (keys m).Nodup) : (keys (mapSet m k v)).Nodup := by
  induction m with
  | nil => simp [mapSet, keys]
  | cons kv rest ih =>
    obtain ⟨k0, v0⟩ := kv
    have h' : k0 ∉ keys rest ∧ (keys rest).Nodup := by
      simpa [keys] using h
    by_cases hk : k0 = k
    · subst hk
      simpa [mapSet, keys] using h
    · have hmem : k0 ∉ keys (mapSet rest k v) := by
        intro hm
        rcases (keys_mapSet rest k v k0).mp hm with e | e
        · exact hk e
        · exact h'.1 e
      have hnd := ih h'.2
      simp only [mapSet, hk, if_false]
      show (k0 :: keys (mapSet rest k v)).Nodup
      exact List.nodup_cons.mpr ⟨hmem, hnd⟩

theorem nodup_keys_foldl_filter (playerID : Int) (ids : List Int) (pos : List OrderedPair)
    (idx : List Nat) : ∀ m : List (Int × OrderedPair), (keys m).Nodup →
      (keys (idx.foldl
        (fun m i =>
          if ids.getD i 0 ≠ playerID then
            mapSet m (ids.getD i 0) (pos.getD i { x := 0, y := 0 })
          else m) m)).Nodup := by
  induction idx with
  | nil => intro m h; exact h
  | cons i idx ih =>
    intro m h
    simp only [List.foldl_cons]
    apply ih
    by_cases hi : ids.getD i 0 ≠ playerID
    · rw [if_pos hi]
      exact nodup_keys_mapSet _ _ _ h
    · rw [if_neg hi]
      exact h

theorem nodup_keys_filterPlayers (playerID : Int) (snapshot : WorldSnapshot) :
    (keys (filterPlayers playerID snapshot)).Nodup :=
  nodup_keys_foldl_filter playerID snapshot.playerIds snapshot.playerPositions _ []
    (by simp [keys])

/-- The entry that the filter loop leaves for an id is the position of the last record of that
id. -/
theorem mapFind_foldl_filter (playerID : Int) (ids : List Int) (pos : List OrderedPair) (i : Nat)
    (hne : ids.getD i 0 ≠ playerID) :
    ∀ n : Nat, i < n → (∀ j, i < j → j < n → ids.getD j 0 ≠ ids.getD i 0) →
      mapFind ((List.range n).foldl
        (fun m i =>
          if ids.getD i 0 ≠ playerID then
            mapSet m (ids.getD i 0) (pos.getD i { x := 0, y := 0 })
          else m) []) (ids.getD i 0) = some (pos.getD i { x := 0, y := 0 }) := by
  intro n
  induction n with
  | zero => intro h; omega
  | succ n ih =>
    intro hin hlast
    rw [List.range_succ, List.foldl_append]
    simp only [List.foldl_cons, List.foldl_nil]
    by_cases hi : i = n
    · subst hi
      rw [if_pos hne]
      exact mapFind_mapSet_self _ _ _
    · have hlt : i < n := by omega
      have hdiff : ids.getD n 0 ≠ ids.getD i 0 := hlast n hlt (by omega)
      have ih1 := ih hlt (fun j h1 h2 => hlast j h1 (by omega))
      by_cases hn : ids.getD n 0 ≠ playerID
      · rw [if_pos hn, mapFind_mapSet_ne _ _ _ _ hdiff]
        exact ih1
      · rw [if_neg hn]
        exact ih1

theorem mapFind_filterPlayers (playerID : Int) (snapshot : WorldSnapshot) (i : Nat)
    (hi : i < snapshot.playerIds.length) (hne : snapshot.playerIds.getD i 0 ≠ playerID)
    (hlast : ∀ j, i < j → j < snapshot.playerIds.length →
      snapshot.playerIds.getD j 0 ≠ snapshot.playerIds.getD i 0) :
    mapFind (filterPlayers playerID snapshot) (snapshot.playerIds.getD i 0)
      = some (snapshot.playerPositions.getD i { x := 0, y := 0 }) :=
  mapFind_foldl_filter playerID snapshot.playerIds snapshot.playerPositions i hne _ hi hlast

/-- Two different ids have two different mirrors. -/
theorem mirror_handle_ne (g : GameClient) (hg : g.WF) (a b : Int) (p q : Nat)
    (ha : mapFind g.otherPlayers a = some p) (hb : mapFind g.otherPlayers b = some q)
    (hab : a ≠ b) : p ≠ q := by
  intro hpq
  have h := List.inj_on_of_nodup_map hg.2.2.2 (mapFind_some_mem _ _ _ ha)
    (mapFind_some_mem _ _ _ hb) hpq
  exact hab (congrArg Prod.fst h)

/-- What one iteration of the other-players loop does for the id of its entry. -/
theorem applyPlayer_entry (g : GameClient) (entry : Int × OrderedPair) (hg : g.WF) :
    ∃ p e, mapFind (applyPlayer g entry).otherPlayers entry.1 = some p ∧
      (applyPlayer g entry).entities[p]? = some e ∧ e.position = entry.2 ∧
      (mapFind g.otherPlayers entry.1 = none →
        g.entities.length ≤ p ∧ e = newPlayer entry.2.x entry.2.y 64 64) ∧
      (∀ q, mapFind g.otherPlayers entry.1 = some q →
        p = q ∧ ∃ e0, g.entities[q]? = some e0 ∧ e = setPosition e0 entry.2) := by
  obtain ⟨h1, h2, h3, h4⟩ := hg
  unfold applyPlayer
  cases hf : mapFind g.otherPlayers entry.1 with
  | none =>
    refine ⟨g.entities.length, newPlayer entry.2.x entry.2.y 64 64, ?_, ?_, rfl, ?_, ?_⟩
    · exact mapFind_mapSet_self _ _ _
    · show (g.entities ++ [newPlayer entry.2.x entry.2.y 64 64])[g.entities.length]? = _
      simp
    · intro _
      exact ⟨le_refl _, rfl⟩
    · intro q hq
      exact absurd hq (by simp)
  | some p =>
    have hmem := mapFind_some_mem _ _ _ hf
    have hp : p < g.entities.length := (h2 _ hmem).1
    refine ⟨p, setPosition (g.entities.get ⟨p, hp⟩) entry.2, hf, ?_, rfl, ?_, ?_⟩
    · exact getElem?_setPositionAt_self _ _ _ hp
    · intro h
      exact absurd h (by simp)
    · intro q hq
      have hpq : p = q := by
        simpa using hq
      refine ⟨hpq, g.entities.get ⟨p, hp⟩, ?_, rfl⟩
      rw [← hpq]
      simp [List.getElem?_eq_getElem hp]

/-- What one iteration of the other-players loop leaves alone: the mirrors of the other ids. -/
theorem applyPlayer_other (g : GameClient) (entry : Int × OrderedPair) (hg : g.WF) (j : Int)
    (hj : entry.1 ≠ j) :
    mapFind (applyPlayer g entry).otherPlayers j = mapFind g.otherPlayers j ∧
    (∀ q, mapFind g.otherPlayers j = some q →
      (applyPlayer g entry).entities[q]? = g.entities[q]?) := by
  have hg0 := hg
  obtain ⟨h1, h2, h3, h4⟩ := hg
  unfold applyPlayer
  cases hf : mapFind g.otherPlayers entry.1 with
  | none =>
    refine ⟨mapFind_mapSet_ne _ _ _ _ hj, ?_⟩
    intro q hq
    show (g.entities ++ _)[q]? = _
    rw [List.getElem?_append_left (h2 _ (mapFind_some_mem _ _ _ hq)).1]
  | some p =>
    refine ⟨rfl, ?_⟩
    intro q hq
    exact getElem?_setPositionAt_ne _ _ _ _ (mirror_handle_ne g hg0 _ _ _ _ hf hq hj)

theorem length_applyPlayer (g : GameClient) (entry : Int × OrderedPair) :
    g.entities.length ≤ (applyPlayer g entry).entities.length := by
  unfold applyPlayer
  cases hf : mapFind g.otherPlayers entry.1 with
  | none =>
    show g.entities.length ≤ (g.entities ++ _).length
    simp
  | some p =>
    show g.entities.length ≤ (setPositionAt g.entities p entry.2).length
    rw [length_setPositionAt]

/-- The other-players loop leaves alone the mirror of an id that has no entry in the map it
iterates. -/
theorem foldl_applyPlayer_other (entries : List (Int × OrderedPair)) (j : Int) :
    ∀ g : GameClient, g.WF → j ∉ keys entries →
      mapFind (entries.foldl applyPlayer g).otherPlayers j = mapFind g.otherPlayers j ∧
      (∀ q, mapFind g.otherPlayers j = some q →
        (entries.foldl applyPlayer g).entities[q]? = g.entities[q]?) := by
  induction entries with
  | nil => intro g _ _; exact ⟨rfl, fun _ _ => rfl⟩
  | cons en entries ih =>
    intro g hg hj
    have hj1 : en.1 ≠ j := by
      intro h
      exact hj (by simp [keys, h])
    have hj2 : j ∉ keys entries := by
      intro h
      exact hj (by simp only [keys, List.map_cons, List.mem_cons]; exact Or.inr h)
    obtain ⟨a, b⟩ := ih (applyPlayer g en) (applyPlayer_wf g en hg) hj2
    obtain ⟨a1, b1⟩ := applyPlayer_other g en hg j hj1
    simp only [List.foldl_cons]
    refine ⟨by rw [a, a1], ?_⟩
    intro q hq
    rw [b q (by rw [a1]; exact hq), b1 q hq]

/-- The other-players loop, for every entry of the map it iterates: the id has a mirror at the
position of the entry, a new object if the id had none, the same object otherwise. -/
theorem foldl_applyPlayer_entry (entries : List (Int × OrderedPair)) :
    ∀ g : GameClient, g.WF → (keys entries).Nodup →
      ∀ entry ∈ entries,
        ∃ p e, mapFind (entries.foldl applyPlayer g).otherPlayers entry.1 = some p ∧
          (entries.foldl applyPlayer g).entities[p]? = some e ∧ e.position = entry.2 ∧
          (mapFind g.otherPlayers entry.1 = none →
            g.entities.length ≤ p ∧ e = newPlayer entry.2.x entry.2.y 64 64) ∧
          (∀ q, mapFind g.otherPlayers entry.1 = some q →
            p = q ∧ ∃ e0, g.entities[q]? = some e0 ∧ e = setPosition e0 entry.2) := by
  induction entries with
  | nil => intro g _ _ entry h; exact absurd h (List.not_mem_nil _)
  | cons en entries ih =>
    intro g hg hnd entry hmem
    have hnd' : en.1 ∉ keys entries ∧ (keys entries).Nodup := by
      simpa [keys] using hnd
    have hwf := applyPlayer_wf g en hg
    simp only [List.foldl_cons]
    rcases List.mem_cons.mp hmem with h | h
    · subst h
      obtain ⟨p, e, a, b, c, d, f⟩ := applyPlayer_entry g entry hg
      obtain ⟨a1, b1⟩ := foldl_applyPlayer_other entries entry.1 (applyPlayer g entry) hwf hnd'.1
      exact ⟨p, e, by rw [a1, a], by rw [b1 p a, b], c, d, f⟩
    · have hne : en.1 ≠ entry.1 := by
        intro heq
        apply hnd'.1
        rw [heq]
        exact List.mem_map.mpr ⟨entry, h, rfl⟩
      obtain ⟨p, e, a, b, c, d, f⟩ := ih (applyPlayer g en) hwf hnd'.2 entry h
      obtain ⟨a1, b1⟩ := applyPlayer_other g en hg entry.1 hne
      refine ⟨p, e, a, b, c, ?_, ?_⟩
      · intro hnone
        obtain ⟨d1, d2⟩ := d (by rw [a1]; exact hnone)
        exact ⟨le_trans (length_applyPlayer g en) d1, d2⟩
      · intro q hq
        obtain ⟨f1, e0, f2, f3⟩ := f q (by rw [a1]; exact hq)
        exact ⟨f1, e0, by rw [← b1 q hq]; exact f2, f3⟩

theorem length_applyObject (g : GameClient) (obj : SyncedObjectData) :
    g.entities.length ≤ (applyObject g obj).entities.length := by
  unfold applyObject
  split_ifs with h
  · cases ho : g.orb with
    | none =>
      show g.entities.length ≤ (g.entities ++ _).length
      simp
    | some p =>
      show g.entities.length ≤ (setPositionAt g.entities p obj.position).length
      rw [length_setPositionAt]
  · exact le_refl _

theorem applyObject_mirror (g : GameClient) (obj : SyncedObjectData) (hg : g.WF) :
    ∀ kp ∈ g.otherPlayers, (applyObject g obj).entities[kp.2]? = g.entities[kp.2]? := by
  obtain ⟨h1, h2, h3, h4⟩ := hg
  intro kp hkp
  unfold applyObject
  split_ifs with h
  · cases ho : g.orb with
    | none =>
      show (g.entities ++ _)[kp.2]? = _
      rw [List.getElem?_append_left (h2 kp hkp).1]
    | some p =>
      show (setPositionAt g.entities p obj.position)[kp.2]? = _
      exact getElem?_setPositionAt_ne _ _ _ _ (fun e => (h3 p ho).2.2 kp hkp e.symm)
  · rfl

/-- The synced-object loop leaves the mirrors of the remote players alone. -/
theorem foldl_applyObject_mirror (objs : List SyncedObjectData) :
    ∀ g : GameClient, g.WF →
      g.entities.length ≤ (objs.foldl applyObject g).entities.length ∧
      ∀ kp ∈ g.otherPlayers, (objs.foldl applyObject g).entities[kp.2]? = g.entities[kp.2]? := by
  induction objs with
  | nil => intro g _; exact ⟨le_refl _, fun _ _ => rfl⟩
  | cons o objs ih =>
    intro g hg
    obtain ⟨a, b⟩ := ih (applyObject g o) (applyObject_wf g o hg)
    have hframe := (applyObject_frame g o hg).2.1
    simp only [List.foldl_cons]
    refine ⟨le_trans (length_applyObject g o) a, ?_⟩
    intro kp hkp
    rw [b kp (by rw [hframe]; exact hkp), applyObject_mirror g o hg kp hkp]

/-! ## Lemmas on the publish loop -/

theorem sortPlayers_perm (players : List (Int × ℚ × ℚ)) :
    (sortPlayers players).Perm players :=
  List.perm_insertionSort _ players

theorem sortPlayers_sorted (players : List (Int × ℚ × ℚ)) :
    ((sortPlayers players).map Prod.fst).Sorted (fun a b => a ≤ b) := by
  haveI : IsTotal (Int × ℚ × ℚ) (fun a b => a.1 ≤ b.1) := ⟨fun a b => le_total a.1 b.1⟩
  haveI : IsTrans (Int × ℚ × ℚ) (fun a b => a.1 ≤ b.1) := ⟨fun _ _ _ h1 h2 => le_trans h1 h2⟩
  have h := List.sorted_insertionSort (fun a b : Int × ℚ × ℚ => a.1 ≤ b.1) players
  exact List.pairwise_map.mpr h

theorem pub_loop_length (others : List (ServerState → ServerState)) :
    ∀ (tick : Int) (st : ServerState), (pub_loop tick st others).length = others.length := by
  induction others with
  | nil => intro _ _; rfl
  | cons f others ih =>
    intro tick st
    simp [pub_loop, ih]

theorem pub_loop_tick (others : List (ServerState → ServerState)) :
    ∀ (tick : Int) (st : ServerState) (k : Nat), k < others.length →
      ∃ players objs,
        (pub_loop tick st others)[k]? = some (snapshotText (tick + k + 1) players objs) := by
  induction others with
  | nil => intro _ _ k hk; exact absurd hk (by simp)
  | cons f others ih =>
    intro tick st k hk
    cases k with
    | zero =>
      refine ⟨sortPlayers (f st).players,
        (f st).syncedObjects.map (fun kv => (kv.1, pubObjectStep kv.2)), ?_⟩
      simp [pub_loop, pub_handler]
    | succ k =>
      obtain ⟨players, objs, h⟩ := ih (pub_handler tick (f st)).1 (pub_handler tick (f st)).2.1 k
        (by simpa using hk)
      refine ⟨players, objs, ?_⟩
      simp only [pub_loop, List.getElem?_cons_succ]
      rw [h]
      have e : (pub_handler tick (f st)).1 + (k : Int) + 1 = tick + ((k + 1 : Nat) : Int) + 1 := by
        simp only [pub_handler]
        push_cast
        ring
      rw [e]

/-- C11. Create-or-update of the mirrors of the remote players: when the client has received a
snapshot and applied it, every record of the snapshot whose id is not the local `playerID`, and
which is the last record of its id (every record is, when the ids of the snapshot are distinct),
has an entry in `otherPlayers` under its id, and the entity of that entry is at the position of
the record: a new `Player` object of size 64 by 64 created at that position if the id had no
mirror before, and otherwise the same object as before with its position set to that of the
record. -/
theorem remote_players_created_or_updated (playerID : Int) (snapshot : WorldSnapshot)
    (g : GameClient) (hg : g.WF) (i : Nat) (id : Int) (pos : OrderedPair)
    (hid : snapshot.playerIds[i]? = some id) (hpos : snapshot.playerPositions[i]? = some pos)
    (hne : id ≠ playerID) (hlast : ∀ j, i < j → snapshot.playerIds[j]? ≠ some id) :
    ∃ p e,
      mapFind (applySnapshot (storeSnapshot playerID snapshot) g).otherPlayers id = some p ∧
      (applySnapshot (storeSnapshot playerID snapshot) g).entities[p]? = some e ∧
      e.position = pos ∧
      (mapFind g.otherPlayers id = none →
        g.entities.length ≤ p ∧ e = newPlayer pos.x pos.y 64 64) ∧
      (∀ q, mapFind g.otherPlayers id = some q →
        p = q ∧ ∃ e0, g.entities[q]? = some e0 ∧ e = setPosition e0 pos) := by
  have hi : i < snapshot.playerIds.length := by
    by_contra hcon
    rw [List.getElem?_eq_none (by omega)] at hid
    exact absurd hid (by simp)
  have hidD : snapshot.playerIds.getD i 0 = id := by
    rw [List.getD_eq_getElem?_getD, hid]
    rfl
  have hposD : snapshot.playerPositions.getD i { x := 0, y := 0 } = pos := by
    rw [List.getD_eq_getElem?_getD, hpos]
    rfl
  have hfind : mapFind (filterPlayers playerID snapshot) id = some pos := by
    have h := mapFind_filterPlayers playerID snapshot i hi (by rw [hidD]; exact hne)
      (by
        intro j h1 h2
        rw [hidD, List.getD_eq_getElem?_getD]
        intro hcon
        apply hlast j h1
        rw [List.getElem?_eq_getElem h2] at hcon ⊢
        simp only [Option.getD_some] at hcon
        rw [hcon])
    rw [hidD, hposD] at h
    exact h
  obtain ⟨a1, _, a3, _⟩ := foldl_applyObject snapshot.syncedObjects g hg
  obtain ⟨b1, b2⟩ := foldl_applyObject_mirror snapshot.syncedObjects g hg
  obtain ⟨p, e, c1, c2, c3, c4, c5⟩ :=
    foldl_applyPlayer_entry (filterPlayers playerID snapshot)
      (snapshot.syncedObjects.foldl applyObject g) a1
      (nodup_keys_filterPlayers playerID snapshot) (id, pos)
      (mapFind_some_mem _ _ _ hfind)
  have happ : applySnapshot (storeSnapshot playerID snapshot) g
      = (filterPlayers playerID snapshot).foldl applyPlayer
          (snapshot.syncedObjects.foldl applyObject g) := by
    simp [applySnapshot, storeSnapshot]
  rw [happ]
  rw [a3] at c4 c5
  refine ⟨p, e, c1, c2, c3, ?_, ?_⟩
  · intro hnone
    obtain ⟨d1, d2⟩ := c4 hnone
    exact ⟨le_trans b1 d1, d2⟩
  · intro q hq
    obtain ⟨d1, e0, d2, d3⟩ := c5 q hq
    refine ⟨d1, e0, ?_, d3⟩
    rw [← b2 (id, q) (mapFind_some_mem _ _ _ hq)]
    exact d2

/-- Witness of C11: the game of `main`, whose local player has id 7, applies a snapshot with the
records of players 7 and 3; player 3 gets a mirror at its position `(10, 20)`. -/
theorem remote_players_created_or_updated_witness :
    ∃ p e,
      mapFind (applySnapshot (storeSnapshot 7
        { tick := 1, playerIds := [7, 3],
          playerPositions := [{ x := 1, y := 2 }, { x := 10, y := 20 }],
          syncedObjects := [] }) initialGame).otherPlayers 3 = some p ∧
      (applySnapshot (storeSnapshot 7
        { tick := 1, playerIds := [7, 3],
          playerPositions := [{ x := 1, y := 2 }, { x := 10, y := 20 }],
          syncedObjects := [] }) initialGame).entities[p]? = some e ∧
      e.position = { x := 10, y := 20 } ∧
      (mapFind initialGame.otherPlayers 3 = none →
        initialGame.entities.length ≤ p ∧
          e = newPlayer (OrderedPair.mk 10 20).x (OrderedPair.mk 10 20).y 64 64) ∧
      (∀ q, mapFind initialGame.otherPlayers 3 = some q →
        p = q ∧ ∃ e0, initialGame.entities[q]? = some e0 ∧ e = setPosition e0 { x := 10, y := 20 }) :=
  remote_players_created_or_updated 7
    { tick := 1, playerIds := [7, 3],
      playerPositions := [{ x := 1, y := 2 }, { x := 10, y := 20 }], syncedObjects := [] }
    initialGame initialGame_wf 1 3 { x := 10, y := 20 } rfl rfl (by decide)
    (by
      intro j hj
      have h2 : ([7, 3] : List Int).length ≤ j := by
        simp only [List.length_cons, List.length_nil]
        omega
      rw [List.getElem?_eq_none h2]
      simp)

/-- C12 (evaluation). The mirror that reconciliation creates for remote player 3 at `(1, 2)` in
the game of `main` is a `Player` object subject to gravity; its simulation step
`Player::update(dt)` with `dt = 0.001` and the gravity 200 that `main` sets gives it a downward
velocity of magnitude `0.2` and moves it from `(1, 2)` to `(1, 2.0002)`, whatever the values of
the two action masks: the step is not a no-op. -/
theorem mirror_is_simulated (ACTION_DODGE ACTION_JUMP : Nat) :
    (applySnapshot (storeSnapshot 7
      { tick := 1, playerIds := [3], playerPositions := [{ x := 1, y := 2 }],
        syncedObjects := [] }) initialGame).otherPlayers = [(3, 2)] ∧
    (applySnapshot (storeSnapshot 7
      { tick := 1, playerIds := [3], playerPositions := [{ x := 1, y := 2 }],
        syncedObjects := [] }) initialGame).entities
      = [newStatic 300 800 96 32, newPlayer 300 500 64 64, newPlayer 1 2 64 64] ∧
    (playerUpdate 200 ACTION_DODGE ACTION_JUMP
      [newStatic 300 800 96 32, newPlayer 300 500 64 64, newPlayer 1 2 64 64] 2 (1 / 1000)
      (newPlayer 1 2 64 64)).position = { x := 1, y := 10001 / 5000 } ∧
    (playerUpdate 200 ACTION_DODGE ACTION_JUMP
      [newStatic 300 800 96 32, newPlayer 300 500 64 64, newPlayer 1 2 64 64] 2 (1 / 1000)
      (newPlayer 1 2 64 64)).velocity = { direction := { x := 0, y := 1 }, magnitude := 1 / 5 } ∧
    (playerUpdate 200 ACTION_DODGE ACTION_JUMP
      [newStatic 300 800 96 32, newPlayer 300 500 64 64, newPlayer 1 2 64 64] 2 (1 / 1000)
      (newPlayer 1 2 64 64)).position ≠ (newPlayer 1 2 64 64).position := by
  have hland : forEntities (landOn 2)
      { entityUpdate 200 (1 / 1000) (dodgeTick (1 / 1000) (newPlayer 1 2 64 64)) with
        isOnGround := false } 0
      [newStatic 300 800 96 32, newPlayer 300 500 64 64, newPlayer 1 2 64 64]
      = { newPlayer 1 2 64 64 with
          position := { x := 1, y := 10001 / 5000 },
          velocity := { direction := { x := 0, y := 1 }, magnitude := 1 / 5 } } := by
    decide!
  have hact : handleActions ACTION_DODGE ACTION_JUMP
      { newPlayer 1 2 64 64 with
        position := { x := 1, y := 10001 / 5000 },
        velocity := { direction := { x := 0, y := 1 }, magnitude := 1 / 5 } }
      = { newPlayer 1 2 64 64 with
          position := { x := 1, y := 10001 / 5000 },
          velocity := { direction := { x := 0, y := 1 }, magnitude := 1 / 5 } } := by
    simp [handleActions, newPlayer, Nat.zero_and]
  have hhit : forEntities (hitBy 2)
      { newPlayer 1 2 64 64 with
        position := { x := 1, y := 10001 / 5000 },
        velocity := { direction := { x := 0, y := 1 }, magnitude := 1 / 5 } } 0
      [newStatic 300 800 96 32, newPlayer 300 500 64 64, newPlayer 1 2 64 64]
      = { newPlayer 1 2 64 64 with
          position := { x := 1, y := 10001 / 5000 },
          velocity := { direction := { x := 0, y := 1 }, magnitude := 1 / 5 } } := by
    decide!
  have hstep : playerUpdate 200 ACTION_DODGE ACTION_JUMP
      [newStatic 300 800 96 32, newPlayer 300 500 64 64, newPlayer 1 2 64 64] 2 (1 / 1000)
      (newPlayer 1 2 64 64)
      = { newPlayer 1 2 64 64 with
          position := { x := 1, y := 10001 / 5000 },
          velocity := { direction := { x := 0, y := 1 }, magnitude := 1 / 5 } } := by
    have hp : (newPlayer 1 2 64 64).paused = false := rfl
    unfold playerUpdate
    rw [hp, hland, hact, hhit]
    rfl
  refine ⟨by decide!, by decide!, ?_, ?_, ?_⟩
  · rw [hstep]
  · rw [hstep]
  · rw [hstep]
    decide!

/-- C13. The players of a snapshot are ordered by id: the text that a publish cycle of
`pub_handler` builds holds, after the header, the records of the sorted copy of the players; the
ids of these records are strictly ascending, the records are the entries of the players map, each
once (every id of the map is the id of exactly one record), and the `numPlayers` field of the
header is the number of these records. -/
theorem players_sorted_by_id (tick : Int) (st : ServerState) (hkeys : (keys st.players).Nodup) :
    (pub_handler tick st).2.2
      = "SNAP ".toList ++ (showInt (tick + 1) ++ ' ' ::
          (showNat (sortPlayers st.players).length ++ ' ' ::
            (showNat (pub_handler tick st).2.1.syncedObjects.length ++ ' ' ::
              (((sortPlayers st.players).map playerRecord).flatten ++
                ((pub_handler tick st).2.1.syncedObjects.map
                  (fun kv => objectRecord kv.2)).flatten)))) ∧
    ((sortPlayers st.players).map Prod.fst).Sorted (fun a b => a < b) ∧
    (sortPlayers st.players).Perm st.players ∧
    (∀ id, id ∈ keys st.players → ((sortPlayers st.players).map Prod.fst).count id = 1) ∧
    (sortPlayers st.players).length = st.players.length := by
  have hperm := sortPlayers_perm st.players
  have hnd : ((sortPlayers st.players).map Prod.fst).Nodup :=
    ((hperm.map Prod.fst).nodup_iff).mpr hkeys
  refine ⟨rfl, (sortPlayers_sorted st.players).lt_of_le hnd, hperm, ?_, hperm.length_eq⟩
  intro id hid
  apply List.count_eq_one_of_mem hnd
  exact ((hperm.map Prod.fst).mem_iff).mpr hid

/-- Witness of C13: with player 2 entered into the map before player 1, the ids of the records
are ascending. -/
theorem players_sorted_by_id_witness :
    ((sortPlayers [(2, 10, 20), (1, 1, 2)]).map Prod.fst).Sorted (fun a b => a < b) ∧
    (sortPlayers [(2, 10, 20), (1, 1, 2)]).length = 2 :=
  ⟨(players_sorted_by_id 0
      { players := [(2, 10, 20), (1, 1, 2)], syncedObjects := initializeSyncedObjects [] }
      (by simp [keys])).2.1,
   (players_sorted_by_id 0
      { players := [(2, 10, 20), (1, 1, 2)], syncedObjects := initializeSyncedObjects [] }
      (by simp [keys])).2.2.2.2⟩

/-- C14 (evaluation). Populated with the orb first and the platform second, the registry is
iterated in that order, and the snapshot text of the first publish cycle writes the record of
object 1 before the record of object 0: the players are sorted by id before they are written, the
synced objects are written in the iteration order of the registry. -/
theorem objects_not_sorted :
    (pub_handler 0
      { players := [(2, 10, 20), (1, 1, 2)],
        syncedObjects :=
          mapSet
            (mapSet [] 1
              { position := { x := 1920 - 128, y := 0 }, velocity := { x := -400, y := 180 },
                type := 1, id := 1 })
            0
            { position := { x := 1100, y := 700 }, velocity := { x := 150, y := 0 }, type := 0,
              id := 0 } }).2.2
      = "SNAP 1 2 2 1 1 2 2 10 20 1 1 1778.8 5.94 0 0 1104.95 700 ".toList := by
  decide!

/-- C15. The tick counter of `pub_handler`: the thread publishes one snapshot per cycle, and the
snapshot of the cycle of index `k` (counted from 0, so the `(k + 1)`-th published snapshot) is
the text built with the tick `k + 1`, which starts with `SNAP`, a space, the decimal text of
`k + 1` and a space, whatever the other threads do to the players and the synced objects between
the cycles: the counter starts at 0 and is incremented once per cycle. -/
theorem snapshot_tick_is_index (st : ServerState) (others : List (ServerState → ServerState)) :
    (pub_thread st others).length = others.length ∧
    ∀ k : Nat, k < others.length →
      ∃ players objs rest,
        (pub_thread st others)[k]? = some (snapshotText ((k : Int) + 1) players objs) ∧
        snapshotText ((k : Int) + 1) players objs
          = "SNAP ".toList ++ (showInt ((k : Int) + 1) ++ ' ' :: rest) := by
  refine ⟨pub_loop_length others 0 _, ?_⟩
  intro k hk
  obtain ⟨players, objs, h⟩ := pub_loop_tick others 0
    { st with syncedObjects := initializeSyncedObjects st.syncedObjects } k hk
  refine ⟨players, objs, _, ?_, rfl⟩
  rw [pub_thread, h]
  simp

/-- Witness of C15: in a run of three cycles the third snapshot carries the tick 3. -/
theorem snapshot_tick_is_index_witness :
    ∃ players objs rest,
      (pub_thread { players := [], syncedObjects := [] } [id, id, id])[2]?
        = some (snapshotText (((2 : Nat) : Int) + 1) players objs) ∧
      snapshotText (((2 : Nat) : Int) + 1) players objs
        = "SNAP ".toList ++ (showInt (((2 : Nat) : Int) + 1) ++ ' ' :: rest) :=
  (snapshot_tick_is_index { players := [], syncedObjects := [] } [id, id, id]).2 2 (by decide)

/-- C16 (evaluation). In a step with `playerID = 7`, step counter `currentTick = 5`, action mask
`3` and the local player at `(10, 20)`, the command built by the update lambda carries the step
counter in its member `actions` and the action mask in its member `tick`, and the text that
`Client::sendCommand` builds from it is `CMD 7 3 5 10 20`: the second number is the action mask
and the third is the step counter, not `CMD 7 5 3 10 20`. -/
theorem command_fields_swapped :
    (buildCommand 7 5 3 { x := 10, y := 20 }).actions = 5 ∧
    (buildCommand 7 5 3 { x := 10, y := 20 }).tick = 3 ∧
    commandText (buildCommand 7 5 3 { x := 10, y := 20 }) = "CMD 7 3 5 10 20".toList ∧
    commandText (buildCommand 7 5 3 { x := 10, y := 20 }) ≠ "CMD 7 5 3 10 20".toList := by
  decide!

/-- C17 (counterexample). One publish cycle on the registry of `initializeSyncedObjects` moves
both objects: the platform from `x = 1100` to `x = 1104.95` and the orb from `(1792, 0)` to
`(1778.8, 5.94)`. -/
theorem pub_handler_moves_objects :
    (pub_handler 0 { players := [], syncedObjects := initializeSyncedObjects [] }).2.1.syncedObjects
      = [(0, { position := { x := 110495 / 100, y := 700 }, velocity := { x := 150, y := 0 },
               type := 0, id := 0 }),
         (1, { position := { x := 17788 / 10, y := 594 / 100 },
               velocity := { x := -400, y := 180 }, type := 1, id := 1 })] ∧
    (pub_handler 0 { players := [], syncedObjects := initializeSyncedObjects [] }).2.1.syncedObjects
      ≠ initializeSyncedObjects [] := by
  decide!

/-- C17 (amended). One publish cycle of `pub_handler` leaves the players as they were and
replaces every synced object, in place and under the same key, by its image under the per-type
update with the fixed step `0.033`: for a type-0 object this is the platform rule of the object
ticker taken with `dt = 0.033`, for a type-1 object the position becomes the integrated point or
the spawn anchor and the velocity is kept, and an object of any other type is unchanged; the id
and the type of every object are kept. -/
theorem pub_handler_updates_objects (tick : Int) (st : ServerState) :
    (pub_handler tick st).2.1.players = st.players ∧
    (pub_handler tick st).2.1.syncedObjects
      = st.syncedObjects.map (fun kv => (kv.1, pubObjectStep kv.2)) ∧
    (∀ obj : SyncedObject,
      (pubObjectStep obj).id = obj.id ∧ (pubObjectStep obj).type = obj.type ∧
      (obj.type = 0 → pubObjectStep obj = tickerObjectStep (33 / 1000) obj) ∧
      (obj.type = 1 →
        (pubObjectStep obj).velocity = obj.velocity ∧
        (pubObjectStep obj).position =
          (if obj.position.x + obj.velocity.x * (33 / 1000) + 128 < 0
              ∨ 1080 < obj.position.y + obj.velocity.y * (33 / 1000) then
            { x := 1792, y := 0 }
          else
            { x := obj.position.x + obj.velocity.x * (33 / 1000),
              y := obj.position.y + obj.velocity.y * (33 / 1000) })) ∧
      (obj.type ≠ 0 → obj.type ≠ 1 → pubObjectStep obj = obj)) := by
  have h10 : ¬ ((1 : Int) = 0) := by decide
  refine ⟨rfl, rfl, ?_⟩
  intro obj
  refine ⟨?_, ?_, ?_, ?_, ?_⟩
  · unfold pubObjectStep
    split_ifs <;> rfl
  · unfold pubObjectStep
    split_ifs <;> rfl
  · intro h0
    simp only [pubObjectStep, tickerObjectStep, h0, if_true]
  · intro h1
    constructor
    · simp only [pubObjectStep, h1, h10, if_false, if_true]
      split_ifs <;> rfl
    · simp only [pubObjectStep, h1, h10, if_false, if_true]
      split_ifs <;> norm_num
  · intro h0 h1
    simp only [pubObjectStep, h0, h1, if_false]

/-- Witness of C17 (amended): the platform of the registry in a publish cycle is moved by the
platform rule with step `0.033`, and the orb keeps its velocity. -/
theorem pub_handler_updates_objects_witness :
    pubObjectStep
        { position := { x := 1100, y := 700 }, velocity := { x := 150, y := 0 }, type := 0,
          id := 0 }
      = tickerObjectStep (33 / 1000)
        { position := { x := 1100, y := 700 }, velocity := { x := 150, y := 0 }, type := 0,
          id := 0 } ∧
    (pubObjectStep
        { position := { x := 1792, y := 0 }, velocity := { x := -400, y := 180 }, type := 1,
          id := 1 }).velocity = { x := -400, y := 180 } ∧
    pubObjectStep
        { position := { x := 5, y := 6 }, velocity := { x := 7, y := 8 }, type := 2, id := 2 }
      = { position := { x := 5, y := 6 }, velocity := { x := 7, y := 8 }, type := 2, id := 2 } :=
  ⟨((pub_handler_updates_objects 0 { players := [], syncedObjects := [] }).2.2
      { position := { x := 1100, y := 700 }, velocity := { x := 150, y := 0 }, type := 0,
        id := 0 }).2.2.1 rfl,
   (((pub_handler_updates_objects 0 { players := [], syncedObjects := [] }).2.2
      { position := { x := 1792, y := 0 }, velocity := { x := -400, y := 180 }, type := 1,
        id := 1 }).2.2.2.1 rfl).1,
   ((pub_handler_updates_objects 0 { players := [], syncedObjects := [] }).2.2
      { position := { x := 5, y := 6 }, velocity := { x := 7, y := 8 }, type := 2,
        id := 2 }).2.2.2.2 (by decide) (by decide)⟩

/-- C18 (counterexample). One pass of `objects_thread_func` with a measured step of 16 ms leaves
the orb of the registry at `(1792, 0)`; the orb rule would have moved it to `(1785.6, 2.88)`. -/
theorem ticker_skips_orb :
    objects_thread_func (16 / 1000)
        [(1, { position := { x := 1792, y := 0 }, velocity := { x := -400, y := 180 }, type := 1,
               id := 1 })]
      = [(1, { position := { x := 1792, y := 0 }, velocity := { x := -400, y := 180 }, type := 1,
               id := 1 })] ∧
    (tickerObjectStep (16 / 1000)
        { position := { x := 1792, y := 0 }, velocity := { x := -400, y := 180 }, type := 1,
          id := 1 }).position
      ≠ { x := 1792 + -400 * (16 / 1000), y := 0 + 180 * (16 / 1000) } := by
  decide!

/-- C18 (amended). One pass of `objects_thread_func` with the measured step `dt` applies the
platform rule to every type-0 object (integrate `x` by `velocity.x * dt`, clamp to `[1000, 1300]`
with the velocity replaced on a bound) and leaves every object of another type, the type-1 orb
included, exactly as it was; the keys and the order of the registry are kept. -/
theorem ticker_moves_platforms_only (dt : ℚ) (objs : List (Int × SyncedObject)) :
    objects_thread_func dt objs = objs.map (fun kv => (kv.1, tickerObjectStep dt kv.2)) ∧
    (∀ obj : SyncedObject, obj.type ≠ 0 → tickerObjectStep dt obj = obj) ∧
    (∀ obj : SyncedObject, obj.type = 1 → tickerObjectStep dt obj = obj) ∧
    (∀ obj : SyncedObject, obj.type = 0 →
      tickerObjectStep dt obj =
        (if obj.position.x + obj.velocity.x * dt ≤ 1000 then
          { obj with position := { x := 1000, y := obj.position.y },
                     velocity := { x := 150, y := obj.velocity.y } }
        else if 1300 ≤ obj.position.x + obj.velocity.x * dt then
          { obj with position := { x := 1300, y := obj.position.y },
                     velocity := { x := -150, y := obj.velocity.y } }
        else
          { obj with position := { x := obj.position.x + obj.velocity.x * dt,
                                   y := obj.position.y } })) := by
  have h10 : ¬ ((1 : Int) = 0) := by decide
  refine ⟨rfl, ?_, ?_, ?_⟩
  · intro obj h0
    simp only [tickerObjectStep, h0, if_false]
  · intro obj h1
    simp only [tickerObjectStep, h1, h10, if_false]
  · intro obj h0
    simp only [tickerObjectStep, h0, if_true]
    have e : (1500 ≤ obj.position.x + obj.velocity.x * dt + 200)
        ↔ (1300 ≤ obj.position.x + obj.velocity.x * dt) := by
      constructor <;> intro h <;> linarith
    simp only [e]
    norm_num

/-- Witness of C18 (amended): with a step of 16 ms the orb of the registry is left as it was and
the platform of the registry is moved by the platform rule. -/
theorem ticker_moves_platforms_only_witness :
    tickerObjectStep (16 / 1000)
        { position := { x := 1792, y := 0 }, velocity := { x := -400, y := 180 }, type := 1,
          id := 1 }
      = { position := { x := 1792, y := 0 }, velocity := { x := -400, y := 180 }, type := 1,
          id := 1 } ∧
    (tickerObjectStep (16 / 1000)
        { position := { x := 1100, y := 700 }, velocity := { x := 150, y := 0 }, type := 0,
          id := 0 }).position = { x := 11024 / 10, y := 700 } :=
  ⟨(ticker_moves_platforms_only (16 / 1000) []).2.2.1
      { position := { x := 1792, y := 0 }, velocity := { x := -400, y := 180 }, type := 1,
        id := 1 } rfl,
   by
    rw [(ticker_moves_platforms_only (16 / 1000) []).2.2.2
      { position := { x := 1100, y := 700 }, velocity := { x := 150, y := 0 }, type := 0,
        id := 0 } rfl]
    norm_num⟩

/-- C19. The platform stays in its interval: for every type-0 object, with any position and any
velocity, the update of `objects_thread_func` with every time step `dt` and the update of
`pub_handler` with its fixed step leave `x` in the closed interval `[1000, 1300]`; and when the
new `x` is on a bound the new `velocity.x` points into the interior: it is positive at `1000` and
negative at `1300`. -/
theorem platform_stays_in_interval (obj : SyncedObject) (dt : ℚ) (htype : obj.type = 0) :
    (1000 ≤ (tickerObjectStep dt obj).position.x ∧ (tickerObjectStep dt obj).position.x ≤ 1300 ∧
      ((tickerObjectStep dt obj).position.x = 1000 → 0 < (tickerObjectStep dt obj).velocity.x) ∧
      ((tickerObjectStep dt obj).position.x = 1300 → (tickerObjectStep dt obj).velocity.x < 0)) ∧
    (1000 ≤ (pubObjectStep obj).position.x ∧ (pubObjectStep obj).position.x ≤ 1300 ∧
      ((pubObjectStep obj).position.x = 1000 → 0 < (pubObjectStep obj).velocity.x) ∧
      ((pubObjectStep obj).position.x = 1300 → (pubObjectStep obj).velocity.x < 0)) := by
  have key : ∀ d : ℚ,
      1000 ≤ (tickerObjectStep d obj).position.x ∧ (tickerObjectStep d obj).position.x ≤ 1300 ∧
      ((tickerObjectStep d obj).position.x = 1000 → 0 < (tickerObjectStep d obj).velocity.x) ∧
      ((tickerObjectStep d obj).position.x = 1300 → (tickerObjectStep d obj).velocity.x < 0) := by
    intro d
    simp only [tickerObjectStep, htype, if_true]
    by_cases h1 : obj.position.x + obj.velocity.x * d ≤ 1000
    · simp only [if_pos h1]
      norm_num
    · by_cases h2 : 1500 ≤ obj.position.x + obj.velocity.x * d + 200
      · simp only [if_neg h1, if_pos h2]
        norm_num
      · simp only [if_neg h1, if_neg h2]
        push_neg at h1 h2
        refine ⟨by linarith, by linarith, ?_, ?_⟩
        · intro h
          linarith
        · intro h
          linarith
  have hpub : pubObjectStep obj = tickerObjectStep (33 / 1000) obj := by
    simp only [pubObjectStep, tickerObjectStep, htype, if_true]
  refine ⟨key dt, ?_⟩
  rw [hpub]
  exact key (33 / 1000)

/-- Witness of C19: a platform at `x = 1290` moving right at 150, with a step of a tenth of a
second, is placed on the high bound with a negative velocity. -/
theorem platform_stays_in_interval_witness :
    (1000 ≤ (tickerObjectStep (1 / 10)
        { position := { x := 1290, y := 700 }, velocity := { x := 150, y := 0 }, type := 0,
          id := 0 }).position.x ∧
     (tickerObjectStep (1 / 10)
        { position := { x := 1290, y := 700 }, velocity := { x := 150, y := 0 }, type := 0,
          id := 0 }).position.x ≤ 1300 ∧
     ((tickerObjectStep (1 / 10)
        { position := { x := 1290, y := 700 }, velocity := { x := 150, y := 0 }, type := 0,
          id := 0 }).position.x = 1000 →
       0 < (tickerObjectStep (1 / 10)
        { position := { x := 1290, y := 700 }, velocity := { x := 150, y := 0 }, type := 0,
          id := 0 }).velocity.x) ∧
     ((tickerObjectStep (1 / 10)
        { position := { x := 1290, y := 700 }, velocity := { x := 150, y := 0 }, type := 0,
          id := 0 }).position.x = 1300 →
       (tickerObjectStep (1 / 10)
        { position := { x := 1290, y := 700 }, velocity := { x := 150, y := 0 }, type := 0,
          id := 0 }).velocity.x < 0)) :=
  (platform_stays_in_interval
    { position := { x := 1290, y := 700 }, velocity := { x := 150, y := 0 }, type := 0, id := 0 }
    (1 / 10) rfl).1

/-- C20 (evaluation). A call of `Client::sendCommand` with the flag clear whose send times out
leaves the flag set although nothing was sent; from then on every call whose receive finds no
acknowledgment returns without sending, also when the transport would accept the command. -/
theorem flag_set_after_failed_send :
    sendCommand false none false ⟨7, 3, 5, 10, 20⟩
      = (true, [NetEvent.sendFailed "CMD 7 5 3 10 20".toList]) ∧
    sendCommands false
        [(none, false, ⟨7, 3, 5, 10, 20⟩), (none, true, ⟨7, 3, 6, 10, 20⟩),
         (none, true, ⟨7, 3, 7, 10, 20⟩)]
      = (true, [NetEvent.sendFailed "CMD 7 5 3 10 20".toList]) := by
  decide!

/-- C21 (counterexample). The reply endpoint of client slot 0 receives `CMD 2 0 0 5 5`: the entry
of the players map under key 2, which is not the slot, is changed from `(3, 4)` to `(5, 5)`, and
the entry under key 0 is left as it was. -/
theorem slot_updates_other_id :
    (reply_slot 0 [(0, 1, 2), (2, 3, 4)] [some "CMD 2 0 0 5 5".toList]).2.1
      = [(0, 1, 2), (2, 5, 5)] ∧
    mapFind (reply_slot 0 [(0, 1, 2), (2, 3, 4)] [some "CMD 2 0 0 5 5".toList]).2.1 2
      ≠ mapFind [(0, 1, 2), (2, 3, 4)] 2 := by
  decide!

/-- C21 (amended). Each endpoint updates the entry of the id that the payload names: for every
client slot and every payload received on its reply endpoint, `reply_handler` leaves the players
map as `ingest` gives it; when the payload decodes as a command with the tag `CMD`, the entry
under the id field of the payload holds the position of the payload and every entry under another
key is unchanged; when the payload does not decode so, the map is unchanged.  The slot index
selects the port and nothing else: the map and the traffic are the same for every slot and every
sequence of payloads. -/
theorem slot_updates_payload_id (clientID : Int) (players : List (Int × ℚ × ℚ)) (req : Text) :
    (reply_slot clientID players [some req]).1 = 5556 + clientID ∧
    (reply_slot clientID players [some req]).2.1 = ingest players req ∧
    (∀ (k : Int) (received : List (Option Text)),
      (reply_slot k players received).2 = (reply_slot clientID players received).2) ∧
    (∀ cmd id tick actions x y, extractCommand req = some (cmd, id, tick, actions, x, y) →
      cmd = "CMD".toList →
      mapFind (ingest players req) id = some (x, y) ∧
      ∀ key, key ≠ id → mapFind (ingest players req) key = mapFind players key) ∧
    ((∀ cmd id tick actions x y, extractCommand req = some (cmd, id, tick, actions, x, y) →
        cmd ≠ "CMD".toList) →
      ingest players req = players) := by
  refine ⟨rfl, rfl, fun _ _ => rfl, ?_, ?_⟩
  · intro cmd id tick actions x y h hcmd
    have hing : ingest players req = mapSet players id (x, y) := by
      simp [ingest, h, hcmd]
    rw [hing]
    refine ⟨mapFind_mapSet_self _ _ _, ?_⟩
    intro key hkey
    exact mapFind_mapSet_ne _ _ _ _ (fun e => hkey e.symm)
  · intro h
    unfold ingest
    cases hx : extractCommand req with
    | none => rfl
    | some t =>
      obtain ⟨cmd, id, tick, actions, x, y⟩ := t
      have hne : cmd ≠ "CMD".toList := h cmd id tick actions x y hx
      simp only [if_neg hne]

/-- Witness of C21 (amended): the payload `CMD 2 0 0 5 5` on the endpoint of slot 0 sets the
entry of player 2 and leaves the other entries as they were. -/
theorem slot_updates_payload_id_witness :
    mapFind (ingest [(0, 1, 2), (2, 3, 4)] "CMD 2 0 0 5 5".toList) 2 = some (5, 5) ∧
    ∀ key, key ≠ 2 →
      mapFind (ingest [(0, 1, 2), (2, 3, 4)] "CMD 2 0 0 5 5".toList) key
        = mapFind [(0, 1, 2), (2, 3, 4)] key :=
  (slot_updates_payload_id 0 [(0, 1, 2), (2, 3, 4)] "CMD 2 0 0 5 5".toList).2.2.2.1
    "CMD".toList 2 0 0 5 5 (by decide!) rfl

/-- C22 (evaluation). A payload whose header announces a negative number of players, such as
`SNAP 1 -1 0`, or a negative number of objects, such as `SNAP 1 0 -1`, makes the `resize` of
`Client::pollUpdate` throw: the call returns neither `true` nor `false`, and nothing in
`networkReceiveThread` catches the exception.  In the embedding, where a `resize` to a count that
is not negative succeeds, `pollUpdate` throws exactly on the payloads whose header parses with a
negative count. -/
theorem pollUpdate_throws_on_negative_count :
    pollUpdate (some "SNAP 1 -1 0".toList) freshSnapshot
      = PollResult.threw { tick := 1, playerIds := [], playerPositions := [],
                           syncedObjects := [] } ∧
    pollUpdate (some "SNAP 1 0 -1".toList) freshSnapshot
      = PollResult.threw { tick := 1, playerIds := [], playerPositions := [],
                           syncedObjects := [] } ∧
    networkReceiveThread 7 latestSnapshot0 (some "SNAP 1 -1 0".toList) = none ∧
    (∀ (data : Text) (out : WorldSnapshot),
      (∃ o, pollUpdate (some data) out = PollResult.threw o) ↔
        ∃ tick playerCount objectCount rest,
          extractHeader data = some (tick, playerCount, objectCount, rest) ∧
          (playerCount < 0 ∨ objectCount < 0)) := by
  refine ⟨by decide!, by decide!, by decide!, ?_⟩
  intro data out
  unfold pollUpdate extractHeader
  simp only
  cases hw : readWord data with
  | none => simp
  | some w =>
    obtain ⟨tag, s1⟩ := w
    simp only
    by_cases htag : tag = "SNAP".toList
    · simp only [htag, ne_eq, not_true_eq_false, if_false]
      cases h1 : readInt s1 with
      | none => simp
      | some r1 =>
        obtain ⟨tick, s2⟩ := r1
        simp only
        cases h2 : readInt s2 with
        | none => simp
        | some r2 =>
          obtain ⟨pc, s3⟩ := r2
          simp only
          cases h3 : readInt s3 with
          | none => simp
          | some r3 =>
            obtain ⟨oc, s4⟩ := r3
            simp only
            by_cases hp : pc < 0
            · simp only [hp, if_true]
              exact ⟨fun _ => ⟨tick, pc, oc, s4, rfl, Or.inl hp⟩, fun _ => ⟨_, rfl⟩⟩
            · by_cases ho : oc < 0
              · simp only [hp, ho, if_true, if_false]
                exact ⟨fun _ => ⟨tick, pc, oc, s4, rfl, Or.inr ho⟩, fun _ => ⟨_, rfl⟩⟩
              · simp only [hp, ho, if_false]
                constructor
                · rintro ⟨o, h⟩
                  exfalso
                  revert h
                  generalize pollPlayers pc.toNat 0 s4 _ = r
                  obtain ⟨b, s5, out1⟩ := r
                  cases b with
                  | false => simp
                  | true =>
                    simp only
                    generalize pollObjects oc.toNat 0 s5 out1 = r2
                    obtain ⟨ok, s6, out2⟩ := r2
                    simp
                · rintro ⟨t, p, o, r, h, hneg⟩
                  simp only [Option.some.injEq, Prod.mk.injEq] at h
                  obtain ⟨_, rfl, rfl, _⟩ := h
                  rcases hneg with h | h
                  · exact absurd h hp
                  · exact absurd h ho
    · simp only [ne_eq, htag, not_false_eq_true, if_true]
      simp

end CSC481
